import Mathlib

/-!
Shallow embedding of the portfolio-tracker ledger engine (JavaScript) in Lean 4.

Conventions of the embedding:
* The arbitrary-precision `Decimal` type of the source is modelled by `ℚ`.
  All monetary amounts and share counts in the source are decimal fractions,
  for which `Decimal` arithmetic (`plus`, `minus`, `times`, `negated`,
  comparisons, `equals`, `isZero`) coincides with exact rational arithmetic.
* JavaScript `Date` values are modelled by `ℤ` (a day ordinal); the source only
  compares dates and takes day differences.
* A thrown JavaScript `Error` is modelled by `Except.error` carrying the message.
  JavaScript exceptions do not roll back mutations already performed on the
  portfolio objects, so every state-mutating operation returns the
  (possibly partially mutated) state alongside the `Except` result.
* JavaScript `Map` objects (insertion-ordered, keyed by strings) are modelled
  by association lists together with `alGet` / `alSet`.
-/

/-- `Decimal` of decimal.js, restricted to the finite non-NaN values the
program produces, is modelled by `ℚ`. -/
abbrev Decimal := ℚ

/-- Multiplicity of a prime-like factor `p` in `n` (used for the denominator
analysis behind `Decimal.decimalPlaces`). -/
def pMult (p n : ℕ) : ℕ :=
  if h : 1 < p ∧ n ≠ 0 ∧ n % p = 0 then pMult p (n / p) + 1 else 0
termination_by n
decreasing_by
  exact Nat.div_lt_self (Nat.pos_of_ne_zero h.2.1) h.1

/-- `Decimal.decimalPlaces()`: number of decimal places of a decimal fraction.
For a reduced rational with denominator `2^a * 5^b` this is `max a b`; every
value the program feeds into it is such a decimal fraction. -/
def decimalPlaces (q : ℚ) : ℕ := max (pMult 2 q.den) (pMult 5 q.den)

/-- Rounding of `x` to the nearest integer, ties away from zero; this is
decimal.js `ROUND_HALF_UP`, the default rounding of `toDecimalPlaces`. -/
def roundHalfAwayFromZero (x : ℚ) : ℤ :=
  if 0 ≤ x then ⌊x + 1/2⌋ else -⌊-x + 1/2⌋

/-- `Decimal.toDecimalPlaces(2)` with the default `ROUND_HALF_UP` rounding. -/
def toDecimalPlaces2 (q : ℚ) : ℚ := (roundHalfAwayFromZero (q * 100) : ℚ) / 100

/-- `Decimal.toDecimalPlaces(2, Decimal.ROUND_FLOOR)`. -/
def toDecimalPlaces2Floor (q : ℚ) : ℚ := ((⌊q * 100⌋ : ℤ) : ℚ) / 100

/-! ## VRes (utils.js) -/

/-- Core of a `VRes`: either a success carrying a value or a failure carrying
a message (utils.js `VRes`, with `this.isFailure` / `this.value` /
`this.message`). -/
inductive VResCore (α : Type) where
  | ok (value : α)
  | fail (message : String)
deriving DecidableEq, Repr

/-- `VRes` of utils.js: a success/failure core plus the accumulated warnings
list (the constructor stores `warnings` in both cases). -/
structure VRes (α : Type) where
  core : VResCore α
  warnings : List String
deriving DecidableEq, Repr

/-- Outcome of a non-throwing `VRes.getOrThrow` call: either the plain value
(`return this.value`) or the `[this.value, this.warnings]` pair. -/
inductive GetOut (α : Type) where
  | plain (value : α)
  | pair (value : α) (warnings : List String)
deriving DecidableEq, Repr

/-- `VRes.getOrThrow(prefix, getWithWarnings)` from utils.js.  A `none`
prefix models the `undefined` default.  A thrown `Error` is an
`Except.error`. -/
def VRes.getOrThrow (r : VRes α) (pfx : Option String) (getWithWarnings : Bool) :
    Except String (GetOut α) :=
  match r.core with
  | .fail m =>
    match pfx with
    | some p => .error (p ++ ": " ++ m)
    | none => .error m
  | .ok v =>
    if getWithWarnings then
      .ok (.pair v r.warnings)
    else if r.warnings.length > 0 then
      .error "VRes has warnings, but getWithWarnings is false. Use getWithWarnings to retrieve them."
    else
      .ok (.plain v)

/-! ## Change records (history.js records file) -/

/-- Keys of the `CashChangeType` enum (frozen object in the records file). -/
def cashChangeTypeNames : List String :=
  ["CASH_DEPOSIT", "CASH_TRANSFER", "CASH_CURRENCY_CONVERSION", "STOCK_BUY",
   "STOCK_SELL", "STOCK_DIVIDEND", "STOCK_PUBLIC_TO_PRIVATE_SHARE_CONVERSION",
   "STOCK_UNSPECIFIC_ACCOUNTING_INCOME", "INDEX_FUND_BUY", "INDEX_FUND_SELL",
   "BOND_BUY", "BOND_INTEREST"]

/-- Keys of the `StockChangeType` enum. -/
def stockChangeTypeNames : List String :=
  ["BUY", "SELL", "DIVIDEND", "PUBLIC_TO_PRIVATE_SHARE_CONVERSION",
   "UNSPECIFIC_ACCOUNTING_INCOME"]

/-- Keys of the `IndexFundChangeType` enum. -/
def indexFundChangeTypeNames : List String := ["BUY", "SELL"]

/-- Keys of the `BondChangeType` enum. -/
def bondChangeTypeNames : List String := ["BUY", "INTEREST"]

/-- `CashChangeRecord`: date, cash delta and change type (stored here as the
enum key). -/
structure CashChangeRecord where
  date : ℤ
  valueChange : ℚ
  type : String
deriving DecidableEq, Repr

/-- The `CashChangeRecord` constructor: validates the type against the
`CashChangeType` keys (throws `Invalid CashChangeType` otherwise). -/
def mkCashChangeRecord (date : ℤ) (valueChange : ℚ) (ty : String) :
    Except String CashChangeRecord :=
  if cashChangeTypeNames.contains ty then .ok ⟨date, valueChange, ty⟩
  else .error ("Invalid CashChangeType: " ++ ty)

/-- `StockChangeRecord` (also the shape of `IndexFundChangeRecord` and
`BondChangeRecord`): date, share delta, cash delta and change type. -/
structure AssetChangeRecord where
  date : ℤ
  valueChange : ℚ
  cashChange : ℚ
  type : String
deriving DecidableEq, Repr

/-- The `StockChangeRecord` constructor (type validated against
`StockChangeType`). -/
def mkStockChangeRecord (date : ℤ) (valueChange cashChange : ℚ) (ty : String) :
    Except String AssetChangeRecord :=
  if stockChangeTypeNames.contains ty then .ok ⟨date, valueChange, cashChange, ty⟩
  else .error ("Invalid StockChangeType: " ++ ty)

/-- The `IndexFundChangeRecord` constructor. -/
def mkIndexFundChangeRecord (date : ℤ) (valueChange cashChange : ℚ) (ty : String) :
    Except String AssetChangeRecord :=
  if indexFundChangeTypeNames.contains ty then .ok ⟨date, valueChange, cashChange, ty⟩
  else .error "Invalid IndexFundChangeType"

/-- The `BondChangeRecord` constructor. -/
def mkBondChangeRecord (date : ℤ) (valueChange cashChange : ℚ) (ty : String) :
    Except String AssetChangeRecord :=
  if bondChangeTypeNames.contains ty then .ok ⟨date, valueChange, cashChange, ty⟩
  else .error "Invalid BondChangeType"

/-- `getHistoryFieldSum(history, 'valueChange')` for cash histories. -/
def cashHistoryValueSum (l : List CashChangeRecord) : ℚ :=
  l.foldl (fun s r => s + r.valueChange) 0

/-- `getHistoryFieldSum(history, 'valueChange')` for asset histories. -/
def assetHistoryValueSum (l : List AssetChangeRecord) : ℚ :=
  l.foldl (fun s r => s + r.valueChange) 0

/-- `getHistoryFieldSum(history, 'cashChange')` for asset histories. -/
def assetHistoryCashSum (l : List AssetChangeRecord) : ℚ :=
  l.foldl (fun s r => s + r.cashChange) 0

/-! ## CashHolding (cash.js, latest snapshot with change types) -/

/-- `CashHolding`: currency, running balance, cumulative interest and the
ordered history of `CashChangeRecord`s. -/
structure CashHolding where
  currency : String
  value : ℚ
  cashInterestSum : ℚ
  history : List CashChangeRecord
deriving DecidableEq, Repr

/-- The `CashHolding` constructor (fresh holding for a currency). -/
def CashHolding.fresh (currency : String) : CashHolding :=
  { currency := currency, value := 0, cashInterestSum := 0, history := [] }

/-- `CashHolding.updateValue(diff, date, type)`.  Returns the warnings (or the
thrown error) together with the state of the holding afterwards: a throw does
not roll back mutations already made, so the second component may be a
partially mutated holding. -/
def CashHolding.updateValue (h : CashHolding) (diff : ℚ) (date : ℤ) (ty : String) :
    Except String (List String) × CashHolding :=
  if diff = 0 then (.error "diff: Zero", h)
  else
    let h1 := { h with value := h.value + diff }
    let h2 :=
      if ty = "CASH_INTEREST" then
        { h1 with cashInterestSum := h1.cashInterestSum + diff }
      else h1
    match mkCashChangeRecord date diff ty with
    | .error e => (.error e, h2)
    | .ok r =>
      let h3 := { h2 with history := h2.history ++ [r] }
      let warnings :=
        if h3.value < 0 then
          ["Cash \"" ++ h3.currency ++ "\" value " ++ toString h3.value ++
            " has become negative."]
        else []
      (.ok warnings, h3)

/-! ## StockHolding (stock.js) -/

/-- `StockHolding`: identity, share count, the cumulative cash-flow breakdown
(`buyCash` is stored positively for spent cash), the latest known unit value
with its date, and the ordered history. -/
structure StockHolding where
  code : String
  friendlyName : String
  currency : String
  shares : ℚ
  buyCash : ℚ
  sellCash : ℚ
  incomeCash : ℚ
  otherCash : ℚ
  totalCash : ℚ
  latestUnitValueAndDate : Option (ℚ × ℤ)
  history : List AssetChangeRecord
deriving DecidableEq, Repr

/-- The `StockHolding` constructor. -/
def StockHolding.fresh (code friendlyName currency : String) : StockHolding :=
  { code := code, friendlyName := friendlyName, currency := currency,
    shares := 0, buyCash := 0, sellCash := 0, incomeCash := 0, otherCash := 0,
    totalCash := 0, latestUnitValueAndDate := none, history := [] }

/-- The shared tail of `StockHolding.updateShares`: the `totalCash` update,
the record push (whose constructor validates the change type) and the
negative-count warning. -/
def StockHolding.updateSharesTail (h : StockHolding) (diff acquiredCash : ℚ)
    (date : ℤ) (ty : String) : Except String (List String) × StockHolding :=
  let h4 := { h with totalCash := h.totalCash + acquiredCash }
  match mkStockChangeRecord date diff acquiredCash ty with
  | .error e => (.error e, h4)
  | .ok r =>
    let h5 := { h4 with history := h4.history ++ [r] }
    let warnings :=
      if h5.shares < 0 then
        ["Asset \"" ++ h5.friendlyName ++ "\" count " ++ toString h5.shares ++
          " has become negative."]
      else []
    (.ok warnings, h5)

/-- `StockHolding.updateShares(diff, acquiredCash, date, zeroDiff, type,
zeroCash, unitValue)`.  The `unitValue` argument is `none` for the JavaScript
`null`.  Mutations performed before a throw are kept in the returned state.
The `totalCash` update, record push and negative-count warning shared by all
branches live in `StockHolding.updateSharesTail`. -/
def StockHolding.updateShares (h : StockHolding) (diff acquiredCash : ℚ)
    (date : ℤ) (zeroDiff : Bool) (ty : String) (zeroCash : Bool)
    (unitValue : Option ℚ) : Except String (List String) × StockHolding :=
  if zeroDiff = false ∧ diff = 0 then (.error "diff: Zero", h)
  else if zeroDiff = true ∧ diff ≠ 0 then (.error "diff: Not a Zero", h)
  else if zeroCash = false ∧ acquiredCash = 0 then (.error "acquiredCash: Zero", h)
  else if zeroCash = true ∧ acquiredCash ≠ 0 then (.error "acquiredCash: Not a Zero", h)
  else
    let h1 := { h with shares := h.shares + diff }
    if ty = "BUY" ∨ ty = "SELL" then
      match unitValue with
      | none => (.error "unitValue: Not a Decimal", h1)
      | some u =>
        if u = 0 then (.error "unitValue: Zero", h1)
        else
          let h2 := { h1 with latestUnitValueAndDate := some (u, date) }
          if ty = "BUY" then
            if acquiredCash = 0 then (.error "acquiredCash: Zero", h2)
            else if 0 < acquiredCash then (.error "acquiredCash: Not negative", h2)
            else
              let h3 := { h2 with buyCash := h2.buyCash + -acquiredCash }
              StockHolding.updateSharesTail h3 diff acquiredCash date ty
          else
            if acquiredCash = 0 then (.error "acquiredCash: Zero", h2)
            else if acquiredCash < 0 then (.error "acquiredCash: Not positive", h2)
            else
              let h3 := { h2 with sellCash := h2.sellCash + acquiredCash }
              StockHolding.updateSharesTail h3 diff acquiredCash date ty
    else
      if unitValue ≠ none then (.error "Unexpected unitValue", h1)
      else if ty = "DIVIDEND" ∨ ty = "UNSPECIFIC_ACCOUNTING_INCOME" then
        if acquiredCash = 0 then (.error "acquiredCash: Zero", h1)
        else if acquiredCash < 0 then (.error "acquiredCash: Not positive", h1)
        else
          let h2 := { h1 with incomeCash := h1.incomeCash + acquiredCash }
          StockHolding.updateSharesTail h2 diff acquiredCash date ty
      else if ty = "PUBLIC_TO_PRIVATE_SHARE_CONVERSION" then
        if acquiredCash = 0 then (.error "acquiredCash: Zero", h1)
        else if 0 < acquiredCash then (.error "acquiredCash: Not negative", h1)
        else
          let h2 := { h1 with otherCash := h1.otherCash + acquiredCash }
          StockHolding.updateSharesTail h2 diff acquiredCash date ty
      else if ty = "STOCK_SPLIT" ∧ zeroCash = false then
        (.error "Stock split must have zero cash change", h1)
      else
        StockHolding.updateSharesTail h1 diff acquiredCash date ty

/-- The stock-finalize reconciliation check from
`StockHolding.validateAndFinalize`:
`buyCash.negated().plus(sellCash).plus(incomeCash).plus(otherCash).equals(totalCash)`. -/
def StockHolding.totalCashReconciles (h : StockHolding) : Prop :=
  -h.buyCash + h.sellCash + h.incomeCash + h.otherCash = h.totalCash

instance (h : StockHolding) : Decidable h.totalCashReconciles := by
  unfold StockHolding.totalCashReconciles; infer_instance

/-! ## BondHolding (bond.js) -/

/-- `BondHolding`: identity, share count, cumulative cash breakdown
(`buyCash` keeps the signed acquired cash, so it is negative after buys),
latest unit value and history. -/
structure BondHolding where
  code : String
  friendlyName : String
  currency : String
  shares : ℚ
  buyCash : ℚ
  interestCash : ℚ
  totalCash : ℚ
  latestUnitValueAndDate : Option (ℚ × ℤ)
  history : List AssetChangeRecord
deriving DecidableEq, Repr

/-- The `BondHolding` constructor. -/
def BondHolding.fresh (code friendlyName currency : String) : BondHolding :=
  { code := code, friendlyName := friendlyName, currency := currency,
    shares := 0, buyCash := 0, interestCash := 0, totalCash := 0,
    latestUnitValueAndDate := none, history := [] }

/-- Shared tail of `BondHolding.updateShares`: `totalCash` update, record
push and negative-count warning. -/
def BondHolding.updateSharesTail (h : BondHolding) (diff acquiredCash : ℚ)
    (date : ℤ) (ty : String) : Except String (List String) × BondHolding :=
  let h4 := { h with totalCash := h.totalCash + acquiredCash }
  match mkBondChangeRecord date diff acquiredCash ty with
  | .error e => (.error e, h4)
  | .ok r =>
    let h5 := { h4 with history := h4.history ++ [r] }
    let warnings :=
      if h5.shares < 0 then
        ["Asset \"" ++ h5.friendlyName ++ "\" count " ++ toString h5.shares ++
          " has become negative."]
      else []
    (.ok warnings, h5)

/-- `BondHolding.updateShares(diff, acquiredCash, date, zeroDiff, type,
unitValue)`.  The bond version has no `zeroCash` flag: `acquiredCash` must
always be non-zero, and a buy stores the signed acquired cash into `buyCash`
before validating `unitValue`. -/
def BondHolding.updateShares (h : BondHolding) (diff acquiredCash : ℚ)
    (date : ℤ) (zeroDiff : Bool) (ty : String) (unitValue : Option ℚ) :
    Except String (List String) × BondHolding :=
  if zeroDiff = false ∧ diff = 0 then (.error "diff: Zero", h)
  else if zeroDiff = true ∧ diff ≠ 0 then (.error "diff: Not a Zero", h)
  else if acquiredCash = 0 then (.error "acquiredCash: Zero", h)
  else
    let h1 := { h with shares := h.shares + diff }
    if ty = "BUY" then
      let h2 := { h1 with buyCash := h1.buyCash + acquiredCash }
      match unitValue with
      | none => (.error "unitValue: Not a Decimal", h2)
      | some u =>
        if u = 0 then (.error "unitValue: Zero", h2)
        else
          let h3 := { h2 with latestUnitValueAndDate := some (u, date) }
          BondHolding.updateSharesTail h3 diff acquiredCash date ty
    else
      let h2 :=
        if ty = "INTEREST" then { h1 with interestCash := h1.interestCash + acquiredCash }
        else h1
      if unitValue ≠ none then (.error "Unexpected unitValue", h2)
      else BondHolding.updateSharesTail h2 diff acquiredCash date ty

/-- The bond-finalize reconciliation check from
`BondHolding.validateAndFinalize`: `buyCash.add(interestCash).equals(totalCash)`. -/
def BondHolding.totalCashReconciles (h : BondHolding) : Prop :=
  h.buyCash + h.interestCash = h.totalCash

instance (h : BondHolding) : Decidable h.totalCashReconciles := by
  unfold BondHolding.totalCashReconciles; infer_instance

/-! ## IndexFundHolding (index.js) -/

/-- `IndexFundHolding`: identity, share count, cumulative cash breakdown
(`buyCash` stored positively), latest unit value and history. -/
structure IndexFundHolding where
  code : String
  friendlyName : String
  currency : String
  shares : ℚ
  buyCash : ℚ
  sellCash : ℚ
  totalCash : ℚ
  latestUnitValueAndDate : Option (ℚ × ℤ)
  history : List AssetChangeRecord
deriving DecidableEq, Repr

/-- The `IndexFundHolding` constructor. -/
def IndexFundHolding.fresh (code friendlyName currency : String) : IndexFundHolding :=
  { code := code, friendlyName := friendlyName, currency := currency,
    shares := 0, buyCash := 0, sellCash := 0, totalCash := 0,
    latestUnitValueAndDate := none, history := [] }

/-- Shared tail of `IndexFundHolding.updateShares`. -/
def IndexFundHolding.updateSharesTail (h : IndexFundHolding) (diff acquiredCash : ℚ)
    (date : ℤ) (ty : String) : Except String (List String) × IndexFundHolding :=
  let h4 := { h with totalCash := h.totalCash + acquiredCash }
  match mkIndexFundChangeRecord date diff acquiredCash ty with
  | .error e => (.error e, h4)
  | .ok r =>
    let h5 := { h4 with history := h4.history ++ [r] }
    let warnings :=
      if h5.shares < 0 then
        ["Asset \"" ++ h5.friendlyName ++ "\" count " ++ toString h5.shares ++
          " has become negative."]
      else []
    (.ok warnings, h5)

/-- `IndexFundHolding.updateShares(diff, acquiredCash, date, zeroDiff, type,
unitValue)`: no `zeroCash` flag, `acquiredCash` always non-zero. -/
def IndexFundHolding.updateShares (h : IndexFundHolding) (diff acquiredCash : ℚ)
    (date : ℤ) (zeroDiff : Bool) (ty : String) (unitValue : Option ℚ) :
    Except String (List String) × IndexFundHolding :=
  if zeroDiff = false ∧ diff = 0 then (.error "diff: Zero", h)
  else if zeroDiff = true ∧ diff ≠ 0 then (.error "diff: Not a Zero", h)
  else if acquiredCash = 0 then (.error "acquiredCash: Zero", h)
  else
    let h1 := { h with shares := h.shares + diff }
    if ty = "BUY" ∨ ty = "SELL" then
      match unitValue with
      | none => (.error "unitValue: Not a Decimal", h1)
      | some u =>
        if u = 0 then (.error "unitValue: Zero", h1)
        else
          let h2 := { h1 with latestUnitValueAndDate := some (u, date) }
          if ty = "BUY" then
            if 0 < acquiredCash then (.error "acquiredCash: Not negative", h2)
            else
              let h3 := { h2 with buyCash := h2.buyCash + -acquiredCash }
              IndexFundHolding.updateSharesTail h3 diff acquiredCash date ty
          else
            if acquiredCash < 0 then (.error "acquiredCash: Not positive", h2)
            else
              let h3 := { h2 with sellCash := h2.sellCash + acquiredCash }
              IndexFundHolding.updateSharesTail h3 diff acquiredCash date ty
    else
      if unitValue ≠ none then (.error "Unexpected unitValue", h1)
      else IndexFundHolding.updateSharesTail h1 diff acquiredCash date ty

/-- The index-fund-finalize reconciliation check from
`IndexFundHolding.validateAndFinalize`:
`buyCash.negated().plus(sellCash).equals(totalCash)`. -/
def IndexFundHolding.totalCashReconciles (h : IndexFundHolding) : Prop :=
  -h.buyCash + h.sellCash = h.totalCash

instance (h : IndexFundHolding) : Decidable h.totalCashReconciles := by
  unfold IndexFundHolding.totalCashReconciles; infer_instance

/-! ## Update-call sequences over single holdings -/

/-- Arguments of one `CashHolding.updateValue` call. -/
structure CashUpd where
  diff : ℚ
  date : ℤ
  ty : String
deriving DecidableEq, Repr

/-- Arguments of one `StockHolding.updateShares` call. -/
structure StockUpd where
  diff : ℚ
  acquiredCash : ℚ
  date : ℤ
  zeroDiff : Bool
  ty : String
  zeroCash : Bool
  unitValue : Option ℚ
deriving DecidableEq, Repr

/-- Arguments of one `BondHolding.updateShares` or
`IndexFundHolding.updateShares` call. -/
structure BondUpd where
  diff : ℚ
  acquiredCash : ℚ
  date : ℤ
  zeroDiff : Bool
  ty : String
  unitValue : Option ℚ
deriving DecidableEq, Repr

/-- Run a sequence of `updateValue` calls on a cash holding; `none` when some
call in the sequence throws (so `some` results are exactly the states reached
by sequences of successful calls). -/
def runCashUpdates : CashHolding → List CashUpd → Option CashHolding
  | h, [] => some h
  | h, u :: rest =>
    match h.updateValue u.diff u.date u.ty with
    | (.ok _, h') => runCashUpdates h' rest
    | (.error _, _) => none

/-- Run a sequence of `updateShares` calls on a stock holding. -/
def runStockUpdates : StockHolding → List StockUpd → Option StockHolding
  | h, [] => some h
  | h, u :: rest =>
    match h.updateShares u.diff u.acquiredCash u.date u.zeroDiff u.ty u.zeroCash u.unitValue with
    | (.ok _, h') => runStockUpdates h' rest
    | (.error _, _) => none

/-- Run a sequence of `updateShares` calls on a bond holding. -/
def runBondUpdates : BondHolding → List BondUpd → Option BondHolding
  | h, [] => some h
  | h, u :: rest =>
    match h.updateShares u.diff u.acquiredCash u.date u.zeroDiff u.ty u.unitValue with
    | (.ok _, h') => runBondUpdates h' rest
    | (.error _, _) => none

/-- Run a sequence of `updateShares` calls on an index-fund holding. -/
def runIndexFundUpdates : IndexFundHolding → List BondUpd → Option IndexFundHolding
  | h, [] => some h
  | h, u :: rest =>
    match h.updateShares u.diff u.acquiredCash u.date u.zeroDiff u.ty u.unitValue with
    | (.ok _, h') => runIndexFundUpdates h' rest
    | (.error _, _) => none

/-! ## History-sum invariants (claims C1 and C5) -/

theorem cashHistoryValueSum_append (l : List CashChangeRecord) (r : CashChangeRecord) :
    cashHistoryValueSum (l ++ [r]) = cashHistoryValueSum l + r.valueChange := by
  simp [cashHistoryValueSum, List.foldl_append]

theorem assetHistoryValueSum_append (l : List AssetChangeRecord) (r : AssetChangeRecord) :
    assetHistoryValueSum (l ++ [r]) = assetHistoryValueSum l + r.valueChange := by
  simp [assetHistoryValueSum, List.foldl_append]

theorem assetHistoryCashSum_append (l : List AssetChangeRecord) (r : AssetChangeRecord) :
    assetHistoryCashSum (l ++ [r]) = assetHistoryCashSum l + r.cashChange := by
  simp [assetHistoryCashSum, List.foldl_append]

/-- A successful `CashHolding.updateValue` call preserves the
history-sum-equals-balance invariant. -/
theorem CashHolding.updateValue_inv {h h' : CashHolding} {ws : List String}
    {d : ℚ} {date : ℤ} {ty : String}
    (hupd : h.updateValue d date ty = (.ok ws, h'))
    (hinv : cashHistoryValueSum h.history = h.value) :
    cashHistoryValueSum h'.history = h'.value := by
  unfold CashHolding.updateValue mkCashChangeRecord at hupd
  by_cases hd : d = 0
  · rw [if_pos hd] at hupd
    exact absurd (congrArg Prod.fst hupd) (by simp)
  · rw [if_neg hd] at hupd
    by_cases hc : cashChangeTypeNames.contains ty
    · simp only [hc, if_true] at hupd
      have hh := congrArg Prod.snd hupd
      by_cases hi : ty = "CASH_INTEREST" <;>
        simp only [hi, if_true, if_false, ite_true, ite_false] at hh <;>
        rw [← hh] <;>
        simp [cashHistoryValueSum_append, hinv]
    · simp only [hc, if_false] at hupd
      exact absurd (congrArg Prod.fst hupd) (by simp)

/-- Characterization of a successful `StockHolding.updateSharesTail`. -/
theorem stockUpdateSharesTail_ok {g h' : StockHolding} {ws : List String}
    {diff ac : ℚ} {date : ℤ} {ty : String}
    (hupd : StockHolding.updateSharesTail g diff ac date ty = (.ok ws, h')) :
    h' = { g with totalCash := g.totalCash + ac,
                  history := g.history ++ [⟨date, diff, ac, ty⟩] } ∧
      stockChangeTypeNames.contains ty := by
  unfold StockHolding.updateSharesTail mkStockChangeRecord at hupd
  by_cases hc : stockChangeTypeNames.contains ty
  · simp only [hc, if_true] at hupd
    exact ⟨(congrArg Prod.snd hupd).symm, hc⟩
  · simp only [hc, if_false] at hupd
    exact absurd (congrArg Prod.fst hupd) (by simp)

/-- A pair whose first component is a thrown error is never equal to a pair
with a successful first component (used to discharge impossible branches). -/
def errOkElim {α β : Type} {C : Sort v} {e : String} {x y : β} {w : α}
    (h : ((Except.error e : Except String α), x) = (Except.ok w, y)) : C :=
  Except.noConfusion (congrArg Prod.fst h)

/-- Combined inductive invariant for a stock holding: history sums match the
running share count and total cash, and the cash categories reconcile. -/
def StockInv (h : StockHolding) : Prop :=
  assetHistoryValueSum h.history = h.shares ∧
  assetHistoryCashSum h.history = h.totalCash ∧
  h.totalCashReconciles

/-- A successful `StockHolding.updateShares` call preserves `StockInv`. -/
theorem stockUpdateShares_inv {h h' : StockHolding} {ws : List String}
    {diff ac : ℚ} {date : ℤ} {zD zC : Bool} {ty : String} {uv : Option ℚ}
    (hupd : h.updateShares diff ac date zD ty zC uv = (.ok ws, h'))
    (hinv : StockInv h) : StockInv h' := by
  obtain ⟨hv, hcs, hr⟩ := hinv
  unfold StockHolding.totalCashReconciles at hr
  unfold StockHolding.updateShares at hupd
  by_cases h1 : zD = false ∧ diff = 0
  · rw [if_pos h1] at hupd; exact errOkElim hupd
  rw [if_neg h1] at hupd
  by_cases h2 : zD = true ∧ diff ≠ 0
  · rw [if_pos h2] at hupd; exact errOkElim hupd
  rw [if_neg h2] at hupd
  by_cases h3 : zC = false ∧ ac = 0
  · rw [if_pos h3] at hupd; exact errOkElim hupd
  rw [if_neg h3] at hupd
  by_cases h4 : zC = true ∧ ac ≠ 0
  · rw [if_pos h4] at hupd; exact errOkElim hupd
  rw [if_neg h4] at hupd
  by_cases h5 : ty = "BUY" ∨ ty = "SELL"
  · rw [if_pos h5] at hupd
    cases uv with
    | none => exact errOkElim hupd
    | some u =>
      dsimp only at hupd
      by_cases h6 : u = 0
      · rw [if_pos h6] at hupd; exact errOkElim hupd
      rw [if_neg h6] at hupd
      by_cases h7 : ty = "BUY"
      · rw [if_pos h7] at hupd
        by_cases h8 : ac = 0
        · rw [if_pos h8] at hupd; exact errOkElim hupd
        rw [if_neg h8] at hupd
        by_cases h9 : 0 < ac
        · rw [if_pos h9] at hupd; exact errOkElim hupd
        rw [if_neg h9] at hupd
        obtain ⟨hh, -⟩ := stockUpdateSharesTail_ok hupd
        subst hh
        unfold StockInv StockHolding.totalCashReconciles
        rw [assetHistoryValueSum_append, assetHistoryCashSum_append]
        dsimp only
        exact ⟨by linarith, by linarith, by linarith⟩
      · rw [if_neg h7] at hupd
        by_cases h8 : ac = 0
        · rw [if_pos h8] at hupd; exact errOkElim hupd
        rw [if_neg h8] at hupd
        by_cases h9 : ac < 0
        · rw [if_pos h9] at hupd; exact errOkElim hupd
        rw [if_neg h9] at hupd
        obtain ⟨hh, -⟩ := stockUpdateSharesTail_ok hupd
        subst hh
        unfold StockInv StockHolding.totalCashReconciles
        rw [assetHistoryValueSum_append, assetHistoryCashSum_append]
        dsimp only
        exact ⟨by linarith, by linarith, by linarith⟩
  · rw [if_neg h5] at hupd
    cases uv with
    | some u =>
      rw [if_pos (by simp : (some u : Option ℚ) ≠ none)] at hupd
      exact errOkElim hupd
    | none =>
      rw [if_neg (by simp : ¬(none : Option ℚ) ≠ none)] at hupd
      by_cases h6 : ty = "DIVIDEND" ∨ ty = "UNSPECIFIC_ACCOUNTING_INCOME"
      · rw [if_pos h6] at hupd
        by_cases h7 : ac = 0
        · rw [if_pos h7] at hupd; exact errOkElim hupd
        rw [if_neg h7] at hupd
        by_cases h8 : ac < 0
        · rw [if_pos h8] at hupd; exact errOkElim hupd
        rw [if_neg h8] at hupd
        obtain ⟨hh, -⟩ := stockUpdateSharesTail_ok hupd
        subst hh
        unfold StockInv StockHolding.totalCashReconciles
        rw [assetHistoryValueSum_append, assetHistoryCashSum_append]
        dsimp only
        exact ⟨by linarith, by linarith, by linarith⟩
      · rw [if_neg h6] at hupd
        by_cases h7 : ty = "PUBLIC_TO_PRIVATE_SHARE_CONVERSION"
        · rw [if_pos h7] at hupd
          by_cases h8 : ac = 0
          · rw [if_pos h8] at hupd; exact errOkElim hupd
          rw [if_neg h8] at hupd
          by_cases h9 : 0 < ac
          · rw [if_pos h9] at hupd; exact errOkElim hupd
          rw [if_neg h9] at hupd
          obtain ⟨hh, -⟩ := stockUpdateSharesTail_ok hupd
          subst hh
          unfold StockInv StockHolding.totalCashReconciles
          rw [assetHistoryValueSum_append, assetHistoryCashSum_append]
          dsimp only
          exact ⟨by linarith, by linarith, by linarith⟩
        · rw [if_neg h7] at hupd
          by_cases h8 : ty = "STOCK_SPLIT" ∧ zC = false
          · rw [if_pos h8] at hupd; exact errOkElim hupd
          rw [if_neg h8] at hupd
          obtain ⟨-, hty⟩ := stockUpdateSharesTail_ok hupd
          simp only [stockChangeTypeNames] at hty
          have hmem := List.contains_iff_exists_mem_beq.mp hty
          simp at hmem
          rcases hmem with h9 | h9 | h9 | h9 | h9 <;> simp_all

/-- Characterization of a successful `BondHolding.updateSharesTail`. -/
theorem bondUpdateSharesTail_ok {g h' : BondHolding} {ws : List String}
    {diff ac : ℚ} {date : ℤ} {ty : String}
    (hupd : BondHolding.updateSharesTail g diff ac date ty = (.ok ws, h')) :
    h' = { g with totalCash := g.totalCash + ac,
                  history := g.history ++ [⟨date, diff, ac, ty⟩] } ∧
      bondChangeTypeNames.contains ty := by
  unfold BondHolding.updateSharesTail mkBondChangeRecord at hupd
  by_cases hc : bondChangeTypeNames.contains ty
  · simp only [hc, if_true] at hupd
    exact ⟨(congrArg Prod.snd hupd).symm, hc⟩
  · simp only [hc, if_false] at hupd
    exact errOkElim hupd

/-- Characterization of a successful `IndexFundHolding.updateSharesTail`. -/
theorem fundUpdateSharesTail_ok {g h' : IndexFundHolding} {ws : List String}
    {diff ac : ℚ} {date : ℤ} {ty : String}
    (hupd : IndexFundHolding.updateSharesTail g diff ac date ty = (.ok ws, h')) :
    h' = { g with totalCash := g.totalCash + ac,
                  history := g.history ++ [⟨date, diff, ac, ty⟩] } ∧
      indexFundChangeTypeNames.contains ty := by
  unfold IndexFundHolding.updateSharesTail mkIndexFundChangeRecord at hupd
  by_cases hc : indexFundChangeTypeNames.contains ty
  · simp only [hc, if_true] at hupd
    exact ⟨(congrArg Prod.snd hupd).symm, hc⟩
  · simp only [hc, if_false] at hupd
    exact errOkElim hupd

/-- Combined inductive invariant for a bond holding. -/
def BondInv (h : BondHolding) : Prop :=
  assetHistoryValueSum h.history = h.shares ∧
  assetHistoryCashSum h.history = h.totalCash ∧
  h.totalCashReconciles

/-- A successful `BondHolding.updateShares` call preserves `BondInv`. -/
theorem bondUpdateShares_inv {h h' : BondHolding} {ws : List String}
    {diff ac : ℚ} {date : ℤ} {zD : Bool} {ty : String} {uv : Option ℚ}
    (hupd : h.updateShares diff ac date zD ty uv = (.ok ws, h'))
    (hinv : BondInv h) : BondInv h' := by
  obtain ⟨hv, hcs, hr⟩ := hinv
  unfold BondHolding.totalCashReconciles at hr
  unfold BondHolding.updateShares at hupd
  by_cases h1 : zD = false ∧ diff = 0
  · rw [if_pos h1] at hupd; exact errOkElim hupd
  rw [if_neg h1] at hupd
  by_cases h2 : zD = true ∧ diff ≠ 0
  · rw [if_pos h2] at hupd; exact errOkElim hupd
  rw [if_neg h2] at hupd
  by_cases h3 : ac = 0
  · rw [if_pos h3] at hupd; exact errOkElim hupd
  rw [if_neg h3] at hupd
  by_cases h4 : ty = "BUY"
  · rw [if_pos h4] at hupd
    cases uv with
    | none => exact errOkElim hupd
    | some u =>
      dsimp only at hupd
      by_cases h5 : u = 0
      · rw [if_pos h5] at hupd; exact errOkElim hupd
      rw [if_neg h5] at hupd
      obtain ⟨hh, -⟩ := bondUpdateSharesTail_ok hupd
      subst hh
      unfold BondInv BondHolding.totalCashReconciles
      rw [assetHistoryValueSum_append, assetHistoryCashSum_append]
      dsimp only
      exact ⟨by linarith, by linarith, by linarith⟩
  · rw [if_neg h4] at hupd
    by_cases h5 : ty = "INTEREST"
    · rw [if_pos h5] at hupd
      cases uv with
      | some u =>
        rw [if_pos (by simp : (some u : Option ℚ) ≠ none)] at hupd
        exact errOkElim hupd
      | none =>
        rw [if_neg (by simp : ¬(none : Option ℚ) ≠ none)] at hupd
        obtain ⟨hh, -⟩ := bondUpdateSharesTail_ok hupd
        subst hh
        unfold BondInv BondHolding.totalCashReconciles
        rw [assetHistoryValueSum_append, assetHistoryCashSum_append]
        dsimp only
        exact ⟨by linarith, by linarith, by linarith⟩
    · rw [if_neg h5] at hupd
      cases uv with
      | some u =>
        rw [if_pos (by simp : (some u : Option ℚ) ≠ none)] at hupd
        exact errOkElim hupd
      | none =>
        rw [if_neg (by simp : ¬(none : Option ℚ) ≠ none)] at hupd
        obtain ⟨-, hty⟩ := bondUpdateSharesTail_ok hupd
        simp only [bondChangeTypeNames] at hty
        have hmem := List.contains_iff_exists_mem_beq.mp hty
        simp at hmem
        rcases hmem with h9 | h9 <;> simp_all

/-- Combined inductive invariant for an index-fund holding. -/
def IndexFundInv (h : IndexFundHolding) : Prop :=
  assetHistoryValueSum h.history = h.shares ∧
  assetHistoryCashSum h.history = h.totalCash ∧
  h.totalCashReconciles

/-- A successful `IndexFundHolding.updateShares` call preserves `IndexFundInv`. -/
theorem fundUpdateShares_inv {h h' : IndexFundHolding} {ws : List String}
    {diff ac : ℚ} {date : ℤ} {zD : Bool} {ty : String} {uv : Option ℚ}
    (hupd : h.updateShares diff ac date zD ty uv = (.ok ws, h'))
    (hinv : IndexFundInv h) : IndexFundInv h' := by
  obtain ⟨hv, hcs, hr⟩ := hinv
  unfold IndexFundHolding.totalCashReconciles at hr
  unfold IndexFundHolding.updateShares at hupd
  by_cases h1 : zD = false ∧ diff = 0
  · rw [if_pos h1] at hupd; exact errOkElim hupd
  rw [if_neg h1] at hupd
  by_cases h2 : zD = true ∧ diff ≠ 0
  · rw [if_pos h2] at hupd; exact errOkElim hupd
  rw [if_neg h2] at hupd
  by_cases h3 : ac = 0
  · rw [if_pos h3] at hupd; exact errOkElim hupd
  rw [if_neg h3] at hupd
  by_cases h4 : ty = "BUY" ∨ ty = "SELL"
  · rw [if_pos h4] at hupd
    cases uv with
    | none => exact errOkElim hupd
    | some u =>
      dsimp only at hupd
      by_cases h5 : u = 0
      · rw [if_pos h5] at hupd; exact errOkElim hupd
      rw [if_neg h5] at hupd
      by_cases h6 : ty = "BUY"
      · rw [if_pos h6] at hupd
        by_cases h7 : 0 < ac
        · rw [if_pos h7] at hupd; exact errOkElim hupd
        rw [if_neg h7] at hupd
        obtain ⟨hh, -⟩ := fundUpdateSharesTail_ok hupd
        subst hh
        unfold IndexFundInv IndexFundHolding.totalCashReconciles
        rw [assetHistoryValueSum_append, assetHistoryCashSum_append]
        dsimp only
        exact ⟨by linarith, by linarith, by linarith⟩
      · rw [if_neg h6] at hupd
        by_cases h7 : ac < 0
        · rw [if_pos h7] at hupd; exact errOkElim hupd
        rw [if_neg h7] at hupd
        obtain ⟨hh, -⟩ := fundUpdateSharesTail_ok hupd
        subst hh
        unfold IndexFundInv IndexFundHolding.totalCashReconciles
        rw [assetHistoryValueSum_append, assetHistoryCashSum_append]
        dsimp only
        exact ⟨by linarith, by linarith, by linarith⟩
  · rw [if_neg h4] at hupd
    cases uv with
    | some u =>
      rw [if_pos (by simp : (some u : Option ℚ) ≠ none)] at hupd
      exact errOkElim hupd
    | none =>
      rw [if_neg (by simp : ¬(none : Option ℚ) ≠ none)] at hupd
      obtain ⟨-, hty⟩ := fundUpdateSharesTail_ok hupd
      simp only [indexFundChangeTypeNames] at hty
      have hmem := List.contains_iff_exists_mem_beq.mp hty
      simp at hmem
      rcases hmem with h9 | h9 <;> simp_all

/-- `StockInv` holds after every successful update sequence. -/
theorem runStockUpdates_inv :
    ∀ (l : List StockUpd) (h h' : StockHolding),
      StockInv h → runStockUpdates h l = some h' → StockInv h' := by
  intro l
  induction l with
  | nil => intro h h' hi hr; unfold runStockUpdates at hr; cases hr; exact hi
  | cons u rest ih =>
    intro h h' hi hr
    unfold runStockUpdates at hr
    split at hr
    · exact ih _ _ (stockUpdateShares_inv (by assumption) hi) hr
    · cases hr

/-- `BondInv` holds after every successful update sequence. -/
theorem runBondUpdates_inv :
    ∀ (l : List BondUpd) (h h' : BondHolding),
      BondInv h → runBondUpdates h l = some h' → BondInv h' := by
  intro l
  induction l with
  | nil => intro h h' hi hr; unfold runBondUpdates at hr; cases hr; exact hi
  | cons u rest ih =>
    intro h h' hi hr
    unfold runBondUpdates at hr
    split at hr
    · exact ih _ _ (bondUpdateShares_inv (by assumption) hi) hr
    · cases hr

/-- `IndexFundInv` holds after every successful update sequence. -/
theorem runIndexFundUpdates_inv :
    ∀ (l : List BondUpd) (h h' : IndexFundHolding),
      IndexFundInv h → runIndexFundUpdates h l = some h' → IndexFundInv h' := by
  intro l
  induction l with
  | nil => intro h h' hi hr; unfold runIndexFundUpdates at hr; cases hr; exact hi
  | cons u rest ih =>
    intro h h' hi hr
    unfold runIndexFundUpdates at hr
    split at hr
    · exact ih _ _ (fundUpdateShares_inv (by assumption) hi) hr
    · cases hr

/-- The cash history-sum invariant holds after every successful sequence. -/
theorem runCashUpdates_inv :
    ∀ (l : List CashUpd) (h h' : CashHolding),
      cashHistoryValueSum h.history = h.value → runCashUpdates h l = some h' →
      cashHistoryValueSum h'.history = h'.value := by
  intro l
  induction l with
  | nil => intro h h' hi hr; unfold runCashUpdates at hr; cases hr; exact hi
  | cons u rest ih =>
    intro h h' hi hr
    unfold runCashUpdates at hr
    split at hr
    · exact ih _ _ (CashHolding.updateValue_inv (by assumption) hi) hr
    · cases hr

/-- The invariants hold on every freshly constructed holding. -/
theorem fresh_invariants (c code nm cur : String) :
    cashHistoryValueSum (CashHolding.fresh c).history = (CashHolding.fresh c).value ∧
    StockInv (StockHolding.fresh code nm cur) ∧
    BondInv (BondHolding.fresh code nm cur) ∧
    IndexFundInv (IndexFundHolding.fresh code nm cur) := by
  refine ⟨rfl, ⟨rfl, rfl, ?_⟩, ⟨rfl, rfl, ?_⟩, ⟨rfl, rfl, ?_⟩⟩ <;> simp
    [StockHolding.totalCashReconciles, BondHolding.totalCashReconciles,
     IndexFundHolding.totalCashReconciles, StockHolding.fresh, BondHolding.fresh,
     IndexFundHolding.fresh]

/-- C1: starting from a freshly constructed holding of any of the four kinds,
after every successful sequence of `updateValue`/`updateShares` calls the sum
of the `valueChange` fields over the history equals the current balance (cash)
or share count (stock, bond, index fund); no successful sequence of public-API
update calls reaches a state where they differ. -/
theorem claim_C1_history_sum_conservation :
    (∀ (c : String) (l : List CashUpd) (h : CashHolding),
      runCashUpdates (CashHolding.fresh c) l = some h →
      cashHistoryValueSum h.history = h.value) ∧
    (∀ (code nm cur : String) (l : List StockUpd) (h : StockHolding),
      runStockUpdates (StockHolding.fresh code nm cur) l = some h →
      assetHistoryValueSum h.history = h.shares) ∧
    (∀ (code nm cur : String) (l : List BondUpd) (h : BondHolding),
      runBondUpdates (BondHolding.fresh code nm cur) l = some h →
      assetHistoryValueSum h.history = h.shares) ∧
    (∀ (code nm cur : String) (l : List BondUpd) (h : IndexFundHolding),
      runIndexFundUpdates (IndexFundHolding.fresh code nm cur) l = some h →
      assetHistoryValueSum h.history = h.shares) := by
  refine ⟨?_, ?_, ?_, ?_⟩
  · intro c l h hr
    exact runCashUpdates_inv l _ h (fresh_invariants c "" "" "").1 hr
  · intro code nm cur l h hr
    exact (runStockUpdates_inv l _ h (fresh_invariants "" code nm cur).2.1 hr).1
  · intro code nm cur l h hr
    exact (runBondUpdates_inv l _ h (fresh_invariants "" code nm cur).2.2.1 hr).1
  · intro code nm cur l h hr
    exact (runIndexFundUpdates_inv l _ h (fresh_invariants "" code nm cur).2.2.2 hr).1

/-- The concrete cash holding reached by the C1 witness updates. -/
def c1CashResult : CashHolding :=
  { currency := "EUR", value := 3, cashInterestSum := 0,
    history := [⟨1, 5, "CASH_DEPOSIT"⟩, ⟨2, -2, "CASH_TRANSFER"⟩] }

/-- The concrete stock holding reached by the C1 witness updates. -/
def c1StockResult : StockHolding :=
  { code := "S", friendlyName := "SName", currency := "EUR", shares := 2,
    buyCash := 10, sellCash := 0, incomeCash := 0, otherCash := 0,
    totalCash := -10, latestUnitValueAndDate := some (5, 1),
    history := [⟨1, 2, -10, "BUY"⟩] }

/-- The concrete bond holding reached by the C1 witness updates. -/
def c1BondResult : BondHolding :=
  { code := "B", friendlyName := "BName", currency := "EUR", shares := 1,
    buyCash := -10, interestCash := 0, totalCash := -10,
    latestUnitValueAndDate := some (10, 1), history := [⟨1, 1, -10, "BUY"⟩] }

/-- The concrete index-fund holding reached by the C1 witness updates. -/
def c1FundResult : IndexFundHolding :=
  { code := "F", friendlyName := "FName", currency := "EUR", shares := 1,
    buyCash := 10, sellCash := 0, totalCash := -10,
    latestUnitValueAndDate := some (10, 1), history := [⟨1, 1, -10, "BUY"⟩] }

/-- Witness for C1: concrete successful update sequences on all four holding
kinds, with the history sums agreeing with the final balances. -/
theorem claim_C1_history_sum_conservation_witness :
    (runCashUpdates (CashHolding.fresh "EUR")
        [⟨5, 1, "CASH_DEPOSIT"⟩, ⟨-2, 2, "CASH_TRANSFER"⟩] = some c1CashResult ∧
      cashHistoryValueSum c1CashResult.history = c1CashResult.value) ∧
    (runStockUpdates (StockHolding.fresh "S" "SName" "EUR")
        [⟨2, -10, 1, false, "BUY", false, some 5⟩] = some c1StockResult ∧
      assetHistoryValueSum c1StockResult.history = c1StockResult.shares) ∧
    (runBondUpdates (BondHolding.fresh "B" "BName" "EUR")
        [⟨1, -10, 1, false, "BUY", some 10⟩] = some c1BondResult ∧
      assetHistoryValueSum c1BondResult.history = c1BondResult.shares) ∧
    (runIndexFundUpdates (IndexFundHolding.fresh "F" "FName" "EUR")
        [⟨1, -10, 1, false, "BUY", some 10⟩] = some c1FundResult ∧
      assetHistoryValueSum c1FundResult.history = c1FundResult.shares) := by
  have h1 : runCashUpdates (CashHolding.fresh "EUR")
      [⟨5, 1, "CASH_DEPOSIT"⟩, ⟨-2, 2, "CASH_TRANSFER"⟩] = some c1CashResult := by
    simp [runCashUpdates, CashHolding.updateValue, mkCashChangeRecord,
      cashChangeTypeNames, CashHolding.fresh, c1CashResult]
    try norm_num
  have h2 : runStockUpdates (StockHolding.fresh "S" "SName" "EUR")
      [⟨2, -10, 1, false, "BUY", false, some 5⟩] = some c1StockResult := by
    simp [runStockUpdates, StockHolding.updateShares,
      StockHolding.updateSharesTail, mkStockChangeRecord, stockChangeTypeNames,
      StockHolding.fresh, c1StockResult]
    try norm_num
  have h3 : runBondUpdates (BondHolding.fresh "B" "BName" "EUR")
      [⟨1, -10, 1, false, "BUY", some 10⟩] = some c1BondResult := by
    simp [runBondUpdates, BondHolding.updateShares,
      BondHolding.updateSharesTail, mkBondChangeRecord, bondChangeTypeNames,
      BondHolding.fresh, c1BondResult]
    try norm_num
  have h4 : runIndexFundUpdates (IndexFundHolding.fresh "F" "FName" "EUR")
      [⟨1, -10, 1, false, "BUY", some 10⟩] = some c1FundResult := by
    simp [runIndexFundUpdates, IndexFundHolding.updateShares,
      IndexFundHolding.updateSharesTail, mkIndexFundChangeRecord,
      indexFundChangeTypeNames, IndexFundHolding.fresh, c1FundResult]
    try norm_num
  exact ⟨⟨h1, claim_C1_history_sum_conservation.1 "EUR" _ _ h1⟩,
    ⟨h2, claim_C1_history_sum_conservation.2.1 "S" "SName" "EUR" _ _ h2⟩,
    ⟨h3, claim_C1_history_sum_conservation.2.2.1 "B" "BName" "EUR" _ _ h3⟩,
    ⟨h4, claim_C1_history_sum_conservation.2.2.2 "F" "FName" "EUR" _ _ h4⟩⟩

/-- C5: for a `StockHolding`, after every valid (successful) sequence of
`updateShares` calls starting from a fresh holding, the cumulative cash-flow
categories reconcile exactly to the running total:
`totalCash = -buyCash + sellCash + incomeCash + otherCash`. -/
theorem claim_C5_stock_cash_reconciliation
    (code nm cur : String) (l : List StockUpd) (h : StockHolding)
    (hr : runStockUpdates (StockHolding.fresh code nm cur) l = some h) :
    -h.buyCash + h.sellCash + h.incomeCash + h.otherCash = h.totalCash :=
  (runStockUpdates_inv l _ h (fresh_invariants "" code nm cur).2.1 hr).2.2

/-- The concrete stock holding reached by the C5 witness updates. -/
def c5StockResult : StockHolding :=
  { code := "S", friendlyName := "SName", currency := "EUR", shares := 1,
    buyCash := 10, sellCash := 6, incomeCash := 3, otherCash := 0,
    totalCash := -1, latestUnitValueAndDate := some (6, 3),
    history := [⟨1, 2, -10, "BUY"⟩, ⟨2, 0, 3, "DIVIDEND"⟩, ⟨3, -1, 6, "SELL"⟩] }

/-- Witness for C5: a concrete successful buy-dividend-sell sequence whose
final cash categories reconcile. -/
theorem claim_C5_stock_cash_reconciliation_witness :
    runStockUpdates (StockHolding.fresh "S" "SName" "EUR")
      [⟨2, -10, 1, false, "BUY", false, some 5⟩,
       ⟨0, 3, 2, true, "DIVIDEND", false, none⟩,
       ⟨-1, 6, 3, false, "SELL", false, some 6⟩] = some c5StockResult ∧
    -c5StockResult.buyCash + c5StockResult.sellCash + c5StockResult.incomeCash +
      c5StockResult.otherCash = c5StockResult.totalCash := by
  have hrun : runStockUpdates (StockHolding.fresh "S" "SName" "EUR")
      [⟨2, -10, 1, false, "BUY", false, some 5⟩,
       ⟨0, 3, 2, true, "DIVIDEND", false, none⟩,
       ⟨-1, 6, 3, false, "SELL", false, some 6⟩] = some c5StockResult := by
    simp [runStockUpdates, StockHolding.updateShares,
      StockHolding.updateSharesTail, mkStockChangeRecord, stockChangeTypeNames,
      StockHolding.fresh, c5StockResult]
    try norm_num
  exact ⟨hrun, claim_C5_stock_cash_reconciliation "S" "SName" "EUR" _ _ hrun⟩

/-- C10: `VRes.getOrThrow` with `getWithWarnings` left `false` throws on a
successful `VRes` carrying at least one warning; it returns the plain value
only when the warnings list is empty; with `getWithWarnings = true` it
returns the `[value, warnings]` pair. -/
theorem claim_C10_getOrThrow_warnings (α : Type) (v : α) (ws : List String)
    (pfx : Option String) :
    (ws ≠ [] →
      VRes.getOrThrow ⟨.ok v, ws⟩ pfx false =
        .error "VRes has warnings, but getWithWarnings is false. Use getWithWarnings to retrieve them.") ∧
    VRes.getOrThrow ⟨.ok v, ([] : List String)⟩ pfx false = .ok (.plain v) ∧
    VRes.getOrThrow ⟨.ok v, ws⟩ pfx true = .ok (.pair v ws) := by
  refine ⟨?_, rfl, rfl⟩
  intro hne
  unfold VRes.getOrThrow
  simp only [if_false, Bool.false_eq_true]
  rw [if_pos]
  simpa [List.length_pos] using hne

/-- Witness for C10 at a concrete warning-carrying success value. -/
theorem claim_C10_getOrThrow_warnings_witness :
    (["w1"] ≠ ([] : List String)) ∧
    VRes.getOrThrow ⟨.ok (7 : ℕ), ["w1"]⟩ none false =
      .error "VRes has warnings, but getWithWarnings is false. Use getWithWarnings to retrieve them." :=
  ⟨by decide, (claim_C10_getOrThrow_warnings ℕ 7 ["w1"] none).1 (by decide)⟩

/-! ## Platform and Portfolio (portfolio.js) -/

/-- Lookup in an insertion-ordered association list (JavaScript `Map.get`). -/
def alGet (l : List (String × α)) (k : String) : Option α :=
  match l with
  | [] => none
  | (k', v) :: rest => if k' = k then some v else alGet rest k

/-- Insert-or-replace in an association list (JavaScript `Map.set`). -/
def alSet (l : List (String × α)) (k : String) (v : α) : List (String × α) :=
  match l with
  | [] => [(k, v)]
  | (k', v') :: rest => if k' = k then (k, v) :: rest else (k', v') :: alSet rest k v

/-- `Platform`: a name and the four holding maps. -/
structure Platform where
  name : String
  cashHoldings : List (String × CashHolding)
  stockHoldings : List (String × StockHolding)
  indexFundHoldings : List (String × IndexFundHolding)
  bondHoldings : List (String × BondHolding)
deriving DecidableEq, Repr

/-- The `Platform` constructor (name blankness is validated by the caller
embedding). -/
def Platform.fresh (name : String) : Platform :=
  { name := name, cashHoldings := [], stockHoldings := [],
    indexFundHoldings := [], bondHoldings := [] }

/-- `Portfolio`: platform map plus the chronological watermark
(`#latestDate`, `undefined` when no record has been processed). -/
structure Portfolio where
  platforms : List (String × Platform)
  latestDate : Option ℤ
deriving DecidableEq, Repr

/-- The `Portfolio` constructor. -/
def Portfolio.fresh : Portfolio := { platforms := [], latestDate := none }

/-- `validateNonBlankString(s).getOrThrow(pfx)`: a missing string (JavaScript
`undefined`) fails as `Not a string`, a whitespace-only one as
`Blank string` (the source compares `value.trim()` with the empty string,
which holds exactly when every character is whitespace). -/
def validateNonBlankStringE (s : Option String) (pfx : String) : Except String String :=
  match s with
  | none => .error (pfx ++ ": Not a string")
  | some v =>
    if v.data.all (fun c => c.isWhitespace) then .error (pfx ++ ": Blank string")
    else .ok v

/-- Render an optional string the way JavaScript template literals render
`undefined`. -/
def optS : Option String → String
  | some s => s
  | none => "undefined"

/-- Accessing a `Decimal` method on a missing (undefined) field throws a
`TypeError` in JavaScript. -/
def getQE : Option ℚ → Except String ℚ
  | some q => .ok q
  | none => .error "TypeError: undefined"

/-- `portfolioObj.hasPlatform(name)` (validates the name first). -/
def Portfolio.hasPlatformE (p : Portfolio) (nm : Option String) : Except String Bool :=
  (validateNonBlankStringE nm "name").map (fun n => (alGet p.platforms n).isSome)

/-- `portfolioObj.getPlatform(name)`: throws when the platform is missing. -/
def Portfolio.getPlatformE (p : Portfolio) (nm : Option String) :
    Except String (String × Platform) :=
  match validateNonBlankStringE nm "name" with
  | .error e => .error e
  | .ok n =>
    match alGet p.platforms n with
    | none => .error ("No platform with name " ++ n)
    | some pl => .ok (n, pl)

/-- `platform.getCashHolding(currency)`. -/
def Platform.getCashE (pl : Platform) (cur : Option String) : Except String (String × CashHolding) :=
  match validateNonBlankStringE cur "currency" with
  | .error e => .error e
  | .ok c =>
    match alGet pl.cashHoldings c with
    | none => .error ("No cash holding for currency " ++ c)
    | some h => .ok (c, h)

/-- `platform.getStockHolding(code)`. -/
def Platform.getStockE (pl : Platform) (code : Option String) : Except String (String × StockHolding) :=
  match validateNonBlankStringE code "code" with
  | .error e => .error e
  | .ok c =>
    match alGet pl.stockHoldings c with
    | none => .error ("No stock holding for code " ++ c)
    | some h => .ok (c, h)

/-- `platform.getIndexFundHolding(code)`. -/
def Platform.getFundE (pl : Platform) (code : Option String) : Except String (String × IndexFundHolding) :=
  match validateNonBlankStringE code "code" with
  | .error e => .error e
  | .ok c =>
    match alGet pl.indexFundHoldings c with
    | none => .error ("No index fund holding for code " ++ c)
    | some h => .ok (c, h)

/-- `platform.getBondHolding(code)`. -/
def Platform.getBondE (pl : Platform) (code : Option String) : Except String (String × BondHolding) :=
  match validateNonBlankStringE code "code" with
  | .error e => .error e
  | .ok c =>
    match alGet pl.bondHoldings c with
    | none => .error ("No bond holding for code " ++ c)
    | some h => .ok (c, h)

/-- `platform.validateAssetCodeUnique(code)`: the failure message, when the
code is taken by any holding kind. -/
def Platform.assetCodeTaken (pl : Platform) (code : String) : Option String :=
  if (alGet pl.cashHoldings code).isSome then
    some ("Cash holding \"" ++ code ++ "\" exists")
  else if (alGet pl.stockHoldings code).isSome then
    some ("Stock holding \"" ++ code ++ "\" exists")
  else if (alGet pl.indexFundHoldings code).isSome then
    some ("Index fund \"" ++ code ++ "\" exists")
  else if (alGet pl.bondHoldings code).isSome then
    some ("Bond holding \"" ++ code ++ "\" exists")
  else none

/-- `platform.validateAssetNameUnique(name)`: the failure message, when the
friendly name is taken among stock, index-fund or bond holdings (the source
labels the stock case `Cash holding` in its message). -/
def Platform.assetNameTaken (pl : Platform) (nm : String) : Option String :=
  if (pl.stockHoldings.find? (fun kv => kv.2.friendlyName = nm)).isSome then
    some ("Cash holding \"" ++ nm ++ "\" exists")
  else if (pl.indexFundHoldings.find? (fun kv => kv.2.friendlyName = nm)).isSome then
    some ("Index fund \"" ++ nm ++ "\" exists")
  else if (pl.bondHoldings.find? (fun kv => kv.2.friendlyName = nm)).isSome then
    some ("Bond holding \"" ++ nm ++ "\" exists")
  else none

/-- `portfolioObj.setSameOrLaterDate(date)` followed by `getOrThrow`:
rejects a date strictly earlier than the watermark, otherwise advances the
watermark. -/
def setSameOrLaterDateE (p : Portfolio) (date : ℤ) :
    Except String Unit × Portfolio :=
  match p.latestDate with
  | some d =>
    if date < d then
      (.error ("Record not in chronological order with previous record: Date \"" ++
        toString date ++ "\" earlier than \"" ++ toString d ++ "\""), p)
    else (.ok (), { p with latestDate := some date })
  | none => (.ok (), { p with latestDate := some date })

/-! ## State-threading helpers for the action handlers -/

/-- Read-modify-write of one cash holding on one platform
(`platform.getCashHolding(currency).updateValue(...)` with the platform
obtained through `portfolioObj.getPlatform`).  The holding state is written
back even when the update throws, matching JavaScript mutation. -/
def Portfolio.updCash (p : Portfolio) (platName cur : Option String)
    (f : CashHolding → Except String (List String) × CashHolding) :
    Except String (List String) × Portfolio :=
  match p.getPlatformE platName with
  | .error e => (.error e, p)
  | .ok (n, pl) =>
    match validateNonBlankStringE cur "currency" with
    | .error e => (.error e, p)
    | .ok c =>
      match alGet pl.cashHoldings c with
      | none => (.error ("No cash holding for currency " ++ c), p)
      | some h =>
        let (r, h') := f h
        let pl' := { pl with cashHoldings := alSet pl.cashHoldings c h' }
        (r, { p with platforms := alSet p.platforms n pl' })

/-- Read-modify-write of one stock holding on one platform. -/
def Portfolio.updStock (p : Portfolio) (platName code : Option String)
    (f : StockHolding → Except String (List String) × StockHolding) :
    Except String (List String) × Portfolio :=
  match p.getPlatformE platName with
  | .error e => (.error e, p)
  | .ok (n, pl) =>
    match validateNonBlankStringE code "code" with
    | .error e => (.error e, p)
    | .ok c =>
      match alGet pl.stockHoldings c with
      | none => (.error ("No stock holding for code " ++ c), p)
      | some h =>
        let (r, h') := f h
        let pl' := { pl with stockHoldings := alSet pl.stockHoldings c h' }
        (r, { p with platforms := alSet p.platforms n pl' })

/-- Read-modify-write of one index-fund holding on one platform. -/
def Portfolio.updFund (p : Portfolio) (platName code : Option String)
    (f : IndexFundHolding → Except String (List String) × IndexFundHolding) :
    Except String (List String) × Portfolio :=
  match p.getPlatformE platName with
  | .error e => (.error e, p)
  | .ok (n, pl) =>
    match validateNonBlankStringE code "code" with
    | .error e => (.error e, p)
    | .ok c =>
      match alGet pl.indexFundHoldings c with
      | none => (.error ("No index fund holding for code " ++ c), p)
      | some h =>
        let (r, h') := f h
        let pl' := { pl with indexFundHoldings := alSet pl.indexFundHoldings c h' }
        (r, { p with platforms := alSet p.platforms n pl' })

/-- Read-modify-write of one bond holding on one platform. -/
def Portfolio.updBond (p : Portfolio) (platName code : Option String)
    (f : BondHolding → Except String (List String) × BondHolding) :
    Except String (List String) × Portfolio :=
  match p.getPlatformE platName with
  | .error e => (.error e, p)
  | .ok (n, pl) =>
    match validateNonBlankStringE code "code" with
    | .error e => (.error e, p)
    | .ok c =>
      match alGet pl.bondHoldings c with
      | none => (.error ("No bond holding for code " ++ c), p)
      | some h =>
        let (r, h') := f h
        let pl' := { pl with bondHoldings := alSet pl.bondHoldings c h' }
        (r, { p with platforms := alSet p.platforms n pl' })

/-- Prepend already-collected warnings to the outcome of a state update
(`warnings = warnings.concat(...)`). -/
def prependWarnings (w : List String) (r : Except String (List String) × Portfolio) :
    Except String (List String) × Portfolio :=
  match r with
  | (.ok ws, p) => (.ok (w ++ ws), p)
  | (.error e, p) => (.error e, p)

/-- Sequence two warning-producing state updates: the second runs only when
the first succeeded, and its warnings are appended. -/
def andUpd (r : Except String (List String) × Portfolio)
    (f : Portfolio → Except String (List String) × Portfolio) :
    Except String (List String) × Portfolio :=
  match r with
  | (.ok ws, p) => prependWarnings ws (f p)
  | (.error e, p) => (.error e, p)

/-! ## Parsed ledger entries and the action handlers (history.js) -/

/-- A ledger entry after the field-parsing stage (`parseActionInputsByNames`):
the date is always present on parsed items, every other field is present
exactly when the raw entry carried it.  The raw-JSON parsing itself (field
admission, per-field format validators) is upstream of this embedding. -/
structure Item where
  date : ℤ
  action : String
  platform : Option String := none
  fromPlatform : Option String := none
  toPlatform : Option String := none
  assetType : Option String := none
  assetCode : Option String := none
  currency : Option String := none
  fromCurrency : Option String := none
  toCurrency : Option String := none
  friendlyName : Option String := none
  totalShares : Option ℚ := none
  unitValue : Option ℚ := none
  totalValue : Option ℚ := none
  feeValue : Option ℚ := none
  grossValue : Option ℚ := none
  netValue : Option ℚ := none
  taxValue : Option ℚ := none
  fromValue : Option ℚ := none
  toValue : Option ℚ := none
  fromTotalShares : Option ℚ := none
  toTotalShares : Option ℚ := none
  fromToCoefficient : Option ℚ := none
deriving DecidableEq, Repr

/-- `validateTotalSharesTransactionValue(unitValue, totalShares, totalValue)`:
warning (never fatal) when the stated total differs from the product, with
the product rounded to 2 decimal places when it has more. -/
def validateTotalSharesTransactionValue (unitValue totalShares totalValue : ℚ) :
    List String :=
  let expected := unitValue * totalShares
  let expected2 := if 2 < decimalPlaces expected then toDecimalPlaces2 expected else expected
  if totalValue = expected2 then []
  else ["Total value " ++ toString totalValue ++
    " does not match the product of share count and unit value, expected " ++
    toString expected2 ++ "."]

/-- `validateTotalSharesSplitValue(fromTotalShares, multiplier, toTotalShares)`. -/
def validateTotalSharesSplitValue (fromTotalShares multiplier toTotalShares : ℚ) :
    List String :=
  let expected := fromTotalShares * multiplier
  if toTotalShares = expected then []
  else ["Total shares " ++ toString toTotalShares ++
    " does not match the product of initial total shares and multiplier, expected " ++
    toString expected ++ "."]

/-- `validateCurrencyConversionTransactionValue(coefficient, fromValue,
toValue)`: accepts the product rounded or floored to 2 decimal places. -/
def validateCurrencyConversionTransactionValue (coeff fromValue toValue : ℚ) :
    List String :=
  let expected := coeff * fromValue
  let rounded := if 2 < decimalPlaces expected then toDecimalPlaces2 expected else expected
  let floored := if 2 < decimalPlaces expected then toDecimalPlaces2Floor expected else expected
  if toValue = rounded ∨ toValue = floored then []
  else ["To value " ++ toString toValue ++ " does not match the product of from value " ++
    toString fromValue ++ " and from-to coefficient " ++ toString coeff ++
    ", expected either rounded " ++ toString rounded ++ " or floored " ++
    toString floored ++ "."]

/-- `processActionNewPlatform`. -/
def processActionNewPlatform (it : Item) (p : Portfolio) :
    Except String (List String) × Portfolio :=
  match validateNonBlankStringE it.platform "name" with
  | .error e => (.error e, p)
  | .ok n =>
    if (alGet p.platforms n).isSome then (.error ("Platform " ++ n ++ " exists"), p)
    else (.ok [], { p with platforms := alSet p.platforms n (Platform.fresh n) })

/-- `processActionNewAssetCash`. -/
def processActionNewAssetCash (it : Item) (p : Portfolio) :
    Except String (List String) × Portfolio :=
  match p.getPlatformE it.platform with
  | .error e => (.error e, p)
  | .ok (n, pl) =>
    match validateNonBlankStringE it.currency "currency" with
    | .error e => (.error e, p)
    | .ok c =>
      match pl.assetCodeTaken c with
      | some e => (.error e, p)
      | none =>
        let pl' := { pl with cashHoldings := alSet pl.cashHoldings c (CashHolding.fresh c) }
        (.ok [], { p with platforms := alSet p.platforms n pl' })

/-- `processActionNewAssetStock`. -/
def processActionNewAssetStock (it : Item) (p : Portfolio) :
    Except String (List String) × Portfolio :=
  match p.getPlatformE it.platform with
  | .error e => (.error e, p)
  | .ok (n, pl) =>
    match validateNonBlankStringE it.assetCode "code" with
    | .error e => (.error e, p)
    | .ok code =>
      match validateNonBlankStringE it.friendlyName "friendlyName" with
      | .error e => (.error e, p)
      | .ok nm =>
        match validateNonBlankStringE it.currency "currency" with
        | .error e => (.error e, p)
        | .ok c =>
          match pl.assetCodeTaken code with
          | some e => (.error e, p)
          | none =>
            match pl.assetNameTaken nm with
            | some e => (.error e, p)
            | none =>
              let hnew := StockHolding.fresh code nm c
              let pl' := { pl with stockHoldings := alSet pl.stockHoldings code hnew }
              (.ok [], { p with platforms := alSet p.platforms n pl' })

/-- `processActionNewAssetIndexFund`. -/
def processActionNewAssetIndexFund (it : Item) (p : Portfolio) :
    Except String (List String) × Portfolio :=
  match p.getPlatformE it.platform with
  | .error e => (.error e, p)
  | .ok (n, pl) =>
    match validateNonBlankStringE it.assetCode "code" with
    | .error e => (.error e, p)
    | .ok code =>
      match validateNonBlankStringE it.friendlyName "friendlyName" with
      | .error e => (.error e, p)
      | .ok nm =>
        match validateNonBlankStringE it.currency "currency" with
        | .error e => (.error e, p)
        | .ok c =>
          match pl.assetCodeTaken code with
          | some e => (.error e, p)
          | none =>
            match pl.assetNameTaken nm with
            | some e => (.error e, p)
            | none =>
              let hnew := IndexFundHolding.fresh code nm c
              let pl' := { pl with indexFundHoldings := alSet pl.indexFundHoldings code hnew }
              (.ok [], { p with platforms := alSet p.platforms n pl' })

/-- `processActionNewAssetBond`. -/
def processActionNewAssetBond (it : Item) (p : Portfolio) :
    Except String (List String) × Portfolio :=
  match p.getPlatformE it.platform with
  | .error e => (.error e, p)
  | .ok (n, pl) =>
    match validateNonBlankStringE it.assetCode "code" with
    | .error e => (.error e, p)
    | .ok code =>
      match validateNonBlankStringE it.friendlyName "friendlyName" with
      | .error e => (.error e, p)
      | .ok nm =>
        match validateNonBlankStringE it.currency "currency" with
        | .error e => (.error e, p)
        | .ok c =>
          match pl.assetCodeTaken code with
          | some e => (.error e, p)
          | none =>
            match pl.assetNameTaken nm with
            | some e => (.error e, p)
            | none =>
              let hnew := BondHolding.fresh code nm c
              let pl' := { pl with bondHoldings := alSet pl.bondHoldings code hnew }
              (.ok [], { p with platforms := alSet p.platforms n pl' })

/-- `processActionNewAsset` (dispatch on asset type). -/
def processActionNewAsset (it : Item) (p : Portfolio) :
    Except String (List String) × Portfolio :=
  match p.hasPlatformE it.platform with
  | .error e => (.error e, p)
  | .ok false => (.error ("Platform \"" ++ optS it.platform ++ "\" does not exist"), p)
  | .ok true =>
    match it.assetType with
    | some "Stock" => processActionNewAssetStock it p
    | some "IndexFund" => processActionNewAssetIndexFund it p
    | some "Cash" => processActionNewAssetCash it p
    | some "Bond" => processActionNewAssetBond it p
    | x => (.error ("Processing of \"NewAsset\" for asset type \"" ++ optS x ++
        "\" is not implemented"), p)

/-- `processActionDeposit`. -/
def processActionDeposit (it : Item) (p : Portfolio) :
    Except String (List String) × Portfolio :=
  match p.hasPlatformE it.platform with
  | .error e => (.error e, p)
  | .ok false => (.error ("Platform \"" ++ optS it.platform ++ "\" does not exist"), p)
  | .ok true =>
    match getQE it.totalValue with
    | .error e => (.error e, p)
    | .ok tv =>
      if tv ≤ 0 then
        (.error ("Total value \"" ++ toString tv ++ "\" is not a positive amount"), p)
      else
        p.updCash it.platform it.currency
          (fun h => h.updateValue tv it.date "CASH_DEPOSIT")

/-- `processActionBuyStock`. -/
def processActionBuyStock (it : Item) (p : Portfolio) :
    Except String (List String) × Portfolio :=
  match p.getPlatformE it.platform with
  | .error e => (.error e, p)
  | .ok (_, pl) =>
    match pl.getStockE it.assetCode with
    | .error e => (.error e, p)
    | .ok (_, sh) =>
      match getQE it.totalShares with
      | .error e => (.error e, p)
      | .ok ts =>
        if ts < 0 then
          (.error ("Share count \"" ++ toString ts ++ "\" is not a positive number"), p)
        else if it.currency ≠ some sh.currency then
          (.error ("Currency \"" ++ optS it.currency ++
            "\" does not match the existing asset currency \"" ++ sh.currency ++ "\""), p)
        else
          match getQE it.unitValue with
          | .error e => (.error e, p)
          | .ok uv =>
            let w1 := if uv ≤ 0 then
              ["Unit value \"" ++ toString uv ++ "\" is not a positive amount."] else []
            match getQE it.totalValue with
            | .error e => (.error e, p)
            | .ok tv =>
              let w2 := if tv ≤ 0 then
                ["Total value \"" ++ toString tv ++ "\" is not a positive amount."] else []
              let w3 := validateTotalSharesTransactionValue uv ts tv
              match getQE it.feeValue with
              | .error e => (.error e, p)
              | .ok fee =>
                let spentCash := -(tv + fee)
                andUpd (prependWarnings (w1 ++ w2 ++ w3)
                    (p.updCash it.platform it.currency
                      (fun h => h.updateValue spentCash it.date "STOCK_BUY")))
                  (fun p' => p'.updStock it.platform it.assetCode
                    (fun h => h.updateShares ts spentCash it.date false "BUY" false (some uv)))

/-- `processActionBuyBond`. -/
def processActionBuyBond (it : Item) (p : Portfolio) :
    Except String (List String) × Portfolio :=
  match p.getPlatformE it.platform with
  | .error e => (.error e, p)
  | .ok (_, pl) =>
    match pl.getBondE it.assetCode with
    | .error e => (.error e, p)
    | .ok (_, bh) =>
      match getQE it.totalShares with
      | .error e => (.error e, p)
      | .ok ts =>
        if ts < 0 then
          (.error ("Share count \"" ++ toString ts ++ "\" is not a positive number"), p)
        else if it.currency ≠ some bh.currency then
          (.error ("Currency \"" ++ optS it.currency ++
            "\" does not match the existing asset currency \"" ++ bh.currency ++ "\""), p)
        else
          match getQE it.unitValue with
          | .error e => (.error e, p)
          | .ok uv =>
            let w1 := if uv ≤ 0 then
              ["Unit value \"" ++ toString uv ++ "\" is not a positive amount."] else []
            match getQE it.totalValue with
            | .error e => (.error e, p)
            | .ok tv =>
              let w2 := if tv ≤ 0 then
                ["Total value \"" ++ toString tv ++ "\" is not a positive amount."] else []
              match getQE it.feeValue with
              | .error e => (.error e, p)
              | .ok fee =>
                if fee < 0 then
                  (.error ("Fee value \"" ++ toString fee ++ "\" is not a non-negative amount"), p)
                else
                  let w3 := validateTotalSharesTransactionValue uv ts tv
                  let spentCash := -(tv + fee)
                  andUpd (prependWarnings (w1 ++ w2 ++ w3)
                      (p.updCash it.platform it.currency
                        (fun h => h.updateValue spentCash it.date "BOND_BUY")))
                    (fun p' => p'.updBond it.platform it.assetCode
                      (fun h => h.updateShares ts spentCash it.date false "BUY" (some uv)))

/-- `processActionBuyIndexFund` (note: no fee field; the spent cash is the
total value alone). -/
def processActionBuyIndexFund (it : Item) (p : Portfolio) :
    Except String (List String) × Portfolio :=
  match p.getPlatformE it.platform with
  | .error e => (.error e, p)
  | .ok (_, pl) =>
    match pl.getFundE it.assetCode with
    | .error e => (.error e, p)
    | .ok (_, fh) =>
      if it.currency ≠ some fh.currency then
        (.error ("Currency \"" ++ optS it.currency ++
          "\" does not match the existing asset currency \"" ++ fh.currency ++ "\""), p)
      else
        match getQE it.totalValue with
        | .error e => (.error e, p)
        | .ok tv =>
          let w1 := if tv ≤ 0 then
            ["Total value \"" ++ toString tv ++ "\" is not a positive amount."] else []
          match getQE it.totalShares with
          | .error e => (.error e, p)
          | .ok ts =>
            if ts ≤ 0 then
              (.error ("Share count \"" ++ toString ts ++ "\" is not a positive number"), p)
            else
              match getQE it.unitValue with
              | .error e => (.error e, p)
              | .ok uv =>
                if uv ≤ 0 then
                  (.error ("Unit value \"" ++ toString uv ++ "\" is not a positive amount."), p)
                else
                  let w2 := validateTotalSharesTransactionValue uv ts tv
                  let spentCash := -tv
                  andUpd (prependWarnings (w1 ++ w2)
                      (p.updCash it.platform it.currency
                        (fun h => h.updateValue spentCash it.date "INDEX_FUND_BUY")))
                    (fun p' => p'.updFund it.platform it.assetCode
                      (fun h => h.updateShares ts spentCash it.date false "BUY" (some uv)))

/-- `processActionBuy` (dispatch on asset type). -/
def processActionBuy (it : Item) (p : Portfolio) :
    Except String (List String) × Portfolio :=
  match p.hasPlatformE it.platform with
  | .error e => (.error e, p)
  | .ok false => (.error ("Platform \"" ++ optS it.platform ++ "\" does not exist"), p)
  | .ok true =>
    match it.assetType with
    | some "Stock" => processActionBuyStock it p
    | some "IndexFund" => processActionBuyIndexFund it p
    | some "Bond" => processActionBuyBond it p
    | x => (.error ("Processing of \"Buy\" for asset type \"" ++ optS x ++
        "\" is not implemented"), p)

/-- `processActionSellStock` (note: the acquired cash is
`totalValue.minus(feeValue)`). -/
def processActionSellStock (it : Item) (p : Portfolio) :
    Except String (List String) × Portfolio :=
  match p.getPlatformE it.platform with
  | .error e => (.error e, p)
  | .ok (_, pl) =>
    match pl.getStockE it.assetCode with
    | .error e => (.error e, p)
    | .ok (_, sh) =>
      match getQE it.totalShares with
      | .error e => (.error e, p)
      | .ok ts =>
        if ts < 0 then
          (.error ("Share count \"" ++ toString ts ++ "\" is not a positive number"), p)
        else if it.currency ≠ some sh.currency then
          (.error ("Currency \"" ++ optS it.currency ++
            "\" does not match the existing asset currency \"" ++ sh.currency ++ "\""), p)
        else
          match getQE it.unitValue with
          | .error e => (.error e, p)
          | .ok uv =>
            let w1 := if uv ≤ 0 then
              ["Unit value \"" ++ toString uv ++ "\" is not a positive amount."] else []
            match getQE it.totalValue with
            | .error e => (.error e, p)
            | .ok tv =>
              let w2 := if tv ≤ 0 then
                ["Total value \"" ++ toString tv ++ "\" is not a positive amount."] else []
              let w3 := validateTotalSharesTransactionValue uv ts tv
              match getQE it.feeValue with
              | .error e => (.error e, p)
              | .ok fee =>
                if fee < 0 then
                  (.error ("Fee value \"" ++ toString fee ++ "\" is not a non-negative amount"), p)
                else if tv ≤ fee then
                  (.error ("Fee value \"" ++ toString fee ++ "\" is not smaller than total value"), p)
                else
                  let acquiredCash := tv - fee
                  andUpd (prependWarnings (w1 ++ w2 ++ w3)
                      (p.updCash it.platform it.currency
                        (fun h => h.updateValue acquiredCash it.date "STOCK_SELL")))
                    (fun p' => p'.updStock it.platform it.assetCode
                      (fun h => h.updateShares (-ts) acquiredCash it.date false "SELL" false (some uv)))

/-- `processActionSellIndexFund` (the acquired cash is the total value). -/
def processActionSellIndexFund (it : Item) (p : Portfolio) :
    Except String (List String) × Portfolio :=
  match p.getPlatformE it.platform with
  | .error e => (.error e, p)
  | .ok (_, pl) =>
    match pl.getFundE it.assetCode with
    | .error e => (.error e, p)
    | .ok (_, fh) =>
      if it.currency ≠ some fh.currency then
        (.error ("Currency \"" ++ optS it.currency ++
          "\" does not match the existing asset currency \"" ++ fh.currency ++ "\""), p)
      else
        match getQE it.totalValue with
        | .error e => (.error e, p)
        | .ok tv =>
          let w1 := if tv ≤ 0 then
            ["Total value \"" ++ toString tv ++ "\" is not a positive amount."] else []
          match getQE it.totalShares with
          | .error e => (.error e, p)
          | .ok ts =>
            if ts ≤ 0 then
              (.error ("Share count \"" ++ toString ts ++ "\" is not a positive number"), p)
            else
              match getQE it.unitValue with
              | .error e => (.error e, p)
              | .ok uv =>
                if uv ≤ 0 then
                  (.error ("Unit value \"" ++ toString uv ++ "\" is not a positive amount."), p)
                else
                  let w2 := validateTotalSharesTransactionValue uv ts tv
                  let acquiredCash := tv
                  andUpd (prependWarnings (w1 ++ w2)
                      (p.updCash it.platform it.currency
                        (fun h => h.updateValue acquiredCash it.date "INDEX_FUND_SELL")))
                    (fun p' => p'.updFund it.platform it.assetCode
                      (fun h => h.updateShares (-ts) acquiredCash it.date false "SELL" (some uv)))

/-- `processActionSell` (dispatch on asset type; bonds are not supported). -/
def processActionSell (it : Item) (p : Portfolio) :
    Except String (List String) × Portfolio :=
  match p.hasPlatformE it.platform with
  | .error e => (.error e, p)
  | .ok false => (.error ("Platform \"" ++ optS it.platform ++ "\" does not exist"), p)
  | .ok true =>
    match it.assetType with
    | some "Stock" => processActionSellStock it p
    | some "IndexFund" => processActionSellIndexFund it p
    | x => (.error ("Processing of \"Sell\" for asset type \"" ++ optS x ++
        "\" is not implemented"), p)

/-- `processActionDividend`. -/
def processActionDividend (it : Item) (p : Portfolio) :
    Except String (List String) × Portfolio :=
  match p.hasPlatformE it.platform with
  | .error e => (.error e, p)
  | .ok false => (.error ("Platform \"" ++ optS it.platform ++ "\" does not exist"), p)
  | .ok true =>
    match p.getPlatformE it.platform with
    | .error e => (.error e, p)
    | .ok (_, pl) =>
      match pl.getStockE it.assetCode with
      | .error e => (.error e, p)
      | .ok (_, sh) =>
        if it.currency ≠ some sh.currency then
          (.error ("Currency \"" ++ optS it.currency ++
            "\" does not match the existing asset currency \"" ++ sh.currency ++ "\""), p)
        else
          match getQE it.grossValue, getQE it.netValue, getQE it.taxValue with
          | .error e, _, _ => (.error e, p)
          | _, .error e, _ => (.error e, p)
          | _, _, .error e => (.error e, p)
          | .ok gv, .ok nv, .ok xv =>
            if gv ≤ 0 then
              (.error ("Gross value \"" ++ toString gv ++ "\" is not a positive amount"), p)
            else if nv ≤ 0 then
              (.error ("Net value \"" ++ toString nv ++ "\" is not a positive amount"), p)
            else if xv < 0 then
              (.error ("Tax value \"" ++ toString xv ++ "\" is not a non-negative amount"), p)
            else if gv < nv then
              (.error ("Net value \"" ++ toString nv ++
                "\" cannot be greater than gross value \"" ++ toString gv ++ "\""), p)
            else if gv < xv then
              (.error ("Tax value \"" ++ toString xv ++
                "\" cannot be greater than gross value \"" ++ toString gv ++ "\""), p)
            else if gv ≠ nv + xv then
              (.error ("Gross value " ++ toString gv ++
                " does not match the sum of net value and tax value, expected " ++
                toString (nv + xv)), p)
            else
              andUpd (p.updCash it.platform it.currency
                  (fun h => h.updateValue nv it.date "STOCK_DIVIDEND"))
                (fun p' => p'.updStock it.platform it.assetCode
                  (fun h => h.updateShares 0 nv it.date true "DIVIDEND" false none))

/-- `processActionStockSplit`. -/
def processActionStockSplit (it : Item) (p : Portfolio) :
    Except String (List String) × Portfolio :=
  match p.hasPlatformE it.platform with
  | .error e => (.error e, p)
  | .ok false => (.error ("Platform \"" ++ optS it.platform ++ "\" does not exist"), p)
  | .ok true =>
    match p.getPlatformE it.platform with
    | .error e => (.error e, p)
    | .ok (_, pl) =>
      match pl.getStockE it.assetCode with
      | .error e => (.error e, p)
      | .ok (_, sh) =>
        if it.currency ≠ some sh.currency then
          (.error ("Currency \"" ++ optS it.currency ++
            "\" does not match the existing asset currency \"" ++ sh.currency ++ "\""), p)
        else
          match getQE it.fromToCoefficient, getQE it.fromTotalShares, getQE it.toTotalShares with
          | .error e, _, _ => (.error e, p)
          | _, .error e, _ => (.error e, p)
          | _, _, .error e => (.error e, p)
          | .ok coeff, .ok fromTs, .ok toTs =>
            if coeff ≤ 0 then
              (.error ("Multiplier \"" ++ toString coeff ++ "\" must be a positive number"), p)
            else if fromTs ≤ 0 then
              (.error ("From total shares \"" ++ toString fromTs ++ "\" is not a positive number"), p)
            else if toTs ≤ 0 then
              (.error ("To total shares \"" ++ toString toTs ++ "\" is not a positive number"), p)
            else if fromTs ≠ sh.shares then
              (.error ("Initial total shares \"" ++ toString fromTs ++
                "\" does not match the current total shares held \"" ++
                toString sh.shares ++ "\""), p)
            else
              let w1 := validateTotalSharesSplitValue fromTs coeff toTs
              prependWarnings w1
                (p.updStock it.platform it.assetCode
                  (fun h => h.updateShares (toTs - fromTs) 0 it.date false "STOCK_SPLIT" true none))

/-- `processActionInterestCash` (the cash holding is fetched before the value
checks, so a missing holding fails first). -/
def processActionInterestCash (it : Item) (p : Portfolio) :
    Except String (List String) × Portfolio :=
  match p.getPlatformE it.platform with
  | .error e => (.error e, p)
  | .ok (_, pl) =>
    match pl.getCashE it.currency with
    | .error e => (.error e, p)
    | .ok _ =>
      match getQE it.grossValue, getQE it.netValue, getQE it.taxValue with
      | .error e, _, _ => (.error e, p)
      | _, .error e, _ => (.error e, p)
      | _, _, .error e => (.error e, p)
      | .ok gv, .ok nv, .ok xv =>
        if gv ≤ 0 then
          (.error ("Gross value \"" ++ toString gv ++ "\" is not a positive amount"), p)
        else if nv ≤ 0 then
          (.error ("Net value \"" ++ toString nv ++ "\" is not a positive amount"), p)
        else if xv < 0 then
          (.error ("Tax value \"" ++ toString xv ++ "\" is not a non-negative amount"), p)
        else if gv < nv then
          (.error ("Net value \"" ++ toString nv ++
            "\" cannot be greater than gross value \"" ++ toString gv ++ "\""), p)
        else if gv < xv then
          (.error ("Tax value \"" ++ toString xv ++
            "\" cannot be greater than gross value \"" ++ toString gv ++ "\""), p)
        else if gv ≠ nv + xv then
          (.error ("Gross value " ++ toString gv ++
            " does not match the sum of net value and tax value, expected " ++
            toString (nv + xv)), p)
        else
          p.updCash it.platform it.currency
            (fun h => h.updateValue nv it.date "CASH_INTEREST")

/-- `processActionInterestBond`. -/
def processActionInterestBond (it : Item) (p : Portfolio) :
    Except String (List String) × Portfolio :=
  match p.getPlatformE it.platform with
  | .error e => (.error e, p)
  | .ok (_, pl) =>
    match pl.getBondE it.assetCode with
    | .error e => (.error e, p)
    | .ok (_, bh) =>
      if it.currency ≠ some bh.currency then
        (.error ("Currency \"" ++ optS it.currency ++
          "\" does not match the existing asset currency \"" ++ bh.currency ++ "\""), p)
      else
        match getQE it.grossValue, getQE it.netValue, getQE it.taxValue with
        | .error e, _, _ => (.error e, p)
        | _, .error e, _ => (.error e, p)
        | _, _, .error e => (.error e, p)
        | .ok gv, .ok nv, .ok xv =>
          if gv ≤ 0 then
            (.error ("Gross value \"" ++ toString gv ++ "\" is not a positive amount"), p)
          else if nv ≤ 0 then
            (.error ("Net value \"" ++ toString nv ++ "\" is not a positive amount"), p)
          else if xv < 0 then
            (.error ("Tax value \"" ++ toString xv ++ "\" is not a non-negative amount"), p)
          else if gv < nv then
            (.error ("Net value \"" ++ toString nv ++
              "\" cannot be greater than gross value \"" ++ toString gv ++ "\""), p)
          else if gv < xv then
            (.error ("Tax value \"" ++ toString xv ++
              "\" cannot be greater than gross value \"" ++ toString gv ++ "\""), p)
          else if gv ≠ nv + xv then
            (.error ("Gross value " ++ toString gv ++
              " does not match the sum of net value and tax value, expected " ++
              toString (nv + xv)), p)
          else
            andUpd (p.updCash it.platform it.currency
                (fun h => h.updateValue nv it.date "BOND_INTEREST"))
              (fun p' => p'.updBond it.platform it.assetCode
                (fun h => h.updateShares 0 nv it.date true "INTEREST" none))

/-- `processActionInterest` (dispatch on asset type). -/
def processActionInterest (it : Item) (p : Portfolio) :
    Except String (List String) × Portfolio :=
  match p.hasPlatformE it.platform with
  | .error e => (.error e, p)
  | .ok false => (.error ("Platform \"" ++ optS it.platform ++ "\" does not exist"), p)
  | .ok true =>
    match it.assetType with
    | some "Cash" => processActionInterestCash it p
    | some "Bond" => processActionInterestBond it p
    | x => (.error ("Processing of \"Interest\" for asset type \"" ++ optS x ++
        "\" is not implemented"), p)

/-- `processActionCurrencyConversion`. -/
def processActionCurrencyConversion (it : Item) (p : Portfolio) :
    Except String (List String) × Portfolio :=
  match p.hasPlatformE it.platform with
  | .error e => (.error e, p)
  | .ok false => (.error ("Platform \"" ++ optS it.platform ++ "\" does not exist"), p)
  | .ok true =>
    match getQE it.fromValue, getQE it.toValue, getQE it.fromToCoefficient with
    | .error e, _, _ => (.error e, p)
    | _, .error e, _ => (.error e, p)
    | _, _, .error e => (.error e, p)
    | .ok fv, .ok tv, .ok coeff =>
      if fv ≤ 0 then
        (.error ("From value \"" ++ toString fv ++ "\" is not a positive amount"), p)
      else if tv ≤ 0 then
        (.error ("To value \"" ++ toString tv ++ "\" is not a positive amount"), p)
      else if coeff ≤ 0 then
        (.error ("From-to coefficient \"" ++ toString coeff ++
          "\" must be a positive number"), p)
      else
        let w1 := validateCurrencyConversionTransactionValue coeff fv tv
        match getQE it.feeValue with
        | .error e => (.error e, p)
        | .ok fee =>
          if fee < 0 then
            (.error ("Fee value \"" ++ toString fee ++ "\" is not a non-negative amount"), p)
          else
            andUpd (prependWarnings w1
                (p.updCash it.platform it.fromCurrency
                  (fun h => h.updateValue (-(fv + fee)) it.date "CASH_CURRENCY_CONVERSION")))
              (fun p' => p'.updCash it.platform it.toCurrency
                (fun h => h.updateValue tv it.date "CASH_CURRENCY_CONVERSION"))

/-- `processActionTransfer`. -/
def processActionTransfer (it : Item) (p : Portfolio) :
    Except String (List String) × Portfolio :=
  match p.hasPlatformE it.fromPlatform with
  | .error e => (.error e, p)
  | .ok false => (.error ("From platform \"" ++ optS it.fromPlatform ++ "\" does not exist"), p)
  | .ok true =>
    match p.hasPlatformE it.toPlatform with
    | .error e => (.error e, p)
    | .ok false => (.error ("To platform \"" ++ optS it.toPlatform ++ "\" does not exist"), p)
    | .ok true =>
      match getQE it.totalValue with
      | .error e => (.error e, p)
      | .ok tv =>
        if tv ≤ 0 then
          (.error ("Total value \"" ++ toString tv ++ "\" is not a positive amount"), p)
        else
          match getQE it.feeValue with
          | .error e => (.error e, p)
          | .ok fee =>
            if fee < 0 then
              (.error ("Fee value \"" ++ toString fee ++ "\" is not a non-negative amount"), p)
            else
              andUpd (p.updCash it.fromPlatform it.currency
                  (fun h => h.updateValue (-(tv + fee)) it.date "CASH_TRANSFER"))
                (fun p' => p'.updCash it.toPlatform it.currency
                  (fun h => h.updateValue tv it.date "CASH_TRANSFER"))

/-- `processActionPublicToPrivateShareConversion` (the fee-sign check is a
warning, not fatal). -/
def processActionPublicToPrivateShareConversion (it : Item) (p : Portfolio) :
    Except String (List String) × Portfolio :=
  match p.hasPlatformE it.platform with
  | .error e => (.error e, p)
  | .ok false => (.error ("Platform \"" ++ optS it.platform ++ "\" does not exist"), p)
  | .ok true =>
    match p.getPlatformE it.platform with
    | .error e => (.error e, p)
    | .ok (_, pl) =>
      match pl.getStockE it.assetCode with
      | .error e => (.error e, p)
      | .ok (_, sh) =>
        if it.currency ≠ some sh.currency then
          (.error ("Currency \"" ++ optS it.currency ++
            "\" does not match the existing asset currency \"" ++ sh.currency ++ "\""), p)
        else
          match getQE it.feeValue with
          | .error e => (.error e, p)
          | .ok fee =>
            let w1 := if fee ≤ 0 then
              ["Fee value \"" ++ toString fee ++ "\" is not a positive amount."] else []
            let cashChange := -fee
            andUpd (prependWarnings w1
                (p.updCash it.platform it.currency
                  (fun h => h.updateValue cashChange it.date
                    "STOCK_PUBLIC_TO_PRIVATE_SHARE_CONVERSION")))
              (fun p' => p'.updStock it.platform it.assetCode
                (fun h => h.updateShares 0 cashChange it.date true
                  "PUBLIC_TO_PRIVATE_SHARE_CONVERSION" false none))

/-- `processActionUnspecificAccountingIncomeAction` (the value-sign check is a
warning, not fatal). -/
def processActionUnspecificAccountingIncomeAction (it : Item) (p : Portfolio) :
    Except String (List String) × Portfolio :=
  match p.hasPlatformE it.platform with
  | .error e => (.error e, p)
  | .ok false => (.error ("Platform \"" ++ optS it.platform ++ "\" does not exist"), p)
  | .ok true =>
    match p.getPlatformE it.platform with
    | .error e => (.error e, p)
    | .ok (_, pl) =>
      match pl.getStockE it.assetCode with
      | .error e => (.error e, p)
      | .ok (_, sh) =>
        if it.currency ≠ some sh.currency then
          (.error ("Currency \"" ++ optS it.currency ++
            "\" does not match the existing asset currency \"" ++ sh.currency ++ "\""), p)
        else
          match getQE it.totalValue with
          | .error e => (.error e, p)
          | .ok tv =>
            let w1 := if tv ≤ 0 then
              ["Total value \"" ++ toString tv ++ "\" is not a positive amount."] else []
            andUpd (prependWarnings w1
                (p.updCash it.platform it.currency
                  (fun h => h.updateValue tv it.date "STOCK_UNSPECIFIC_ACCOUNTING_INCOME")))
              (fun p' => p'.updStock it.platform it.assetCode
                (fun h => h.updateShares 0 tv it.date true
                  "UNSPECIFIC_ACCOUNTING_INCOME" false none))

/-- `processActionCheckCash`: read-only comparison of the asserted cash amount
with the live value; a mismatch is one warning. -/
def processActionCheckCash (it : Item) (p : Portfolio) :
    Except String (List String) × Portfolio :=
  match p.getPlatformE it.platform with
  | .error e => (.error e, p)
  | .ok (_, pl) =>
    match pl.getCashE it.currency with
    | .error e => (.error e, p)
    | .ok (_, h) =>
      match getQE it.totalValue with
      | .error e => (.error e, p)
      | .ok tv =>
        if h.value = tv then (.ok [], p)
        else
          (.ok ["Current cash amount for currency \"" ++ optS it.currency ++ "\" is " ++
            toString h.value ++ " but expected " ++ toString tv], p)

/-- `processActionCheckStock`. -/
def processActionCheckStock (it : Item) (p : Portfolio) :
    Except String (List String) × Portfolio :=
  match p.getPlatformE it.platform with
  | .error e => (.error e, p)
  | .ok (_, pl) =>
    match pl.getStockE it.assetCode with
    | .error e => (.error e, p)
    | .ok (_, h) =>
      match getQE it.totalShares with
      | .error e => (.error e, p)
      | .ok ts =>
        if h.shares = ts then (.ok [], p)
        else
          (.ok ["Current shares amount for stock \"" ++ optS it.assetCode ++ "\" is " ++
            toString h.shares ++ " but expected " ++ toString ts], p)

/-- `processActionCheckBond`. -/
def processActionCheckBond (it : Item) (p : Portfolio) :
    Except String (List String) × Portfolio :=
  match p.getPlatformE it.platform with
  | .error e => (.error e, p)
  | .ok (_, pl) =>
    match pl.getBondE it.assetCode with
    | .error e => (.error e, p)
    | .ok (_, h) =>
      match getQE it.totalShares with
      | .error e => (.error e, p)
      | .ok ts =>
        if h.shares = ts then (.ok [], p)
        else
          (.ok ["Current shares amount for bond \"" ++ optS it.assetCode ++ "\" is " ++
            toString h.shares ++ " but expected " ++ toString ts], p)

/-- `processActionCheckIndexFund`. -/
def processActionCheckIndexFund (it : Item) (p : Portfolio) :
    Except String (List String) × Portfolio :=
  match p.getPlatformE it.platform with
  | .error e => (.error e, p)
  | .ok (_, pl) =>
    match pl.getFundE it.assetCode with
    | .error e => (.error e, p)
    | .ok (_, h) =>
      match getQE it.totalShares with
      | .error e => (.error e, p)
      | .ok ts =>
        if h.shares = ts then (.ok [], p)
        else
          (.ok ["Current shares amount for index fund \"" ++ optS it.assetCode ++ "\" is " ++
            toString h.shares ++ " but expected " ++ toString ts], p)

/-- `processActionCheck` (dispatch on asset type). -/
def processActionCheck (it : Item) (p : Portfolio) :
    Except String (List String) × Portfolio :=
  match p.hasPlatformE it.platform with
  | .error e => (.error e, p)
  | .ok false => (.error ("Platform \"" ++ optS it.platform ++ "\" does not exist"), p)
  | .ok true =>
    match it.assetType with
    | some "Cash" => processActionCheckCash it p
    | some "Stock" => processActionCheckStock it p
    | some "Bond" => processActionCheckBond it p
    | some "IndexFund" => processActionCheckIndexFund it p
    | x => (.error ("Processing of \"Check\" for asset type \"" ++ optS x ++
        "\" is not implemented"), p)

/-- The dispatch part of `processAction` (after the chronological gate). -/
def dispatchAction (it : Item) (p : Portfolio) :
    Except String (List String) × Portfolio :=
  match it.action with
  | "NewPlatform" => processActionNewPlatform it p
  | "NewAsset" => processActionNewAsset it p
  | "Check" => processActionCheck it p
  | "Deposit" => processActionDeposit it p
  | "Buy" => processActionBuy it p
  | "Sell" => processActionSell it p
  | "Dividend" => processActionDividend it p
  | "CurrencyConversion" => processActionCurrencyConversion it p
  | "Transfer" => processActionTransfer it p
  | "UnspecificAccountingIncomeAction" => processActionUnspecificAccountingIncomeAction it p
  | "PublicToPrivateShareConversion" => processActionPublicToPrivateShareConversion it p
  | "Interest" => processActionInterest it p
  | "Split" => processActionStockSplit it p
  | a => (.error ("Processing for \"" ++ a ++ "\" is not implemented"), p)

/-- `processAction(item, portfolioObj)` for an already field-parsed item:
chronological gate first, then dispatch to the per-action handler. -/
def processAction (it : Item) (p : Portfolio) :
    Except String (List String) × Portfolio :=
  match setSameOrLaterDateE p it.date with
  | (.error e, p') => (.error e, p')
  | (.ok _, p') => dispatchAction it p'

/-- The per-entry loop of `processActivityList`: processes entries in array
order, records warnings by index, and on the first thrown error records it by
index and stops, keeping the state the failing entry left behind. -/
def processLoop (p : Portfolio) (errMap : List (ℕ × String)) (i : ℕ) :
    List Item → Portfolio × List (ℕ × String) × Bool
  | [] => (p, errMap, false)
  | it :: rest =>
    match processAction it p with
    | (.ok warnings, p') =>
      let errMap' :=
        if warnings.length > 0 then
          errMap ++ [(i, "You have " ++ toString warnings.length ++ " warning(s): " ++
            String.intercalate " " warnings)]
        else errMap
      processLoop p' errMap' (i + 1) rest
    | (.error e, p') =>
      (p', errMap ++ [(i, "Critical error occurred, further processing stopped: " ++ e)], true)

/-- `processActivityList(activityFileJson)`.  The portfolio-wide
`validateAndFinalize` pass depends on the external price service, so it is a
parameter; the loop itself decides whether it runs at all. -/
def processActivityList (finalize : Portfolio → Except String Portfolio)
    (items : List Item) :
    Except String (Portfolio × List (ℕ × String) × Bool) :=
  if items.isEmpty then .error "Activity JSON is empty."
  else
    match processLoop Portfolio.fresh [] 0 items with
    | (p, errMap, true) => .ok (p, errMap, true)
    | (p, errMap, false) =>
      match finalize p with
      | .error e => .error e
      | .ok p' => .ok (p', errMap, false)

/-! ## The chronological watermark is only touched by the gate (claim C3) -/

@[simp] theorem prependWarnings_snd (w : List String)
    (r : Except String (List String) × Portfolio) :
    (prependWarnings w r).2 = r.2 := by
  unfold prependWarnings; split <;> rfl

@[simp] theorem updCash_latest (p : Portfolio) (a b : Option String)
    (f : CashHolding → Except String (List String) × CashHolding) :
    ((p.updCash a b f).2).latestDate = p.latestDate := by
  unfold Portfolio.updCash
  repeat' split
  all_goals rfl

@[simp] theorem updStock_latest (p : Portfolio) (a b : Option String)
    (f : StockHolding → Except String (List String) × StockHolding) :
    ((p.updStock a b f).2).latestDate = p.latestDate := by
  unfold Portfolio.updStock
  repeat' split
  all_goals rfl

@[simp] theorem updFund_latest (p : Portfolio) (a b : Option String)
    (f : IndexFundHolding → Except String (List String) × IndexFundHolding) :
    ((p.updFund a b f).2).latestDate = p.latestDate := by
  unfold Portfolio.updFund
  repeat' split
  all_goals rfl

@[simp] theorem updBond_latest (p : Portfolio) (a b : Option String)
    (f : BondHolding → Except String (List String) × BondHolding) :
    ((p.updBond a b f).2).latestDate = p.latestDate := by
  unfold Portfolio.updBond
  repeat' split
  all_goals rfl

theorem andUpd_latest {r : Except String (List String) × Portfolio}
    {f : Portfolio → Except String (List String) × Portfolio} {d : Option ℤ}
    (hr : r.2.latestDate = d) (hf : ∀ q, ((f q).2).latestDate = q.latestDate) :
    ((andUpd r f).2).latestDate = d := by
  obtain ⟨res, p1⟩ := r
  cases res with
  | error e => exact hr
  | ok ws =>
    show ((prependWarnings ws (f p1)).2).latestDate = d
    rw [prependWarnings_snd, hf p1]
    exact hr

@[simp] theorem processActionNewPlatform_latest (it : Item) (p : Portfolio) :
    ((processActionNewPlatform it p).2).latestDate = p.latestDate := by
  unfold processActionNewPlatform
  repeat' split
  all_goals rfl

@[simp] theorem processActionNewAssetCash_latest (it : Item) (p : Portfolio) :
    ((processActionNewAssetCash it p).2).latestDate = p.latestDate := by
  unfold processActionNewAssetCash
  repeat' split
  all_goals rfl

@[simp] theorem processActionNewAssetStock_latest (it : Item) (p : Portfolio) :
    ((processActionNewAssetStock it p).2).latestDate = p.latestDate := by
  unfold processActionNewAssetStock
  repeat' split
  all_goals rfl

@[simp] theorem processActionNewAssetIndexFund_latest (it : Item) (p : Portfolio) :
    ((processActionNewAssetIndexFund it p).2).latestDate = p.latestDate := by
  unfold processActionNewAssetIndexFund
  repeat' split
  all_goals rfl

@[simp] theorem processActionNewAssetBond_latest (it : Item) (p : Portfolio) :
    ((processActionNewAssetBond it p).2).latestDate = p.latestDate := by
  unfold processActionNewAssetBond
  repeat' split
  all_goals rfl

@[simp] theorem processActionNewAsset_latest (it : Item) (p : Portfolio) :
    ((processActionNewAsset it p).2).latestDate = p.latestDate := by
  unfold processActionNewAsset
  repeat' split
  all_goals simp

@[simp] theorem processActionDeposit_latest (it : Item) (p : Portfolio) :
    ((processActionDeposit it p).2).latestDate = p.latestDate := by
  unfold processActionDeposit
  repeat' split
  all_goals simp

@[simp] theorem processActionBuyStock_latest (it : Item) (p : Portfolio) :
    ((processActionBuyStock it p).2).latestDate = p.latestDate := by
  unfold processActionBuyStock
  repeat' split
  all_goals try rfl
  all_goals exact andUpd_latest (by simp) (fun q => by simp)

@[simp] theorem processActionBuyBond_latest (it : Item) (p : Portfolio) :
    ((processActionBuyBond it p).2).latestDate = p.latestDate := by
  unfold processActionBuyBond
  repeat' split
  all_goals try rfl
  all_goals exact andUpd_latest (by simp) (fun q => by simp)

@[simp] theorem processActionBuyIndexFund_latest (it : Item) (p : Portfolio) :
    ((processActionBuyIndexFund it p).2).latestDate = p.latestDate := by
  unfold processActionBuyIndexFund
  repeat' split
  all_goals try rfl
  all_goals exact andUpd_latest (by simp) (fun q => by simp)

@[simp] theorem processActionBuy_latest (it : Item) (p : Portfolio) :
    ((processActionBuy it p).2).latestDate = p.latestDate := by
  unfold processActionBuy
  repeat' split
  all_goals simp

@[simp] theorem processActionSellStock_latest (it : Item) (p : Portfolio) :
    ((processActionSellStock it p).2).latestDate = p.latestDate := by
  unfold processActionSellStock
  repeat' split
  all_goals try rfl
  all_goals exact andUpd_latest (by simp) (fun q => by simp)

@[simp] theorem processActionSellIndexFund_latest (it : Item) (p : Portfolio) :
    ((processActionSellIndexFund it p).2).latestDate = p.latestDate := by
  unfold processActionSellIndexFund
  repeat' split
  all_goals try rfl
  all_goals exact andUpd_latest (by simp) (fun q => by simp)

@[simp] theorem processActionSell_latest (it : Item) (p : Portfolio) :
    ((processActionSell it p).2).latestDate = p.latestDate := by
  unfold processActionSell
  repeat' split
  all_goals simp

@[simp] theorem processActionDividend_latest (it : Item) (p : Portfolio) :
    ((processActionDividend it p).2).latestDate = p.latestDate := by
  unfold processActionDividend
  repeat' split
  all_goals try rfl
  all_goals exact andUpd_latest (by simp) (fun q => by simp)

@[simp] theorem processActionStockSplit_latest (it : Item) (p : Portfolio) :
    ((processActionStockSplit it p).2).latestDate = p.latestDate := by
  unfold processActionStockSplit
  repeat' split
  all_goals simp

@[simp] theorem processActionInterestCash_latest (it : Item) (p : Portfolio) :
    ((processActionInterestCash it p).2).latestDate = p.latestDate := by
  unfold processActionInterestCash
  repeat' split
  all_goals simp

@[simp] theorem processActionInterestBond_latest (it : Item) (p : Portfolio) :
    ((processActionInterestBond it p).2).latestDate = p.latestDate := by
  unfold processActionInterestBond
  repeat' split
  all_goals try rfl
  all_goals exact andUpd_latest (by simp) (fun q => by simp)

@[simp] theorem processActionInterest_latest (it : Item) (p : Portfolio) :
    ((processActionInterest it p).2).latestDate = p.latestDate := by
  unfold processActionInterest
  repeat' split
  all_goals simp

@[simp] theorem processActionCurrencyConversion_latest (it : Item) (p : Portfolio) :
    ((processActionCurrencyConversion it p).2).latestDate = p.latestDate := by
  unfold processActionCurrencyConversion
  repeat' split
  all_goals try rfl
  all_goals exact andUpd_latest (by simp) (fun q => by simp)

@[simp] theorem processActionTransfer_latest (it : Item) (p : Portfolio) :
    ((processActionTransfer it p).2).latestDate = p.latestDate := by
  unfold processActionTransfer
  repeat' split
  all_goals try rfl
  all_goals exact andUpd_latest (by simp) (fun q => by simp)

@[simp] theorem processActionPublicToPrivateShareConversion_latest (it : Item) (p : Portfolio) :
    ((processActionPublicToPrivateShareConversion it p).2).latestDate = p.latestDate := by
  unfold processActionPublicToPrivateShareConversion
  repeat' split
  all_goals try rfl
  all_goals exact andUpd_latest (by simp) (fun q => by simp)

@[simp] theorem processActionUnspecificAccountingIncomeAction_latest (it : Item) (p : Portfolio) :
    ((processActionUnspecificAccountingIncomeAction it p).2).latestDate = p.latestDate := by
  unfold processActionUnspecificAccountingIncomeAction
  repeat' split
  all_goals try rfl
  all_goals exact andUpd_latest (by simp) (fun q => by simp)

@[simp] theorem processActionCheckCash_latest (it : Item) (p : Portfolio) :
    ((processActionCheckCash it p).2).latestDate = p.latestDate := by
  unfold processActionCheckCash
  repeat' split
  all_goals rfl

@[simp] theorem processActionCheckStock_latest (it : Item) (p : Portfolio) :
    ((processActionCheckStock it p).2).latestDate = p.latestDate := by
  unfold processActionCheckStock
  repeat' split
  all_goals rfl

@[simp] theorem processActionCheckBond_latest (it : Item) (p : Portfolio) :
    ((processActionCheckBond it p).2).latestDate = p.latestDate := by
  unfold processActionCheckBond
  repeat' split
  all_goals rfl

@[simp] theorem processActionCheckIndexFund_latest (it : Item) (p : Portfolio) :
    ((processActionCheckIndexFund it p).2).latestDate = p.latestDate := by
  unfold processActionCheckIndexFund
  repeat' split
  all_goals rfl

@[simp] theorem processActionCheck_latest (it : Item) (p : Portfolio) :
    ((processActionCheck it p).2).latestDate = p.latestDate := by
  unfold processActionCheck
  repeat' split
  all_goals simp

/-- No per-action handler touches the chronological watermark. -/
@[simp] theorem dispatchAction_latest (it : Item) (p : Portfolio) :
    ((dispatchAction it p).2).latestDate = p.latestDate := by
  unfold dispatchAction
  repeat' split
  all_goals simp

/-- C3: for every parsed entry, a date strictly earlier than the portfolio
watermark is a fatal error that halts the entry with the portfolio unchanged,
regardless of any other field; a date equal to or later than the watermark
(or an unset watermark) passes the gate and the watermark afterwards is the
entry date, whatever the handler then does. -/
theorem claim_C3_chronological_gate (it : Item) (p : Portfolio) :
    (∀ w, p.latestDate = some w → it.date < w →
      processAction it p =
        (.error ("Record not in chronological order with previous record: Date \"" ++
          toString it.date ++ "\" earlier than \"" ++ toString w ++ "\""), p)) ∧
    ((p.latestDate = none ∨ ∃ w, p.latestDate = some w ∧ w ≤ it.date) →
      ((processAction it p).2).latestDate = some it.date) := by
  constructor
  · intro w hw hlt
    unfold processAction setSameOrLaterDateE
    rw [hw]
    simp only [if_pos hlt]
  · intro hge
    unfold processAction setSameOrLaterDateE
    rcases hge with hn | ⟨w, hw, hle⟩
    · rw [hn]
      simp
    · rw [hw]
      simp only [if_neg (not_lt.mpr hle)]
      simp

/-- Witness for C3 at a concrete portfolio with watermark 5: an entry dated 3
is rejected with the state unchanged, and an entry dated 7 advances the
watermark to 7. -/
theorem claim_C3_chronological_gate_witness :
    processAction { date := 3, action := "Deposit" } { platforms := [], latestDate := some 5 } =
      (.error ("Record not in chronological order with previous record: Date \"" ++
        toString (3 : ℤ) ++ "\" earlier than \"" ++ toString (5 : ℤ) ++ "\""),
       { platforms := [], latestDate := some 5 }) ∧
    ((processAction { date := 7, action := "Deposit" }
        { platforms := [], latestDate := some 5 }).2).latestDate = some 7 :=
  ⟨(claim_C3_chronological_gate { date := 3, action := "Deposit" }
      { platforms := [], latestDate := some 5 }).1 5 rfl (by norm_num),
   (claim_C3_chronological_gate { date := 7, action := "Deposit" }
      { platforms := [], latestDate := some 5 }).2 (Or.inr ⟨5, rfl, by norm_num⟩)⟩

/-! ## Ledger-replay control flow (claim C2) -/

/-- The per-entry warning message recorded by the activity loop. -/
def warnText (ws : List String) : String :=
  "You have " ++ toString ws.length ++ " warning(s): " ++ String.intercalate " " ws

/-- The per-entry critical-error message recorded by the activity loop. -/
def criticalText (e : String) : String :=
  "Critical error occurred, further processing stopped: " ++ e

/-- An all-successful replay of a list of entries starting at index `i`:
the final portfolio and the warning map it accumulates, or `none` when some
entry throws. -/
def runEntriesMap (p : Portfolio) (i : ℕ) :
    List Item → Option (Portfolio × List (ℕ × String))
  | [] => some (p, [])
  | it :: rest =>
    match processAction it p with
    | (.error _, _) => none
    | (.ok ws, p') =>
      match runEntriesMap p' (i + 1) rest with
      | none => none
      | some (q, m) =>
        some (q, (if ws.length > 0 then [(i, warnText ws)] else []) ++ m)

/-- When every entry succeeds, the activity loop returns the all-successful
replay state, its warning map, and no critical error. -/
theorem processLoop_of_ok :
    ∀ (items : List Item) (p : Portfolio) (m : List (ℕ × String)) (i : ℕ)
      (q : Portfolio) (wm : List (ℕ × String)),
      runEntriesMap p i items = some (q, wm) →
      processLoop p m i items = (q, m ++ wm, false) := by
  intro items
  induction items with
  | nil =>
    intro p m i q wm h
    unfold runEntriesMap at h
    simp only [Option.some.injEq, Prod.mk.injEq] at h
    obtain ⟨h1, h2⟩ := h
    subst h1; subst h2
    simp [processLoop]
  | cons it rest ih =>
    intro p m i q wm h
    unfold runEntriesMap at h
    unfold processLoop
    cases hact : processAction it p with
    | mk res p' =>
      rw [hact] at h
      cases res with
      | error e => simp at h
      | ok ws =>
        simp only at h
        cases hrest : runEntriesMap p' (i + 1) rest with
        | none => rw [hrest] at h; simp at h
        | some qm =>
          obtain ⟨q', m'⟩ := qm
          rw [hrest] at h
          simp only [Option.some.injEq, Prod.mk.injEq] at h
          obtain ⟨h1, h2⟩ := h
          subst h1
          subst h2
          simp only
          by_cases hw : ws.length > 0
          · rw [if_pos hw, if_pos hw]
            rw [ih p' _ (i + 1) q' m' hrest]
            simp [warnText]
          · rw [if_neg hw, if_neg hw]
            rw [ih p' _ (i + 1) q' m' hrest]
            simp

/-- When a prefix succeeds and the next entry throws, the activity loop stops
at that entry: it returns the state the failing entry left behind, appends the
critical-error message under the failing index, and never touches the
remaining entries. -/
theorem processLoop_of_fail :
    ∀ (pre : List Item) (bad : Item) (post : List Item) (p : Portfolio)
      (m : List (ℕ × String)) (i : ℕ) (q pbad : Portfolio)
      (wm : List (ℕ × String)) (e : String),
      runEntriesMap p i pre = some (q, wm) →
      processAction bad q = (.error e, pbad) →
      processLoop p m i (pre ++ bad :: post) =
        (pbad, m ++ wm ++ [(i + pre.length, criticalText e)], true) := by
  intro pre
  induction pre with
  | nil =>
    intro bad post p m i q pbad wm e hrun hbad
    unfold runEntriesMap at hrun
    simp only [Option.some.injEq, Prod.mk.injEq] at hrun
    obtain ⟨h1, h2⟩ := hrun
    subst h1; subst h2
    rw [List.nil_append]
    unfold processLoop
    rw [hbad]
    simp [criticalText]
  | cons it rest ih =>
    intro bad post p m i q pbad wm e hrun hbad
    unfold runEntriesMap at hrun
    cases hact : processAction it p with
    | mk res p' =>
      rw [hact] at hrun
      cases res with
      | error e0 => simp at hrun
      | ok ws =>
        simp only at hrun
        cases hrest : runEntriesMap p' (i + 1) rest with
        | none => rw [hrest] at hrun; simp at hrun
        | some qm =>
          obtain ⟨q', m'⟩ := qm
          rw [hrest] at hrun
          simp only [Option.some.injEq, Prod.mk.injEq] at hrun
          obtain ⟨h1, h2⟩ := hrun
          subst h1
          subst h2
          rw [List.cons_append]
          unfold processLoop
          rw [hact]
          simp only
          rw [ih bad post p' _ (i + 1) q' pbad m' e hrest hbad]
          have hidx : i + (rest.length + 1) = i + 1 + rest.length := by omega
          by_cases hw : ws.length > 0
          · rw [if_pos hw, if_pos hw]
            simp [List.length_cons, hidx, List.append_assoc, warnText]
          · rw [if_neg hw, if_neg hw]
            simp [List.length_cons, hidx, List.append_assoc, warnText]

/-- Read the balance of one cash holding out of a portfolio. -/
def portfolioCashValue (p : Portfolio) (plat cur : String) : Option ℚ :=
  match alGet p.platforms plat with
  | none => none
  | some pl =>
    match alGet pl.cashHoldings cur with
    | none => none
    | some h => some h.value

/-- Demo ledger: create a platform. -/
def c2ItemNewPlatform : Item := { date := 1, action := "NewPlatform", platform := some "P" }

/-- Demo ledger: create a cash holding. -/
def c2ItemNewCash : Item :=
  { date := 1, action := "NewAsset", platform := some "P", assetType := some "Cash",
    currency := some "EUR" }

/-- Demo ledger: create a stock holding. -/
def c2ItemNewStock : Item :=
  { date := 1, action := "NewAsset", platform := some "P", assetType := some "Stock",
    assetCode := some "S", friendlyName := some "SN", currency := some "EUR" }

/-- Demo ledger: deposit 100. -/
def c2ItemDeposit : Item :=
  { date := 1, action := "Deposit", platform := some "P", assetType := some "Cash",
    currency := some "EUR", totalValue := some 100 }

/-- Demo ledger: a Buy entry with a zero share count; the cash leg succeeds
and then the share update throws. -/
def c2ItemBadBuy : Item :=
  { date := 1, action := "Buy", platform := some "P", assetType := some "Stock",
    assetCode := some "S", currency := some "EUR", totalShares := some 0,
    unitValue := some 1, totalValue := some 10, feeValue := some 0 }

/-- State after the demo NewPlatform entry. -/
def c2P1 : Portfolio :=
  { platforms := [("P", Platform.fresh "P")], latestDate := some 1 }

/-- The demo platform after the cash holding is added. -/
def c2Plat2 : Platform :=
  { name := "P", cashHoldings := [("EUR", CashHolding.fresh "EUR")],
    stockHoldings := [], indexFundHoldings := [], bondHoldings := [] }

/-- State after the demo cash NewAsset entry. -/
def c2P2 : Portfolio := { platforms := [("P", c2Plat2)], latestDate := some 1 }

/-- The demo platform after the stock holding is added. -/
def c2Plat3 : Platform :=
  { name := "P", cashHoldings := [("EUR", CashHolding.fresh "EUR")],
    stockHoldings := [("S", StockHolding.fresh "S" "SN" "EUR")],
    indexFundHoldings := [], bondHoldings := [] }

/-- State after the demo stock NewAsset entry. -/
def c2P3 : Portfolio := { platforms := [("P", c2Plat3)], latestDate := some 1 }

/-- The demo cash holding after the deposit. -/
def c2CashAfterDeposit : CashHolding :=
  { currency := "EUR", value := 100, cashInterestSum := 0,
    history := [⟨1, 100, "CASH_DEPOSIT"⟩] }

/-- The demo platform after the deposit. -/
def c2Plat4 : Platform :=
  { name := "P", cashHoldings := [("EUR", c2CashAfterDeposit)],
    stockHoldings := [("S", StockHolding.fresh "S" "SN" "EUR")],
    indexFundHoldings := [], bondHoldings := [] }

/-- State after the demo Deposit entry (the prefix state). -/
def c2P4 : Portfolio := { platforms := [("P", c2Plat4)], latestDate := some 1 }

/-- The demo cash holding after the cash leg of the failing Buy entry. -/
def c2CashAfterBuy : CashHolding :=
  { currency := "EUR", value := 90, cashInterestSum := 0,
    history := [⟨1, 100, "CASH_DEPOSIT"⟩, ⟨1, -10, "STOCK_BUY"⟩] }

/-- The demo platform as the failing Buy entry leaves it. -/
def c2Plat5 : Platform :=
  { name := "P", cashHoldings := [("EUR", c2CashAfterBuy)],
    stockHoldings := [("S", StockHolding.fresh "S" "SN" "EUR")],
    indexFundHoldings := [], bondHoldings := [] }

/-- State left behind by the failing Buy entry: the cash leg is applied, the
share update then throws. -/
def c2P5 : Portfolio := { platforms := [("P", c2Plat5)], latestDate := some 1 }

theorem c2Step1 : processAction c2ItemNewPlatform Portfolio.fresh = (.ok [], c2P1) := by
  simp [processAction, setSameOrLaterDateE, dispatchAction, processActionNewPlatform,
    validateNonBlankStringE, alGet, alSet, Portfolio.fresh, Platform.fresh,
    c2ItemNewPlatform, c2P1]

theorem c2Step2 : processAction c2ItemNewCash c2P1 = (.ok [], c2P2) := by
  simp [processAction, setSameOrLaterDateE, dispatchAction, processActionNewAsset,
    processActionNewAssetCash, Portfolio.hasPlatformE, Portfolio.getPlatformE,
    Platform.assetCodeTaken, validateNonBlankStringE, alGet, alSet, Platform.fresh,
    CashHolding.fresh, Except.map, c2ItemNewCash, c2P1, c2P2, c2Plat2]

theorem c2Step3 : processAction c2ItemNewStock c2P2 = (.ok [], c2P3) := by
  simp [processAction, setSameOrLaterDateE, dispatchAction, processActionNewAsset,
    processActionNewAssetStock, Portfolio.hasPlatformE, Portfolio.getPlatformE,
    Platform.assetCodeTaken, Platform.assetNameTaken, validateNonBlankStringE,
    alGet, alSet, Platform.fresh, StockHolding.fresh, CashHolding.fresh,
    List.find?, Except.map, c2ItemNewStock, c2P2, c2P3, c2Plat2, c2Plat3]

theorem c2Step4 : processAction c2ItemDeposit c2P3 = (.ok [], c2P4) := by
  simp [processAction, setSameOrLaterDateE, dispatchAction, processActionDeposit,
    Portfolio.hasPlatformE, Portfolio.getPlatformE, Portfolio.updCash, getQE,
    CashHolding.updateValue, mkCashChangeRecord, cashChangeTypeNames,
    validateNonBlankStringE, alGet, alSet, Platform.fresh, CashHolding.fresh,
    StockHolding.fresh, Except.map, c2ItemDeposit, c2P3, c2P4, c2Plat3, c2Plat4, c2CashAfterDeposit]
  norm_num

theorem c2Step5 : processAction c2ItemBadBuy c2P4 = (.error "diff: Zero", c2P5) := by
  simp [processAction, setSameOrLaterDateE, dispatchAction, processActionBuy,
    processActionBuyStock, Portfolio.hasPlatformE, Portfolio.getPlatformE,
    Platform.getStockE, getQE, Portfolio.updCash, Portfolio.updStock,
    CashHolding.updateValue, StockHolding.updateShares, mkCashChangeRecord,
    cashChangeTypeNames, andUpd, prependWarnings, validateNonBlankStringE,
    alGet, alSet, Platform.fresh, StockHolding.fresh, Except.map, c2ItemBadBuy, c2P4, c2P5, c2Plat4, c2Plat5, c2CashAfterDeposit, c2CashAfterBuy]
  norm_num

theorem c2RunPrefix :
    runEntriesMap Portfolio.fresh 0
      [c2ItemNewPlatform, c2ItemNewCash, c2ItemNewStock, c2ItemDeposit] =
      some (c2P4, []) := by
  simp [runEntriesMap, c2Step1, c2Step2, c2Step3, c2Step4]

/-- C2 (amended): `processActivityList` applies entries strictly in array
order; at the first entry whose processing throws, it records the error under
that entry's index, stops (the trailing entries do not influence the result),
skips the finalize pass (the result does not depend on `finalize`), and
returns the state as the failing entry left it — the prefix state plus any
mutations the failing entry performed before throwing.  When no entry throws,
the finalize pass runs once over the fully-applied portfolio. -/
theorem claim_C2_first_error_stops_processing :
    (∀ (finalize : Portfolio → Except String Portfolio) (pre : List Item)
        (bad : Item) (post : List Item) (q pbad : Portfolio)
        (wm : List (ℕ × String)) (e : String),
      runEntriesMap Portfolio.fresh 0 pre = some (q, wm) →
      processAction bad q = (.error e, pbad) →
      processActivityList finalize (pre ++ bad :: post) =
        .ok (pbad, wm ++ [(pre.length, criticalText e)], true)) ∧
    (∀ (finalize : Portfolio → Except String Portfolio) (items : List Item)
        (q : Portfolio) (wm : List (ℕ × String)),
      items ≠ [] →
      runEntriesMap Portfolio.fresh 0 items = some (q, wm) →
      processActivityList finalize items =
        (match finalize q with
         | .error e => .error e
         | .ok q' => .ok (q', wm, false))) := by
  constructor
  · intro finalize pre bad post q pbad wm e hrun hbad
    unfold processActivityList
    rw [if_neg (by simp)]
    rw [processLoop_of_fail pre bad post Portfolio.fresh [] 0 q pbad wm e hrun hbad]
    simp
  · intro finalize items q wm hne hrun
    unfold processActivityList
    rw [if_neg (by simpa using hne)]
    rw [processLoop_of_ok items Portfolio.fresh [] 0 q wm hrun]
    simp

/-- Witness for C2: on the concrete demo ledger, the four-entry prefix
processes fully (finalize runs, no critical flag), and with the failing Buy
entry appended, processing stops at index 4 with the critical flag set. -/
theorem claim_C2_first_error_stops_processing_witness :
    processActivityList (fun q => .ok q)
      [c2ItemNewPlatform, c2ItemNewCash, c2ItemNewStock, c2ItemDeposit] =
      .ok (c2P4, [], false) ∧
    processActivityList (fun q => .ok q)
      [c2ItemNewPlatform, c2ItemNewCash, c2ItemNewStock, c2ItemDeposit, c2ItemBadBuy] =
      .ok (c2P5, [(4, criticalText "diff: Zero")], true) := by
  constructor
  · exact claim_C2_first_error_stops_processing.2 (fun q => .ok q) _ c2P4 []
      (by simp) c2RunPrefix
  · have h := claim_C2_first_error_stops_processing.1 (fun q => .ok q)
      [c2ItemNewPlatform, c2ItemNewCash, c2ItemNewStock, c2ItemDeposit]
      c2ItemBadBuy [] c2P4 c2P5 [] "diff: Zero" c2RunPrefix c2Step5
    simpa using h

/-- Counterexample for C2 as stated: on the demo ledger the failing Buy entry
(index 4) has already debited the cash holding before throwing, so the
returned portfolio differs from the state after the successfully applied
prefix — the result does not reflect only the prefix. -/
theorem claim_C2_counterexample :
    processActivityList (fun q => .ok q)
      [c2ItemNewPlatform, c2ItemNewCash, c2ItemNewStock, c2ItemDeposit, c2ItemBadBuy] =
      .ok (c2P5, [(4, criticalText "diff: Zero")], true) ∧
    runEntriesMap Portfolio.fresh 0
      [c2ItemNewPlatform, c2ItemNewCash, c2ItemNewStock, c2ItemDeposit] =
      some (c2P4, []) ∧
    portfolioCashValue c2P5 "P" "EUR" = some 90 ∧
    portfolioCashValue c2P4 "P" "EUR" = some 100 ∧
    c2P5 ≠ c2P4 := by
  refine ⟨?_, c2RunPrefix, ?_, ?_, ?_⟩
  · have h := processLoop_of_fail
      [c2ItemNewPlatform, c2ItemNewCash, c2ItemNewStock, c2ItemDeposit]
      c2ItemBadBuy [] Portfolio.fresh [] 0 c2P4 c2P5 [] "diff: Zero"
      c2RunPrefix c2Step5
    simp only [List.cons_append, List.nil_append] at h
    unfold processActivityList
    rw [if_neg (by simp)]
    rw [h]
    simp
  · simp [portfolioCashValue, c2P5, c2Plat5, c2CashAfterBuy, alGet]
  · simp [portfolioCashValue, c2P4, c2Plat4, c2CashAfterDeposit, alGet]
  · intro h
    have h90 : portfolioCashValue c2P5 "P" "EUR" = some 90 := by
      simp [portfolioCashValue, c2P5, c2Plat5, c2CashAfterBuy, alGet]
    have h100 : portfolioCashValue c2P4 "P" "EUR" = some 100 := by
      simp [portfolioCashValue, c2P4, c2Plat4, c2CashAfterDeposit, alGet]
    rw [h] at h90
    rw [h100] at h90
    simp at h90
    try norm_num at h90

/-! ## Check-action semantics (claim C6) -/

@[simp] theorem processActionCheckCash_state (it : Item) (p : Portfolio) :
    (processActionCheckCash it p).2 = p := by
  unfold processActionCheckCash
  repeat' split
  all_goals rfl

@[simp] theorem processActionCheckStock_state (it : Item) (p : Portfolio) :
    (processActionCheckStock it p).2 = p := by
  unfold processActionCheckStock
  repeat' split
  all_goals rfl

@[simp] theorem processActionCheckBond_state (it : Item) (p : Portfolio) :
    (processActionCheckBond it p).2 = p := by
  unfold processActionCheckBond
  repeat' split
  all_goals rfl

@[simp] theorem processActionCheckIndexFund_state (it : Item) (p : Portfolio) :
    (processActionCheckIndexFund it p).2 = p := by
  unfold processActionCheckIndexFund
  repeat' split
  all_goals rfl

/-- C6: a `Check` entry never mutates any portfolio, platform or holding
state; when it names an existing holding, an asserted value equal to the live
value yields zero warnings, and a differing one yields exactly one warning,
never a fatal error, whose text contains both the actual and the expected
value (shown here for the cash and stock variants; bond and index-fund are
the same shape). -/
theorem claim_C6_check_semantics :
    (∀ (it : Item) (p : Portfolio), (processActionCheck it p).2 = p) ∧
    (∀ (it : Item) (p : Portfolio) (n : String) (pl : Platform) (c : String)
        (h : CashHolding) (tv : ℚ),
      p.getPlatformE it.platform = .ok (n, pl) →
      pl.getCashE it.currency = .ok (c, h) →
      it.totalValue = some tv →
      (h.value = tv → processActionCheckCash it p = (.ok [], p)) ∧
      (h.value ≠ tv →
        processActionCheckCash it p =
          (.ok [("Current cash amount for currency \"" ++ optS it.currency ++ "\" is ") ++
            toString h.value ++ (" but expected " ++ toString tv)], p))) ∧
    (∀ (it : Item) (p : Portfolio) (n : String) (pl : Platform) (c : String)
        (h : StockHolding) (ts : ℚ),
      p.getPlatformE it.platform = .ok (n, pl) →
      pl.getStockE it.assetCode = .ok (c, h) →
      it.totalShares = some ts →
      (h.shares = ts → processActionCheckStock it p = (.ok [], p)) ∧
      (h.shares ≠ ts →
        processActionCheckStock it p =
          (.ok [("Current shares amount for stock \"" ++ optS it.assetCode ++ "\" is ") ++
            toString h.shares ++ (" but expected " ++ toString ts)], p))) := by
  refine ⟨?_, ?_, ?_⟩
  · intro it p
    unfold processActionCheck
    repeat' split
    all_goals simp
  · intro it p n pl c h tv hplat hcash htv
    unfold processActionCheckCash
    rw [hplat]; dsimp only
    rw [hcash]; dsimp only
    rw [htv]
    constructor
    · intro heq
      simp [getQE, heq]
    · intro hne
      simp only [getQE]
      rw [if_neg hne]
      simp [String.append_assoc]
  · intro it p n pl c h ts hplat hstock hts
    unfold processActionCheckStock
    rw [hplat]; dsimp only
    rw [hstock]; dsimp only
    rw [hts]
    constructor
    · intro heq
      simp [getQE, heq]
    · intro hne
      simp only [getQE]
      rw [if_neg hne]
      simp [String.append_assoc]

/-- Witness for C6 on the concrete demo portfolio: a matching cash check
yields zero warnings, a mismatching one yields exactly the single two-value
warning, and both leave the portfolio unchanged. -/
theorem claim_C6_check_semantics_witness :
    processActionCheckCash
      { date := 1, action := "Check", platform := some "P",
        assetType := some "Cash", currency := some "EUR", totalValue := some 100 }
      c2P4 = (.ok [], c2P4) ∧
    processActionCheckCash
      { date := 1, action := "Check", platform := some "P",
        assetType := some "Cash", currency := some "EUR", totalValue := some 50 }
      c2P4 =
      (.ok [("Current cash amount for currency \"" ++ optS (some "EUR") ++ "\" is ") ++
        toString (100 : ℚ) ++ (" but expected " ++ toString (50 : ℚ))], c2P4) := by
  have hplat : c2P4.getPlatformE (some "P") = .ok ("P", c2Plat4) := by
    simp [Portfolio.getPlatformE, validateNonBlankStringE, alGet, c2P4]
  have hcash : c2Plat4.getCashE (some "EUR") = .ok ("EUR", c2CashAfterDeposit) := by
    simp [Platform.getCashE, validateNonBlankStringE, alGet, c2Plat4]
  have hval : c2CashAfterDeposit.value = 100 := rfl
  constructor
  · exact (claim_C6_check_semantics.2.1 _ c2P4 "P" c2Plat4 "EUR" c2CashAfterDeposit 100
      hplat hcash rfl).1 hval
  · exact (claim_C6_check_semantics.2.1 _ c2P4 "P" c2Plat4 "EUR" c2CashAfterDeposit 50
      hplat hcash rfl).2 (by rw [hval]; norm_num)

/-! ## Buy/Sell cash and share effects (claim C4) -/

theorem alGet_alSet_self (l : List (String × α)) (k : String) (v : α) :
    alGet (alSet l k v) k = some v := by
  induction l with
  | nil => simp [alGet, alSet]
  | cons kv rest ih =>
    obtain ⟨k', v'⟩ := kv
    by_cases hk : k' = k
    · simp [alGet, alSet, hk]
    · simp [alGet, alSet, hk, ih]

theorem getPlatformE_inv {p : Portfolio} {nm : Option String} {n : String}
    {pl : Platform} (h : p.getPlatformE nm = .ok (n, pl)) :
    validateNonBlankStringE nm "name" = .ok n ∧ alGet p.platforms n = some pl := by
  unfold Portfolio.getPlatformE at h
  cases hv : validateNonBlankStringE nm "name" with
  | error e => rw [hv] at h; exact Except.noConfusion h
  | ok n' =>
    rw [hv] at h
    dsimp only at h
    cases hg : alGet p.platforms n' with
    | none => rw [hg] at h; exact Except.noConfusion h
    | some pl' =>
      rw [hg] at h
      simp only [Except.ok.injEq, Prod.mk.injEq] at h
      obtain ⟨h1, h2⟩ := h
      subst h1; subst h2
      exact ⟨rfl, hg⟩

theorem getCashE_inv {pl : Platform} {cur : Option String} {c : String}
    {h : CashHolding} (hh : pl.getCashE cur = .ok (c, h)) :
    validateNonBlankStringE cur "currency" = .ok c ∧ alGet pl.cashHoldings c = some h := by
  unfold Platform.getCashE at hh
  cases hv : validateNonBlankStringE cur "currency" with
  | error e => rw [hv] at hh; exact Except.noConfusion hh
  | ok c' =>
    rw [hv] at hh
    dsimp only at hh
    cases hg : alGet pl.cashHoldings c' with
    | none => rw [hg] at hh; exact Except.noConfusion hh
    | some h' =>
      rw [hg] at hh
      simp only [Except.ok.injEq, Prod.mk.injEq] at hh
      obtain ⟨h1, h2⟩ := hh
      subst h1; subst h2
      exact ⟨rfl, hg⟩

theorem getStockE_inv {pl : Platform} {code : Option String} {c : String}
    {h : StockHolding} (hh : pl.getStockE code = .ok (c, h)) :
    validateNonBlankStringE code "code" = .ok c ∧ alGet pl.stockHoldings c = some h := by
  unfold Platform.getStockE at hh
  cases hv : validateNonBlankStringE code "code" with
  | error e => rw [hv] at hh; exact Except.noConfusion hh
  | ok c' =>
    rw [hv] at hh
    dsimp only at hh
    cases hg : alGet pl.stockHoldings c' with
    | none => rw [hg] at hh; exact Except.noConfusion hh
    | some h' =>
      rw [hg] at hh
      simp only [Except.ok.injEq, Prod.mk.injEq] at hh
      obtain ⟨h1, h2⟩ := hh
      subst h1; subst h2
      exact ⟨rfl, hg⟩

theorem getFundE_inv {pl : Platform} {code : Option String} {c : String}
    {h : IndexFundHolding} (hh : pl.getFundE code = .ok (c, h)) :
    validateNonBlankStringE code "code" = .ok c ∧ alGet pl.indexFundHoldings c = some h := by
  unfold Platform.getFundE at hh
  cases hv : validateNonBlankStringE code "code" with
  | error e => rw [hv] at hh; exact Except.noConfusion hh
  | ok c' =>
    rw [hv] at hh
    dsimp only at hh
    cases hg : alGet pl.indexFundHoldings c' with
    | none => rw [hg] at hh; exact Except.noConfusion hh
    | some h' =>
      rw [hg] at hh
      simp only [Except.ok.injEq, Prod.mk.injEq] at hh
      obtain ⟨h1, h2⟩ := hh
      subst h1; subst h2
      exact ⟨rfl, hg⟩

theorem getBondE_inv {pl : Platform} {code : Option String} {c : String}
    {h : BondHolding} (hh : pl.getBondE code = .ok (c, h)) :
    validateNonBlankStringE code "code" = .ok c ∧ alGet pl.bondHoldings c = some h := by
  unfold Platform.getBondE at hh
  cases hv : validateNonBlankStringE code "code" with
  | error e => rw [hv] at hh; exact Except.noConfusion hh
  | ok c' =>
    rw [hv] at hh
    dsimp only at hh
    cases hg : alGet pl.bondHoldings c' with
    | none => rw [hg] at hh; exact Except.noConfusion hh
    | some h' =>
      rw [hg] at hh
      simp only [Except.ok.injEq, Prod.mk.injEq] at hh
      obtain ⟨h1, h2⟩ := hh
      subst h1; subst h2
      exact ⟨rfl, hg⟩

/-- A successful `updateValue` adds the diff to the balance and keeps the
currency. -/
theorem CashHolding.updateValue_ok {h h' : CashHolding} {ws : List String}
    {d : ℚ} {date : ℤ} {ty : String}
    (hupd : h.updateValue d date ty = (.ok ws, h')) :
    h'.value = h.value + d ∧ h'.currency = h.currency := by
  unfold CashHolding.updateValue mkCashChangeRecord at hupd
  by_cases hd : d = 0
  · rw [if_pos hd] at hupd; exact errOkElim hupd
  · rw [if_neg hd] at hupd
    by_cases hc : cashChangeTypeNames.contains ty
    · simp only [hc, if_true] at hupd
      have hh := congrArg Prod.snd hupd
      by_cases hi : ty = "CASH_INTEREST" <;>
        simp only [hi, if_true, if_false, ite_true, ite_false] at hh <;>
        rw [← hh] <;> exact ⟨rfl, rfl⟩
    · simp only [hc, if_false] at hupd
      exact errOkElim hupd

/-- A successful stock `updateShares` adds the diff to the share count, keeps
the identity fields, and for a buy or sell records the unit value with the
entry date as the latest known price. -/
theorem stockUpdateShares_ok {h h' : StockHolding} {ws : List String}
    {diff ac : ℚ} {date : ℤ} {zD zC : Bool} {ty : String} {uv : Option ℚ}
    (hupd : h.updateShares diff ac date zD ty zC uv = (.ok ws, h')) :
    h'.shares = h.shares + diff ∧ h'.currency = h.currency ∧
      ((ty = "BUY" ∨ ty = "SELL") →
        ∃ u, uv = some u ∧ h'.latestUnitValueAndDate = some (u, date)) := by
  unfold StockHolding.updateShares at hupd
  by_cases h1 : zD = false ∧ diff = 0
  · rw [if_pos h1] at hupd; exact errOkElim hupd
  rw [if_neg h1] at hupd
  by_cases h2 : zD = true ∧ diff ≠ 0
  · rw [if_pos h2] at hupd; exact errOkElim hupd
  rw [if_neg h2] at hupd
  by_cases h3 : zC = false ∧ ac = 0
  · rw [if_pos h3] at hupd; exact errOkElim hupd
  rw [if_neg h3] at hupd
  by_cases h4 : zC = true ∧ ac ≠ 0
  · rw [if_pos h4] at hupd; exact errOkElim hupd
  rw [if_neg h4] at hupd
  by_cases h5 : ty = "BUY" ∨ ty = "SELL"
  · rw [if_pos h5] at hupd
    cases uv with
    | none => exact errOkElim hupd
    | some u =>
      dsimp only at hupd
      by_cases h6 : u = 0
      · rw [if_pos h6] at hupd; exact errOkElim hupd
      rw [if_neg h6] at hupd
      by_cases h7 : ty = "BUY"
      · rw [if_pos h7] at hupd
        by_cases h8 : ac = 0
        · rw [if_pos h8] at hupd; exact errOkElim hupd
        rw [if_neg h8] at hupd
        by_cases h9 : 0 < ac
        · rw [if_pos h9] at hupd; exact errOkElim hupd
        rw [if_neg h9] at hupd
        obtain ⟨hh, -⟩ := stockUpdateSharesTail_ok hupd
        subst hh
        exact ⟨rfl, rfl, fun _ => ⟨u, rfl, rfl⟩⟩
      · rw [if_neg h7] at hupd
        by_cases h8 : ac = 0
        · rw [if_pos h8] at hupd; exact errOkElim hupd
        rw [if_neg h8] at hupd
        by_cases h9 : ac < 0
        · rw [if_pos h9] at hupd; exact errOkElim hupd
        rw [if_neg h9] at hupd
        obtain ⟨hh, -⟩ := stockUpdateSharesTail_ok hupd
        subst hh
        exact ⟨rfl, rfl, fun _ => ⟨u, rfl, rfl⟩⟩
  · rw [if_neg h5] at hupd
    cases uv with
    | some u =>
      rw [if_pos (by simp : (some u : Option ℚ) ≠ none)] at hupd
      exact errOkElim hupd
    | none =>
      rw [if_neg (by simp : ¬(none : Option ℚ) ≠ none)] at hupd
      by_cases h6 : ty = "DIVIDEND" ∨ ty = "UNSPECIFIC_ACCOUNTING_INCOME"
      · rw [if_pos h6] at hupd
        by_cases h7 : ac = 0
        · rw [if_pos h7] at hupd; exact errOkElim hupd
        rw [if_neg h7] at hupd
        by_cases h8 : ac < 0
        · rw [if_pos h8] at hupd; exact errOkElim hupd
        rw [if_neg h8] at hupd
        obtain ⟨hh, -⟩ := stockUpdateSharesTail_ok hupd
        subst hh
        exact ⟨rfl, rfl, fun hbs => absurd hbs h5⟩
      · rw [if_neg h6] at hupd
        by_cases h7 : ty = "PUBLIC_TO_PRIVATE_SHARE_CONVERSION"
        · rw [if_pos h7] at hupd
          by_cases h8 : ac = 0
          · rw [if_pos h8] at hupd; exact errOkElim hupd
          rw [if_neg h8] at hupd
          by_cases h9 : 0 < ac
          · rw [if_pos h9] at hupd; exact errOkElim hupd
          rw [if_neg h9] at hupd
          obtain ⟨hh, -⟩ := stockUpdateSharesTail_ok hupd
          subst hh
          exact ⟨rfl, rfl, fun hbs => absurd hbs h5⟩
        · rw [if_neg h7] at hupd
          by_cases h8 : ty = "STOCK_SPLIT" ∧ zC = false
          · rw [if_pos h8] at hupd; exact errOkElim hupd
          rw [if_neg h8] at hupd
          obtain ⟨hh, -⟩ := stockUpdateSharesTail_ok hupd
          subst hh
          exact ⟨rfl, rfl, fun hbs => absurd hbs h5⟩

/-- A successful bond `updateShares` adds the diff to the share count, keeps
the identity fields, and for a buy records the unit value as the latest known
price. -/
theorem bondUpdateShares_ok {h h' : BondHolding} {ws : List String}
    {diff ac : ℚ} {date : ℤ} {zD : Bool} {ty : String} {uv : Option ℚ}
    (hupd : h.updateShares diff ac date zD ty uv = (.ok ws, h')) :
    h'.shares = h.shares + diff ∧ h'.currency = h.currency ∧
      (ty = "BUY" → ∃ u, uv = some u ∧ h'.latestUnitValueAndDate = some (u, date)) := by
  unfold BondHolding.updateShares at hupd
  by_cases h1 : zD = false ∧ diff = 0
  · rw [if_pos h1] at hupd; exact errOkElim hupd
  rw [if_neg h1] at hupd
  by_cases h2 : zD = true ∧ diff ≠ 0
  · rw [if_pos h2] at hupd; exact errOkElim hupd
  rw [if_neg h2] at hupd
  by_cases h3 : ac = 0
  · rw [if_pos h3] at hupd; exact errOkElim hupd
  rw [if_neg h3] at hupd
  by_cases h4 : ty = "BUY"
  · rw [if_pos h4] at hupd
    cases uv with
    | none => exact errOkElim hupd
    | some u =>
      dsimp only at hupd
      by_cases h5 : u = 0
      · rw [if_pos h5] at hupd; exact errOkElim hupd
      rw [if_neg h5] at hupd
      obtain ⟨hh, -⟩ := bondUpdateSharesTail_ok hupd
      subst hh
      exact ⟨rfl, rfl, fun _ => ⟨u, rfl, rfl⟩⟩
  · rw [if_neg h4] at hupd
    by_cases h5 : ty = "INTEREST"
    · rw [if_pos h5] at hupd
      cases uv with
      | some u =>
        rw [if_pos (by simp : (some u : Option ℚ) ≠ none)] at hupd
        exact errOkElim hupd
      | none =>
        rw [if_neg (by simp : ¬(none : Option ℚ) ≠ none)] at hupd
        obtain ⟨hh, -⟩ := bondUpdateSharesTail_ok hupd
        subst hh
        exact ⟨rfl, rfl, fun hb => absurd hb h4⟩
    · rw [if_neg h5] at hupd
      cases uv with
      | some u =>
        rw [if_pos (by simp : (some u : Option ℚ) ≠ none)] at hupd
        exact errOkElim hupd
      | none =>
        rw [if_neg (by simp : ¬(none : Option ℚ) ≠ none)] at hupd
        obtain ⟨hh, -⟩ := bondUpdateSharesTail_ok hupd
        subst hh
        exact ⟨rfl, rfl, fun hb => absurd hb h4⟩

/-- A successful index-fund `updateShares` adds the diff to the share count,
keeps the identity fields, and for a buy or sell records the unit value as
the latest known price. -/
theorem fundUpdateShares_ok {h h' : IndexFundHolding} {ws : List String}
    {diff ac : ℚ} {date : ℤ} {zD : Bool} {ty : String} {uv : Option ℚ}
    (hupd : h.updateShares diff ac date zD ty uv = (.ok ws, h')) :
    h'.shares = h.shares + diff ∧ h'.currency = h.currency ∧
      ((ty = "BUY" ∨ ty = "SELL") →
        ∃ u, uv = some u ∧ h'.latestUnitValueAndDate = some (u, date)) := by
  unfold IndexFundHolding.updateShares at hupd
  by_cases h1 : zD = false ∧ diff = 0
  · rw [if_pos h1] at hupd; exact errOkElim hupd
  rw [if_neg h1] at hupd
  by_cases h2 : zD = true ∧ diff ≠ 0
  · rw [if_pos h2] at hupd; exact errOkElim hupd
  rw [if_neg h2] at hupd
  by_cases h3 : ac = 0
  · rw [if_pos h3] at hupd; exact errOkElim hupd
  rw [if_neg h3] at hupd
  by_cases h4 : ty = "BUY" ∨ ty = "SELL"
  · rw [if_pos h4] at hupd
    cases uv with
    | none => exact errOkElim hupd
    | some u =>
      dsimp only at hupd
      by_cases h5 : u = 0
      · rw [if_pos h5] at hupd; exact errOkElim hupd
      rw [if_neg h5] at hupd
      by_cases h6 : ty = "BUY"
      · rw [if_pos h6] at hupd
        by_cases h7 : 0 < ac
        · rw [if_pos h7] at hupd; exact errOkElim hupd
        rw [if_neg h7] at hupd
        obtain ⟨hh, -⟩ := fundUpdateSharesTail_ok hupd
        subst hh
        exact ⟨rfl, rfl, fun _ => ⟨u, rfl, rfl⟩⟩
      · rw [if_neg h6] at hupd
        by_cases h7 : ac < 0
        · rw [if_pos h7] at hupd; exact errOkElim hupd
        rw [if_neg h7] at hupd
        obtain ⟨hh, -⟩ := fundUpdateSharesTail_ok hupd
        subst hh
        exact ⟨rfl, rfl, fun _ => ⟨u, rfl, rfl⟩⟩
  · rw [if_neg h4] at hupd
    cases uv with
    | some u =>
      rw [if_pos (by simp : (some u : Option ℚ) ≠ none)] at hupd
      exact errOkElim hupd
    | none =>
      rw [if_neg (by simp : ¬(none : Option ℚ) ≠ none)] at hupd
      obtain ⟨hh, -⟩ := fundUpdateSharesTail_ok hupd
      subst hh
      exact ⟨rfl, rfl, fun hb => absurd hb h4⟩

/-- Read one stock holding out of a portfolio. -/
def portfolioStockHolding (p : Portfolio) (plat code : String) : Option StockHolding :=
  match alGet p.platforms plat with
  | none => none
  | some pl => alGet pl.stockHoldings code

/-- Read one index-fund holding out of a portfolio. -/
def portfolioFundHolding (p : Portfolio) (plat code : String) : Option IndexFundHolding :=
  match alGet p.platforms plat with
  | none => none
  | some pl => alGet pl.indexFundHoldings code

/-- Read one bond holding out of a portfolio. -/
def portfolioBondHolding (p : Portfolio) (plat code : String) : Option BondHolding :=
  match alGet p.platforms plat with
  | none => none
  | some pl => alGet pl.bondHoldings code

/-- A successful cash-then-stock update pair (the shared tail of the stock
buy and sell handlers) applies both holding updates in place. -/
theorem updCashThenStock_ok {p p' : Portfolio} {plat cur code : Option String}
    {n : String} {pl : Platform} {cc : String} {ch : CashHolding}
    {sc : String} {sh : StockHolding} {W ws : List String}
    {fC : CashHolding → Except String (List String) × CashHolding}
    {fS : StockHolding → Except String (List String) × StockHolding}
    (hplat : p.getPlatformE plat = .ok (n, pl))
    (hcash : pl.getCashE cur = .ok (cc, ch))
    (hstock : pl.getStockE code = .ok (sc, sh))
    (hrun : andUpd (prependWarnings W (p.updCash plat cur fC))
        (fun q => q.updStock plat code fS) = (.ok ws, p')) :
    ∃ wsC chN wsS shN, fC ch = (.ok wsC, chN) ∧ fS sh = (.ok wsS, shN) ∧
      portfolioCashValue p' n cc = some chN.value ∧
      portfolioStockHolding p' n sc = some shN := by
  obtain ⟨hnm, hpl⟩ := getPlatformE_inv hplat
  obtain ⟨hcur, hch⟩ := getCashE_inv hcash
  obtain ⟨hcode, hsh⟩ := getStockE_inv hstock
  unfold Portfolio.updCash at hrun
  rw [hplat] at hrun
  dsimp only at hrun
  rw [hcur] at hrun
  dsimp only at hrun
  rw [hch] at hrun
  dsimp only at hrun
  cases hfc : fC ch with
  | mk rC chN =>
    rw [hfc] at hrun
    cases rC with
    | error e =>
      unfold prependWarnings andUpd at hrun
      dsimp only at hrun
      exact errOkElim hrun
    | ok wsC =>
      unfold prependWarnings andUpd at hrun
      dsimp only at hrun
      unfold Portfolio.updStock at hrun
      unfold Portfolio.getPlatformE at hrun
      rw [hnm] at hrun
      dsimp only at hrun
      rw [alGet_alSet_self] at hrun
      dsimp only at hrun
      rw [hcode] at hrun
      dsimp only at hrun
      rw [hsh] at hrun
      dsimp only at hrun
      cases hfs : fS sh with
      | mk rS shN =>
        rw [hfs] at hrun
        cases rS with
        | error e =>
          dsimp only at hrun
          exact errOkElim hrun
        | ok wsS =>
          dsimp only [prependWarnings] at hrun
          have hp' := congrArg Prod.snd hrun
          dsimp only at hp'
          refine ⟨wsC, chN, wsS, shN, rfl, rfl, ?_, ?_⟩
          · rw [← hp']
            unfold portfolioCashValue
            rw [alGet_alSet_self]
            dsimp only
            rw [alGet_alSet_self]
          · rw [← hp']
            unfold portfolioStockHolding
            rw [alGet_alSet_self]
            dsimp only
            exact alGet_alSet_self _ _ _

/-- A successful cash-then-fund update pair (the shared tail of the index-fund
buy and sell handlers) applies both holding updates in place. -/
theorem updCashThenFund_ok {p p' : Portfolio} {plat cur code : Option String}
    {n : String} {pl : Platform} {cc : String} {ch : CashHolding}
    {sc : String} {sh : IndexFundHolding} {W ws : List String}
    {fC : CashHolding → Except String (List String) × CashHolding}
    {fS : IndexFundHolding → Except String (List String) × IndexFundHolding}
    (hplat : p.getPlatformE plat = .ok (n, pl))
    (hcash : pl.getCashE cur = .ok (cc, ch))
    (hstock : pl.getFundE code = .ok (sc, sh))
    (hrun : andUpd (prependWarnings W (p.updCash plat cur fC))
        (fun q => q.updFund plat code fS) = (.ok ws, p')) :
    ∃ wsC chN wsS shN, fC ch = (.ok wsC, chN) ∧ fS sh = (.ok wsS, shN) ∧
      portfolioCashValue p' n cc = some chN.value ∧
      portfolioFundHolding p' n sc = some shN := by
  obtain ⟨hnm, hpl⟩ := getPlatformE_inv hplat
  obtain ⟨hcur, hch⟩ := getCashE_inv hcash
  obtain ⟨hcode, hsh⟩ := getFundE_inv hstock
  unfold Portfolio.updCash at hrun
  rw [hplat] at hrun
  dsimp only at hrun
  rw [hcur] at hrun
  dsimp only at hrun
  rw [hch] at hrun
  dsimp only at hrun
  cases hfc : fC ch with
  | mk rC chN =>
    rw [hfc] at hrun
    cases rC with
    | error e =>
      unfold prependWarnings andUpd at hrun
      dsimp only at hrun
      exact errOkElim hrun
    | ok wsC =>
      unfold prependWarnings andUpd at hrun
      dsimp only at hrun
      unfold Portfolio.updFund at hrun
      unfold Portfolio.getPlatformE at hrun
      rw [hnm] at hrun
      dsimp only at hrun
      rw [alGet_alSet_self] at hrun
      dsimp only at hrun
      rw [hcode] at hrun
      dsimp only at hrun
      rw [hsh] at hrun
      dsimp only at hrun
      cases hfs : fS sh with
      | mk rS shN =>
        rw [hfs] at hrun
        cases rS with
        | error e =>
          dsimp only at hrun
          exact errOkElim hrun
        | ok wsS =>
          dsimp only [prependWarnings] at hrun
          have hp' := congrArg Prod.snd hrun
          dsimp only at hp'
          refine ⟨wsC, chN, wsS, shN, rfl, rfl, ?_, ?_⟩
          · rw [← hp']
            unfold portfolioCashValue
            rw [alGet_alSet_self]
            dsimp only
            rw [alGet_alSet_self]
          · rw [← hp']
            unfold portfolioFundHolding
            rw [alGet_alSet_self]
            dsimp only
            exact alGet_alSet_self _ _ _

/-- A successful cash-then-bond update pair (the shared tail of the bond
buy handler) applies both holding updates in place. -/
theorem updCashThenBond_ok {p p' : Portfolio} {plat cur code : Option String}
    {n : String} {pl : Platform} {cc : String} {ch : CashHolding}
    {sc : String} {sh : BondHolding} {W ws : List String}
    {fC : CashHolding → Except String (List String) × CashHolding}
    {fS : BondHolding → Except String (List String) × BondHolding}
    (hplat : p.getPlatformE plat = .ok (n, pl))
    (hcash : pl.getCashE cur = .ok (cc, ch))
    (hstock : pl.getBondE code = .ok (sc, sh))
    (hrun : andUpd (prependWarnings W (p.updCash plat cur fC))
        (fun q => q.updBond plat code fS) = (.ok ws, p')) :
    ∃ wsC chN wsS shN, fC ch = (.ok wsC, chN) ∧ fS sh = (.ok wsS, shN) ∧
      portfolioCashValue p' n cc = some chN.value ∧
      portfolioBondHolding p' n sc = some shN := by
  obtain ⟨hnm, hpl⟩ := getPlatformE_inv hplat
  obtain ⟨hcur, hch⟩ := getCashE_inv hcash
  obtain ⟨hcode, hsh⟩ := getBondE_inv hstock
  unfold Portfolio.updCash at hrun
  rw [hplat] at hrun
  dsimp only at hrun
  rw [hcur] at hrun
  dsimp only at hrun
  rw [hch] at hrun
  dsimp only at hrun
  cases hfc : fC ch with
  | mk rC chN =>
    rw [hfc] at hrun
    cases rC with
    | error e =>
      unfold prependWarnings andUpd at hrun
      dsimp only at hrun
      exact errOkElim hrun
    | ok wsC =>
      unfold prependWarnings andUpd at hrun
      dsimp only at hrun
      unfold Portfolio.updBond at hrun
      unfold Portfolio.getPlatformE at hrun
      rw [hnm] at hrun
      dsimp only at hrun
      rw [alGet_alSet_self] at hrun
      dsimp only at hrun
      rw [hcode] at hrun
      dsimp only at hrun
      rw [hsh] at hrun
      dsimp only at hrun
      cases hfs : fS sh with
      | mk rS shN =>
        rw [hfs] at hrun
        cases rS with
        | error e =>
          dsimp only at hrun
          exact errOkElim hrun
        | ok wsS =>
          dsimp only [prependWarnings] at hrun
          have hp' := congrArg Prod.snd hrun
          dsimp only at hp'
          refine ⟨wsC, chN, wsS, shN, rfl, rfl, ?_, ?_⟩
          · rw [← hp']
            unfold portfolioCashValue
            rw [alGet_alSet_self]
            dsimp only
            rw [alGet_alSet_self]
          · rw [← hp']
            unfold portfolioBondHolding
            rw [alGet_alSet_self]
            dsimp only
            exact alGet_alSet_self _ _ _

/-- Effects of a successful stock buy: cash decreases by
`totalValue + feeValue`, shares increase by `totalShares`, and the unit value
becomes the latest known price. -/
theorem processActionBuyStock_effects {it : Item} {p p' : Portfolio}
    {n : String} {pl : Platform} {cc : String} {ch : CashHolding}
    {sc : String} {sh : StockHolding} {ts uv tv fee : ℚ} {ws : List String}
    (hplat : p.getPlatformE it.platform = .ok (n, pl))
    (hcash : pl.getCashE it.currency = .ok (cc, ch))
    (hstock : pl.getStockE it.assetCode = .ok (sc, sh))
    (hts : it.totalShares = some ts) (huv : it.unitValue = some uv)
    (htv : it.totalValue = some tv) (hfee : it.feeValue = some fee)
    (hupd : processActionBuyStock it p = (.ok ws, p')) :
    portfolioCashValue p' n cc = some (ch.value - (tv + fee)) ∧
    ∃ shN, portfolioStockHolding p' n sc = some shN ∧
      shN.shares = sh.shares + ts ∧
      shN.latestUnitValueAndDate = some (uv, it.date) := by
  unfold processActionBuyStock at hupd
  rw [hplat] at hupd; dsimp only at hupd
  rw [hstock] at hupd; dsimp only at hupd
  rw [hts] at hupd; simp only [getQE] at hupd
  split at hupd; · exact errOkElim hupd
  split at hupd; · exact errOkElim hupd
  rw [huv] at hupd; dsimp only at hupd
  rw [htv] at hupd; dsimp only at hupd
  rw [hfee] at hupd; dsimp only at hupd
  obtain ⟨wsC, chN, wsS, shN, hfc, hfs, hcval, hsval⟩ :=
    updCashThenStock_ok hplat hcash hstock hupd
  obtain ⟨hchval, -⟩ := CashHolding.updateValue_ok hfc
  obtain ⟨hshares, -, hlatest⟩ := stockUpdateShares_ok hfs
  obtain ⟨u, hu, hlat⟩ := hlatest (Or.inl rfl)
  refine ⟨?_, shN, hsval, hshares, ?_⟩
  · rw [hcval, hchval]
    ring_nf
  · obtain rfl : uv = u := by injection hu
    exact hlat

/-- Effects of a successful stock sell: cash increases by
`totalValue - feeValue`, shares decrease by `totalShares`, and the unit value
becomes the latest known price. -/
theorem processActionSellStock_effects {it : Item} {p p' : Portfolio}
    {n : String} {pl : Platform} {cc : String} {ch : CashHolding}
    {sc : String} {sh : StockHolding} {ts uv tv fee : ℚ} {ws : List String}
    (hplat : p.getPlatformE it.platform = .ok (n, pl))
    (hcash : pl.getCashE it.currency = .ok (cc, ch))
    (hstock : pl.getStockE it.assetCode = .ok (sc, sh))
    (hts : it.totalShares = some ts) (huv : it.unitValue = some uv)
    (htv : it.totalValue = some tv) (hfee : it.feeValue = some fee)
    (hupd : processActionSellStock it p = (.ok ws, p')) :
    portfolioCashValue p' n cc = some (ch.value + (tv - fee)) ∧
    ∃ shN, portfolioStockHolding p' n sc = some shN ∧
      shN.shares = sh.shares - ts ∧
      shN.latestUnitValueAndDate = some (uv, it.date) := by
  unfold processActionSellStock at hupd
  rw [hplat] at hupd; dsimp only at hupd
  rw [hstock] at hupd; dsimp only at hupd
  rw [hts] at hupd; simp only [getQE] at hupd
  split at hupd; · exact errOkElim hupd
  split at hupd; · exact errOkElim hupd
  rw [huv] at hupd; dsimp only at hupd
  rw [htv] at hupd; dsimp only at hupd
  rw [hfee] at hupd; dsimp only at hupd
  split at hupd; · exact errOkElim hupd
  split at hupd; · exact errOkElim hupd
  obtain ⟨wsC, chN, wsS, shN, hfc, hfs, hcval, hsval⟩ :=
    updCashThenStock_ok hplat hcash hstock hupd
  obtain ⟨hchval, -⟩ := CashHolding.updateValue_ok hfc
  obtain ⟨hshares, -, hlatest⟩ := stockUpdateShares_ok hfs
  obtain ⟨u, hu, hlat⟩ := hlatest (Or.inr rfl)
  refine ⟨?_, shN, hsval, ?_, ?_⟩
  · rw [hcval, hchval]
  · rw [hshares]
    ring
  · obtain rfl : uv = u := by injection hu
    exact hlat

/-- Effects of a successful bond buy: cash decreases by
`totalValue + feeValue`, shares increase by `totalShares`, and the unit value
becomes the latest known price. -/
theorem processActionBuyBond_effects {it : Item} {p p' : Portfolio}
    {n : String} {pl : Platform} {cc : String} {ch : CashHolding}
    {sc : String} {sh : BondHolding} {ts uv tv fee : ℚ} {ws : List String}
    (hplat : p.getPlatformE it.platform = .ok (n, pl))
    (hcash : pl.getCashE it.currency = .ok (cc, ch))
    (hbond : pl.getBondE it.assetCode = .ok (sc, sh))
    (hts : it.totalShares = some ts) (huv : it.unitValue = some uv)
    (htv : it.totalValue = some tv) (hfee : it.feeValue = some fee)
    (hupd : processActionBuyBond it p = (.ok ws, p')) :
    portfolioCashValue p' n cc = some (ch.value - (tv + fee)) ∧
    ∃ shN, portfolioBondHolding p' n sc = some shN ∧
      shN.shares = sh.shares + ts ∧
      shN.latestUnitValueAndDate = some (uv, it.date) := by
  unfold processActionBuyBond at hupd
  rw [hplat] at hupd; dsimp only at hupd
  rw [hbond] at hupd; dsimp only at hupd
  rw [hts] at hupd; simp only [getQE] at hupd
  split at hupd; · exact errOkElim hupd
  split at hupd; · exact errOkElim hupd
  rw [huv] at hupd; dsimp only at hupd
  rw [htv] at hupd; dsimp only at hupd
  rw [hfee] at hupd; dsimp only at hupd
  split at hupd; · exact errOkElim hupd
  obtain ⟨wsC, chN, wsS, shN, hfc, hfs, hcval, hsval⟩ :=
    updCashThenBond_ok hplat hcash hbond hupd
  obtain ⟨hchval, -⟩ := CashHolding.updateValue_ok hfc
  obtain ⟨hshares, -, hlatest⟩ := bondUpdateShares_ok hfs
  obtain ⟨u, hu, hlat⟩ := hlatest rfl
  refine ⟨?_, shN, hsval, hshares, ?_⟩
  · rw [hcval, hchval]
    ring_nf
  · obtain rfl : uv = u := by injection hu
    exact hlat

/-- Effects of a successful index-fund buy: cash decreases by the total value
alone (there is no fee field), shares increase by `totalShares`, and the unit
value becomes the latest known price. -/
theorem processActionBuyIndexFund_effects {it : Item} {p p' : Portfolio}
    {n : String} {pl : Platform} {cc : String} {ch : CashHolding}
    {sc : String} {sh : IndexFundHolding} {ts uv tv : ℚ} {ws : List String}
    (hplat : p.getPlatformE it.platform = .ok (n, pl))
    (hcash : pl.getCashE it.currency = .ok (cc, ch))
    (hfund : pl.getFundE it.assetCode = .ok (sc, sh))
    (hts : it.totalShares = some ts) (huv : it.unitValue = some uv)
    (htv : it.totalValue = some tv)
    (hupd : processActionBuyIndexFund it p = (.ok ws, p')) :
    portfolioCashValue p' n cc = some (ch.value - tv) ∧
    ∃ shN, portfolioFundHolding p' n sc = some shN ∧
      shN.shares = sh.shares + ts ∧
      shN.latestUnitValueAndDate = some (uv, it.date) := by
  unfold processActionBuyIndexFund at hupd
  rw [hplat] at hupd; dsimp only at hupd
  rw [hfund] at hupd; dsimp only at hupd
  split at hupd; · exact errOkElim hupd
  rw [htv] at hupd
  rw [hts] at hupd; simp only [getQE] at hupd
  split at hupd; · exact errOkElim hupd
  rw [huv] at hupd; dsimp only at hupd
  split at hupd; · exact errOkElim hupd
  obtain ⟨wsC, chN, wsS, shN, hfc, hfs, hcval, hsval⟩ :=
    updCashThenFund_ok hplat hcash hfund hupd
  obtain ⟨hchval, -⟩ := CashHolding.updateValue_ok hfc
  obtain ⟨hshares, -, hlatest⟩ := fundUpdateShares_ok hfs
  obtain ⟨u, hu, hlat⟩ := hlatest (Or.inl rfl)
  refine ⟨?_, shN, hsval, hshares, ?_⟩
  · rw [hcval, hchval]
    ring_nf
  · obtain rfl : uv = u := by injection hu
    exact hlat

/-- Effects of a successful index-fund sell: cash increases by the total
value alone, shares decrease by `totalShares`, and the unit value becomes the
latest known price. -/
theorem processActionSellIndexFund_effects {it : Item} {p p' : Portfolio}
    {n : String} {pl : Platform} {cc : String} {ch : CashHolding}
    {sc : String} {sh : IndexFundHolding} {ts uv tv : ℚ} {ws : List String}
    (hplat : p.getPlatformE it.platform = .ok (n, pl))
    (hcash : pl.getCashE it.currency = .ok (cc, ch))
    (hfund : pl.getFundE it.assetCode = .ok (sc, sh))
    (hts : it.totalShares = some ts) (huv : it.unitValue = some uv)
    (htv : it.totalValue = some tv)
    (hupd : processActionSellIndexFund it p = (.ok ws, p')) :
    portfolioCashValue p' n cc = some (ch.value + tv) ∧
    ∃ shN, portfolioFundHolding p' n sc = some shN ∧
      shN.shares = sh.shares - ts ∧
      shN.latestUnitValueAndDate = some (uv, it.date) := by
  unfold processActionSellIndexFund at hupd
  rw [hplat] at hupd; dsimp only at hupd
  rw [hfund] at hupd; dsimp only at hupd
  split at hupd; · exact errOkElim hupd
  rw [htv] at hupd
  rw [hts] at hupd; simp only [getQE] at hupd
  split at hupd; · exact errOkElim hupd
  rw [huv] at hupd; dsimp only at hupd
  split at hupd; · exact errOkElim hupd
  obtain ⟨wsC, chN, wsS, shN, hfc, hfs, hcval, hsval⟩ :=
    updCashThenFund_ok hplat hcash hfund hupd
  obtain ⟨hchval, -⟩ := CashHolding.updateValue_ok hfc
  obtain ⟨hshares, -, hlatest⟩ := fundUpdateShares_ok hfs
  obtain ⟨u, hu, hlat⟩ := hlatest (Or.inr rfl)
  refine ⟨?_, shN, hsval, ?_, ?_⟩
  · rw [hcval, hchval]
  · rw [hshares]
    ring
  · obtain rfl : uv = u := by injection hu
    exact hlat

/-- The demo sell entry: one share at unit value 10, total value 10, fee 1. -/
def c4SellItem : Item :=
  { date := 1, action := "Sell", platform := some "P", assetType := some "Stock",
    assetCode := some "S", currency := some "EUR", totalShares := some 1,
    unitValue := some 10, totalValue := some 10, feeValue := some 1 }

/-- Demo cash holding with balance 100. -/
def c4Cash : CashHolding :=
  { currency := "EUR", value := 100, cashInterestSum := 0, history := [] }

/-- Demo stock holding with 5 shares. -/
def c4Stock : StockHolding :=
  { code := "S", friendlyName := "SN", currency := "EUR", shares := 5,
    buyCash := 0, sellCash := 0, incomeCash := 0, otherCash := 0, totalCash := 0,
    latestUnitValueAndDate := none, history := [] }

/-- Demo platform holding `c4Cash` and `c4Stock`. -/
def c4Plat : Platform :=
  { name := "P", cashHoldings := [("EUR", c4Cash)],
    stockHoldings := [("S", c4Stock)], indexFundHoldings := [], bondHoldings := [] }

/-- Demo portfolio for the sell. -/
def c4P : Portfolio := { platforms := [("P", c4Plat)], latestDate := some 1 }

/-- Demo cash holding after the sell: 100 + (10 - 1). -/
def c4CashAfter : CashHolding :=
  { currency := "EUR", value := 109, cashInterestSum := 0,
    history := [⟨1, 9, "STOCK_SELL"⟩] }

/-- Demo stock holding after the sell. -/
def c4StockAfter : StockHolding :=
  { code := "S", friendlyName := "SN", currency := "EUR", shares := 4,
    buyCash := 0, sellCash := 9, incomeCash := 0, otherCash := 0, totalCash := 9,
    latestUnitValueAndDate := some (10, 1), history := [⟨1, -1, 9, "SELL"⟩] }

/-- Demo platform after the sell. -/
def c4PlatAfter : Platform :=
  { name := "P", cashHoldings := [("EUR", c4CashAfter)],
    stockHoldings := [("S", c4StockAfter)], indexFundHoldings := [], bondHoldings := [] }

/-- Demo portfolio after the sell. -/
def c4PAfter : Portfolio := { platforms := [("P", c4PlatAfter)], latestDate := some 1 }

/-- Concrete evaluation of the demo stock sell: it succeeds with no warnings
and credits `totalValue - feeValue = 9`. -/
theorem c4SellEval : processActionSellStock c4SellItem c4P = (.ok [], c4PAfter) := by
  simp [processActionSellStock, Portfolio.getPlatformE, Platform.getStockE, getQE,
    Portfolio.updCash, Portfolio.updStock, CashHolding.updateValue,
    StockHolding.updateShares, StockHolding.updateSharesTail, mkCashChangeRecord,
    mkStockChangeRecord, cashChangeTypeNames, stockChangeTypeNames, andUpd,
    prependWarnings, validateNonBlankStringE, validateTotalSharesTransactionValue,
    decimalPlaces, pMult, alGet, alSet, c4SellItem, c4P, c4Plat, c4Cash, c4Stock,
    c4PAfter, c4PlatAfter, c4CashAfter, c4StockAfter]
  norm_num
  simp [alGet, alSet, c4StockAfter]
  try norm_num

/-- Counterexample for C4 as stated: the demo sell (total value 10, fee 1)
processes successfully and credits the cash holding with
`totalValue - feeValue = 9`, not `totalValue + feeValue = 11`. -/
theorem claim_C4_counterexample :
    processActionSellStock c4SellItem c4P = (.ok [], c4PAfter) ∧
    portfolioCashValue c4P "P" "EUR" = some 100 ∧
    portfolioCashValue c4PAfter "P" "EUR" = some 109 ∧
    (109 : ℚ) = 100 + (10 - 1) ∧
    ¬(109 : ℚ) = 100 + (10 + 1) := by
  refine ⟨c4SellEval, ?_, ?_, by norm_num, by norm_num⟩
  · simp [portfolioCashValue, c4P, c4Plat, c4Cash, alGet]
  · simp [portfolioCashValue, c4PAfter, c4PlatAfter, c4CashAfter, alGet]

/-- C4 (amended): for every successfully processed Buy entry the platform
cash holding changes by `-(totalValue + feeValue)` for stocks and bonds, and
by `-totalValue` for index funds (which have no fee field); for every
successfully processed Sell entry the cash changes by `+(totalValue -
feeValue)` for stocks and by `+totalValue` for index funds; the share count
changes by `+totalShares` on buys and `-totalShares` on sells; the
per-transaction unit value is recorded as the holding's latest known price;
and a mismatch between `totalValue` and `unitValue * totalShares` (the
product rounded to 2 decimal places when it has more) produces a warning,
never a fatal error. -/
theorem claim_C4_buy_sell_cash_and_shares :
    (∀ (it : Item) (p p' : Portfolio) (n : String) (pl : Platform)
        (cc : String) (ch : CashHolding) (sc : String) (sh : StockHolding)
        (ts uv tv fee : ℚ) (ws : List String),
      p.getPlatformE it.platform = .ok (n, pl) →
      pl.getCashE it.currency = .ok (cc, ch) →
      pl.getStockE it.assetCode = .ok (sc, sh) →
      it.totalShares = some ts → it.unitValue = some uv →
      it.totalValue = some tv → it.feeValue = some fee →
      processActionBuyStock it p = (.ok ws, p') →
      portfolioCashValue p' n cc = some (ch.value - (tv + fee)) ∧
      ∃ shN, portfolioStockHolding p' n sc = some shN ∧
        shN.shares = sh.shares + ts ∧
        shN.latestUnitValueAndDate = some (uv, it.date)) ∧
    (∀ (it : Item) (p p' : Portfolio) (n : String) (pl : Platform)
        (cc : String) (ch : CashHolding) (sc : String) (sh : BondHolding)
        (ts uv tv fee : ℚ) (ws : List String),
      p.getPlatformE it.platform = .ok (n, pl) →
      pl.getCashE it.currency = .ok (cc, ch) →
      pl.getBondE it.assetCode = .ok (sc, sh) →
      it.totalShares = some ts → it.unitValue = some uv →
      it.totalValue = some tv → it.feeValue = some fee →
      processActionBuyBond it p = (.ok ws, p') →
      portfolioCashValue p' n cc = some (ch.value - (tv + fee)) ∧
      ∃ shN, portfolioBondHolding p' n sc = some shN ∧
        shN.shares = sh.shares + ts ∧
        shN.latestUnitValueAndDate = some (uv, it.date)) ∧
    (∀ (it : Item) (p p' : Portfolio) (n : String) (pl : Platform)
        (cc : String) (ch : CashHolding) (sc : String) (sh : IndexFundHolding)
        (ts uv tv : ℚ) (ws : List String),
      p.getPlatformE it.platform = .ok (n, pl) →
      pl.getCashE it.currency = .ok (cc, ch) →
      pl.getFundE it.assetCode = .ok (sc, sh) →
      it.totalShares = some ts → it.unitValue = some uv →
      it.totalValue = some tv →
      processActionBuyIndexFund it p = (.ok ws, p') →
      portfolioCashValue p' n cc = some (ch.value - tv) ∧
      ∃ shN, portfolioFundHolding p' n sc = some shN ∧
        shN.shares = sh.shares + ts ∧
        shN.latestUnitValueAndDate = some (uv, it.date)) ∧
    (∀ (it : Item) (p p' : Portfolio) (n : String) (pl : Platform)
        (cc : String) (ch : CashHolding) (sc : String) (sh : StockHolding)
        (ts uv tv fee : ℚ) (ws : List String),
      p.getPlatformE it.platform = .ok (n, pl) →
      pl.getCashE it.currency = .ok (cc, ch) →
      pl.getStockE it.assetCode = .ok (sc, sh) →
      it.totalShares = some ts → it.unitValue = some uv →
      it.totalValue = some tv → it.feeValue = some fee →
      processActionSellStock it p = (.ok ws, p') →
      portfolioCashValue p' n cc = some (ch.value + (tv - fee)) ∧
      ∃ shN, portfolioStockHolding p' n sc = some shN ∧
        shN.shares = sh.shares - ts ∧
        shN.latestUnitValueAndDate = some (uv, it.date)) ∧
    (∀ (it : Item) (p p' : Portfolio) (n : String) (pl : Platform)
        (cc : String) (ch : CashHolding) (sc : String) (sh : IndexFundHolding)
        (ts uv tv : ℚ) (ws : List String),
      p.getPlatformE it.platform = .ok (n, pl) →
      pl.getCashE it.currency = .ok (cc, ch) →
      pl.getFundE it.assetCode = .ok (sc, sh) →
      it.totalShares = some ts → it.unitValue = some uv →
      it.totalValue = some tv →
      processActionSellIndexFund it p = (.ok ws, p') →
      portfolioCashValue p' n cc = some (ch.value + tv) ∧
      ∃ shN, portfolioFundHolding p' n sc = some shN ∧
        shN.shares = sh.shares - ts ∧
        shN.latestUnitValueAndDate = some (uv, it.date)) ∧
    (∀ u s t : ℚ,
      validateTotalSharesTransactionValue u s t = [] ↔
        t = (if 2 < decimalPlaces (u * s) then toDecimalPlaces2 (u * s) else u * s)) := by
  refine ⟨?_, ?_, ?_, ?_, ?_, ?_⟩
  · intro it p p' n pl cc ch sc sh ts uv tv fee ws h1 h2 h3 h4 h5 h6 h7 h8
    exact processActionBuyStock_effects h1 h2 h3 h4 h5 h6 h7 h8
  · intro it p p' n pl cc ch sc sh ts uv tv fee ws h1 h2 h3 h4 h5 h6 h7 h8
    exact processActionBuyBond_effects h1 h2 h3 h4 h5 h6 h7 h8
  · intro it p p' n pl cc ch sc sh ts uv tv ws h1 h2 h3 h4 h5 h6 h7
    exact processActionBuyIndexFund_effects h1 h2 h3 h4 h5 h6 h7
  · intro it p p' n pl cc ch sc sh ts uv tv fee ws h1 h2 h3 h4 h5 h6 h7 h8
    exact processActionSellStock_effects h1 h2 h3 h4 h5 h6 h7 h8
  · intro it p p' n pl cc ch sc sh ts uv tv ws h1 h2 h3 h4 h5 h6 h7
    exact processActionSellIndexFund_effects h1 h2 h3 h4 h5 h6 h7
  · intro u s t
    by_cases hv : t = (if 2 < decimalPlaces (u * s) then toDecimalPlaces2 (u * s) else u * s)
    · simp [validateTotalSharesTransactionValue, hv]
    · simp [validateTotalSharesTransactionValue, hv]

/-- Witness for C4 (amended) at the demo sell: the hypotheses hold
concretely, and the conclusions evaluate on the demo portfolio. -/
theorem claim_C4_buy_sell_cash_and_shares_witness :
    portfolioCashValue c4PAfter "P" "EUR" = some (c4Cash.value + (10 - 1)) ∧
    (∃ shN, portfolioStockHolding c4PAfter "P" "S" = some shN ∧
      shN.shares = c4Stock.shares - 1 ∧
      shN.latestUnitValueAndDate = some (10, 1)) := by
  have hplat : c4P.getPlatformE (some "P") = .ok ("P", c4Plat) := by
    simp [Portfolio.getPlatformE, validateNonBlankStringE, alGet, c4P]
  have hcash : c4Plat.getCashE (some "EUR") = .ok ("EUR", c4Cash) := by
    simp [Platform.getCashE, validateNonBlankStringE, alGet, c4Plat]
  have hstock : c4Plat.getStockE (some "S") = .ok ("S", c4Stock) := by
    simp [Platform.getStockE, validateNonBlankStringE, alGet, c4Plat]
  exact claim_C4_buy_sell_cash_and_shares.2.2.2.1 c4SellItem c4P c4PAfter "P" c4Plat
    "EUR" c4Cash "S" c4Stock 1 10 10 1 [] hplat hcash hstock rfl rfl rfl rfl c4SellEval

/-! ## Root finding (utils file: BinarySearch, findZeroCrossing, findAnyRoot) -/

/-- The `BinarySearch` class: a mutable pair of bounds (utils file). -/
structure BinarySearch where
  lowerBound : ℚ
  upperBound : ℚ
deriving DecidableEq, Repr

/-- `BinarySearch.length()`. -/
def BinarySearch.length (b : BinarySearch) : ℚ := b.upperBound - b.lowerBound

/-- `BinarySearch.getMid()`. -/
def BinarySearch.getMid (b : BinarySearch) : ℚ := b.lowerBound + b.length / 2

/-- `BinarySearch.shrink(up)`: `up` moves the lower bound to the midpoint,
otherwise the upper bound moves there. -/
def BinarySearch.shrink (b : BinarySearch) (up : Bool) : BinarySearch :=
  if up then { b with lowerBound := b.getMid } else { b with upperBound := b.getMid }

/-- The scan loop of `findZeroCrossing`: walk `n` segments of width
`segmentLength` starting at `x` with `y = fn x` already evaluated, and
return the first adjacent pair whose values have opposite sign
(`y * y2 < 0`). -/
def findZeroCrossingAux (fn : ℚ → ℚ) (segmentLength : ℚ) :
    ℕ → ℚ → ℚ → Option (ℚ × ℚ)
  | 0, _, _ => none
  | n + 1, x, y =>
    let x2 := x + segmentLength
    let y2 := fn x2
    if y * y2 < 0 then some (x, x2)
    else findZeroCrossingAux fn segmentLength n x2 y2

/-- `findZeroCrossing(lowerBound, upperBound, nSegments, fn)`. -/
def findZeroCrossing (lowerBound upperBound : ℚ) (nSegments : ℕ) (fn : ℚ → ℚ) :
    Option (ℚ × ℚ) :=
  findZeroCrossingAux fn ((upperBound - lowerBound) / (nSegments : ℚ))
    nSegments lowerBound (fn lowerBound)

/-- The inner `for (j = 0; j < 1000; ...)` loop of `findAnyRoot`, with the
remaining iteration count as fuel.  Exhausting the fuel is the
`throw new Error(...)` after the loop. -/
def binSearchLoop (fn : ℚ → ℚ) (delta : ℚ) : ℕ → BinarySearch → Except String ℚ
  | 0, _ => .error "Binary search did not complete in 1000 iterations"
  | j + 1, bs =>
    let m := bs.getMid
    let ya := fn bs.lowerBound
    let ym := fn m
    let yb := fn bs.upperBound
    if |ya| ≤ delta then .ok bs.lowerBound
    else if |ym| ≤ delta then .ok m
    else if |yb| ≤ delta then .ok bs.upperBound
    else if ya * ym < 0 then binSearchLoop fn delta j (bs.shrink false)
    else if ym * yb < 0 then binSearchLoop fn delta j (bs.shrink true)
    else binSearchLoop fn delta j bs

/-- The outer `for (i = 0; i < 100; ...)` loop of `findAnyRoot`, with the
remaining iteration count as fuel.  `NaN` returns are `.ok none`; the
binary-search throw is `.error`.  The budget is an integer because the JS
code keeps subtracting `segments` from it. -/
def findAnyRootLoop (lowerBound upperBound delta : ℚ) (fn : ℚ → ℚ) :
    ℕ → ℤ → ℕ → Except String (Option ℚ)
  | 0, _, _ => .ok none
  | fuel + 1, budget, segments =>
    if budget < (segments : ℤ) then .ok none
    else
      match findZeroCrossing lowerBound upperBound segments fn with
      | none =>
        findAnyRootLoop lowerBound upperBound delta fn fuel
          (budget - (segments : ℤ)) (segments * 2)
      | some (a, b) =>
        match binSearchLoop fn delta 1000 ⟨a, b⟩ with
        | .ok x => .ok (some x)
        | .error e => .error e

/-- `findAnyRoot(lowerBound, upperBound, budget, delta, fn)`: starts the
segment scan at 2 segments. -/
def findAnyRoot (lowerBound upperBound : ℚ) (budget : ℤ) (delta : ℚ)
    (fn : ℚ → ℚ) : Except String (Option ℚ) :=
  findAnyRootLoop lowerBound upperBound delta fn 100 budget 2

/-! ## XIRR via net-future-value simulation (simulation.js) -/

/-- A transaction after date conversion: `{amount, days}`. -/
structure Txn where
  amount : ℚ
  days : ℤ
deriving DecidableEq, Repr

/-- A transaction as passed to `xirr`: `{cashFlow, time}` with the `Date`
modelled as an integer day index (`countDays` of the JS code compares the
local date parts, so a day index captures exactly the information used). -/
structure XirrTxn where
  cashFlow : ℚ
  time : ℤ
deriving DecidableEq, Repr

/-- `countDays(a, b)` on day indices: errors when `b < a`, otherwise the
day difference. -/
def countDays (a b : ℤ) : Except String ℤ :=
  if b < a then .error "b must be greater than a" else .ok (b - a)

/-- `simulateFutureValue(currentValue, growthRate, days)`:
`currentValue * (1 + growthRate) ^ days`.  Its guard throws (non-finite
inputs, `growthRate <= -1`, `days <= 0`) are unreachable for the arguments
`simulateNetFutureValue` passes (it only calls with `daysPassed > 0` and a
rate from the search interval), so the embedding is the pure formula. -/
def simulateFutureValue (currentValue growthRate : ℚ) (days : ℕ) : ℚ :=
  currentValue * (1 + growthRate) ^ days

/-- The `transactions.forEach` fold of `simulateNetFutureValue`: carry the
balance and the day of the previous transaction. -/
def snfvFold (growthRate : ℚ) : List Txn → ℚ → ℤ → ℚ
  | [], balance, _ => balance
  | t :: ts, balance, day =>
    let daysPassed := t.days - day
    let balance2 :=
      if 0 < daysPassed then simulateFutureValue balance growthRate daysPassed.toNat
      else balance
    snfvFold growthRate ts (balance2 + t.amount) t.days

/-- `simulateNetFutureValue(transactions, growthRate)`: sort the
transactions chronologically (JS `Array.sort` is stable, hence
`mergeSort`) and simulate from balance 0 at day 0.  The `daysPassed`
negative throw is unreachable after the sort. -/
def simulateNetFutureValue (transactions : List Txn) (growthRate : ℚ) : ℚ :=
  snfvFold growthRate
    (transactions.mergeSort (fun a b => decide (a.days ≤ b.days))) 0 0

/-- The `transactions.map` of `xirr` converting timestamps to day
differences, with the first `countDays` throw propagating. -/
def mapCountDays (firstDate : ℤ) : List XirrTxn → Except String (List Txn)
  | [] => .ok []
  | t :: ts =>
    match countDays firstDate t.time with
    | .error e => .error e
    | .ok d =>
      match mapCountDays firstDate ts with
      | .error e => .error e
      | .ok ds => .ok (⟨t.cashFlow, d⟩ :: ds)

/-- `xirr(transactions)` of simulation.js: validate that a positive and a
negative cash flow exist, convert the dates to day differences relative to
the first transaction, and root-find the net future value over
`[-0.02, +0.02]` with budget 10000 and tolerance 1e-7.  An empty list would
hit the `countDays` type throw in JS (it is unreachable: the sign check
fails first). -/
def xirr (transactions : List XirrTxn) : Except String (Option ℚ) :=
  let hasPositiveCashFlow := transactions.any (fun t => decide (0 < t.cashFlow))
  let hasNegativeCashFlow := transactions.any (fun t => decide (t.cashFlow < 0))
  if !hasPositiveCashFlow || !hasNegativeCashFlow then
    .error "Invalid transactions: must contain at least one positive and one negative cash flow"
  else
    match transactions with
    | [] => .error "Not a Date"
    | t0 :: _ =>
      match mapCountDays t0.time transactions with
      | .error e => .error e
      | .ok txns =>
        findAnyRoot (-(2/100)) (2/100) 10000 (1/10000000)
          (fun r => simulateNetFutureValue txns r)

/-! ## calculateXirr (utils file), with formulajs.XIRR as an oracle -/

/-- What the external `formulajs.XIRR` call can come back with, as far as
`calculateXirr` distinguishes outcomes: `null`, a non-number, `NaN`, an
infinite number, or a finite number. -/
inductive XirrOut where
  | nullRes
  | nonNumber
  | nan
  | notFinite
  | num (value : ℚ)
deriving DecidableEq, Repr

/-- The comparator `(pair1, pair2) => pair1[0] - pair2[0]` of
`calculateXirr`: sort by date, dates modelled as day indices. -/
def xirrPairLe (p q : ℤ × ℚ) : Bool := decide (p.1 ≤ q.1)

/-- The tail of `calculateXirr` after sorting and the zero-pop: build the
`cashFlows` and `dates` arrays, call `formulajs.XIRR` (the oracle) and
translate its outcome into a `VRes`. -/
def xirrOracleStep (oracle : List ℚ → List ℤ → Except String XirrOut)
    (pairs : List (ℤ × ℚ)) : VRes ℚ :=
  match oracle (pairs.map fun p => p.2) (pairs.map fun p => p.1) with
  | .error e => ⟨.fail ("XIRR calculation failed: " ++ e), []⟩
  | .ok .nullRes => ⟨.fail "XIRR result null", []⟩
  | .ok .nonNumber => ⟨.fail "XIRR result not a number", []⟩
  | .ok .nan => ⟨.fail "XIRR result NaN", []⟩
  | .ok .notFinite => ⟨.fail "XIRR result not finite", []⟩
  | .ok (.num v) => ⟨.ok v, []⟩

/-- `calculateXirr(dateAndCashFlowPairs)` (utils file), parameterised by
the external `formulajs.XIRR` implementation: stable-sort the pairs by
date, fail when fewer than two remain, pop a final zero cash flow, then
run the oracle.  With at least two pairs `getLast?` is always `some`; the
`none` branch is unreachable. -/
def calculateXirr (oracle : List ℚ → List ℤ → Except String XirrOut)
    (dateAndCashFlowPairs : List (ℤ × ℚ)) : VRes ℚ :=
  let sorted := dateAndCashFlowPairs.mergeSort xirrPairLe
  if sorted.length < 2 then
    ⟨.fail "At least two values are required for XIRR calculation", []⟩
  else
    match sorted.getLast? with
    | some p =>
      if p.2 = 0 then xirrOracleStep oracle sorted.dropLast
      else xirrOracleStep oracle sorted
    | none => xirrOracleStep oracle sorted

/-- Scan characterisation: when the segment walk returns a pair, the pair
is an adjacent pair of scan points with opposite-sign values, and it is the
leftmost such pair. -/
theorem findZeroCrossingAux_some (fn : ℚ → ℚ) (len : ℚ) :
    ∀ (n : ℕ) (x a b : ℚ),
      findZeroCrossingAux fn len n x (fn x) = some (a, b) →
      fn a * fn b < 0 ∧ b = a + len ∧
      ∃ i : ℕ, i < n ∧ a = x + (i : ℚ) * len ∧
        ∀ j : ℕ, j < i →
          ¬(fn (x + (j : ℚ) * len) * fn (x + ((j : ℚ) + 1) * len) < 0) := by
  intro n
  induction n with
  | zero => intro x a b h; simp [findZeroCrossingAux] at h
  | succ n ih =>
    intro x a b h
    rw [findZeroCrossingAux] at h
    by_cases hc : fn x * fn (x + len) < 0
    · rw [if_pos hc] at h
      obtain ⟨rfl, rfl⟩ : x = a ∧ x + len = b := by
        have := Option.some.inj h
        exact ⟨(congrArg Prod.fst this), (congrArg Prod.snd this)⟩
      refine ⟨hc, rfl, 0, Nat.succ_pos n, by push_cast; ring, ?_⟩
      intro j hj; omega
    · rw [if_neg hc] at h
      obtain ⟨hab, hba, i, hi, ha, hmin⟩ := ih (x + len) a b h
      refine ⟨hab, hba, i + 1, by omega, by rw [ha]; push_cast; ring, ?_⟩
      intro j hj
      match j with
      | 0 =>
        intro hlt
        apply hc
        push_cast at hlt
        have h0 : x + (0 : ℚ) * len = x := by ring
        have h1 : x + ((0 : ℚ) + 1) * len = x + len := by ring
        rw [h0, h1] at hlt
        exact hlt
      | k + 1 =>
        have hk : k < i := by omega
        have := hmin k hk
        intro hlt
        apply this
        have e1 : x + len + (k : ℚ) * len = x + ((k : ℚ) + 1) * len := by ring
        have e2 : x + len + ((k : ℚ) + 1) * len = x + (((k : ℚ) + 1) + 1) * len := by
          ring
        rw [e1, e2]
        push_cast at hlt
        exact hlt

/-- When the binary-search loop returns a value, that value meets the
tolerance. -/
theorem binSearchLoop_ok (fn : ℚ → ℚ) (delta : ℚ) :
    ∀ (fuel : ℕ) (bs : BinarySearch) (x : ℚ),
      binSearchLoop fn delta fuel bs = .ok x → |fn x| ≤ delta := by
  intro fuel
  induction fuel with
  | zero => intro bs x h; simp [binSearchLoop] at h
  | succ n ih =>
    intro bs x h
    rw [binSearchLoop] at h
    by_cases h1 : |fn bs.lowerBound| ≤ delta
    · rw [if_pos h1] at h
      cases h
      exact h1
    · rw [if_neg h1] at h
      by_cases h2 : |fn bs.getMid| ≤ delta
      · rw [if_pos h2] at h
        cases h
        exact h2
      · rw [if_neg h2] at h
        by_cases h3 : |fn bs.upperBound| ≤ delta
        · rw [if_pos h3] at h
          cases h
          exact h3
        · rw [if_neg h3] at h
          by_cases h4 : fn bs.lowerBound * fn bs.getMid < 0
          · rw [if_pos h4] at h
            exact ih _ x h
          · rw [if_neg h4] at h
            by_cases h5 : fn bs.getMid * fn bs.upperBound < 0
            · rw [if_pos h5] at h
              exact ih _ x h
            · rw [if_neg h5] at h
              exact ih _ x h

/-- C7: the XIRR root-finder structure.  `findAnyRoot` starts the scan at 2
segments (1); a step whose segment count exceeds the remaining budget, or
exhausting the 100 outer iterations, yields the out-of-budget result rather
than a crash (2, 3); a step that finds no sign-crossing doubles the segment
count and deducts the evaluations from the budget (4); a step that finds a
crossing resolves to the 1000-fuel binary search inside that segment (5);
the exhausted binary search is the error message of the JS throw (6); a
binary-search success meets the `|f(x)| <= delta` tolerance (7); a
sign-crossing returned by the scan is the leftmost adjacent pair of scan
points with opposite-sign values (8); and `xirr` on validated input is
exactly `findAnyRoot` on `[-0.02, +0.02]` with budget 10000 and tolerance
1e-7 over the net-future-value function (9). -/
theorem claim_C7_root_finder_structure :
    (∀ (lb ub : ℚ) (budget : ℤ) (delta : ℚ) (fn : ℚ → ℚ),
      findAnyRoot lb ub budget delta fn = findAnyRootLoop lb ub delta fn 100 budget 2) ∧
    (∀ (lb ub delta : ℚ) (fn : ℚ → ℚ) (fuel : ℕ) (budget : ℤ) (segments : ℕ),
      budget < (segments : ℤ) →
      findAnyRootLoop lb ub delta fn (fuel + 1) budget segments = .ok none) ∧
    (∀ (lb ub delta : ℚ) (fn : ℚ → ℚ) (budget : ℤ) (segments : ℕ),
      findAnyRootLoop lb ub delta fn 0 budget segments = .ok none) ∧
    (∀ (lb ub delta : ℚ) (fn : ℚ → ℚ) (fuel : ℕ) (budget : ℤ) (segments : ℕ),
      (segments : ℤ) ≤ budget →
      findZeroCrossing lb ub segments fn = none →
      findAnyRootLoop lb ub delta fn (fuel + 1) budget segments =
        findAnyRootLoop lb ub delta fn fuel (budget - (segments : ℤ)) (segments * 2)) ∧
    (∀ (lb ub delta : ℚ) (fn : ℚ → ℚ) (fuel : ℕ) (budget : ℤ) (segments : ℕ)
        (a b : ℚ),
      (segments : ℤ) ≤ budget →
      findZeroCrossing lb ub segments fn = some (a, b) →
      findAnyRootLoop lb ub delta fn (fuel + 1) budget segments =
        (match binSearchLoop fn delta 1000 ⟨a, b⟩ with
         | .ok x => .ok (some x)
         | .error e => .error e)) ∧
    (∀ (fn : ℚ → ℚ) (delta : ℚ) (bs : BinarySearch),
      binSearchLoop fn delta 0 bs =
        .error "Binary search did not complete in 1000 iterations") ∧
    (∀ (fn : ℚ → ℚ) (delta : ℚ) (fuel : ℕ) (bs : BinarySearch) (x : ℚ),
      binSearchLoop fn delta fuel bs = .ok x → |fn x| ≤ delta) ∧
    (∀ (lb ub : ℚ) (n : ℕ) (fn : ℚ → ℚ) (a b : ℚ),
      findZeroCrossing lb ub n fn = some (a, b) →
      fn a * fn b < 0 ∧ b = a + (ub - lb) / (n : ℚ) ∧
      ∃ i : ℕ, i < n ∧ a = lb + (i : ℚ) * ((ub - lb) / (n : ℚ)) ∧
        ∀ j : ℕ, j < i →
          ¬(fn (lb + (j : ℚ) * ((ub - lb) / (n : ℚ))) *
            fn (lb + ((j : ℚ) + 1) * ((ub - lb) / (n : ℚ))) < 0)) ∧
    (∀ (t0 : XirrTxn) (rest : List XirrTxn) (txns : List Txn),
      ((t0 :: rest).any fun t => decide (0 < t.cashFlow)) = true →
      ((t0 :: rest).any fun t => decide (t.cashFlow < 0)) = true →
      mapCountDays t0.time (t0 :: rest) = .ok txns →
      xirr (t0 :: rest) =
        findAnyRoot (-(2/100)) (2/100) 10000 (1/10000000)
          (fun r => simulateNetFutureValue txns r)) := by
  refine ⟨?_, ?_, ?_, ?_, ?_, ?_, ?_, ?_, ?_⟩
  · intro lb ub budget delta fn
    rfl
  · intro lb ub delta fn fuel budget segments h
    rw [findAnyRootLoop, if_pos h]
  · intro lb ub delta fn budget segments
    rfl
  · intro lb ub delta fn fuel budget segments h hcross
    rw [findAnyRootLoop, if_neg (not_lt.mpr h), hcross]
  · intro lb ub delta fn fuel budget segments a b h hcross
    rw [findAnyRootLoop, if_neg (not_lt.mpr h), hcross]
  · intro fn delta bs
    rfl
  · intro fn delta fuel bs x h
    exact binSearchLoop_ok fn delta fuel bs x h
  · intro lb ub n fn a b h
    exact findZeroCrossingAux_some fn ((ub - lb) / (n : ℚ)) n lb a b h
  · intro t0 rest txns hpos hneg hmap
    rw [xirr]
    rw [if_neg]
    · rw [hmap]
    · simp only [hpos, hneg, Bool.not_true, Bool.or_self]
      exact Bool.false_ne_true

/-- Demo function for the root-finder: `x - 1/3`, crossing zero inside
`[0, 1]`. -/
def c7Fn : ℚ → ℚ := fun x => x - 1/3

/-- Demo function with no sign change: constantly `1`. -/
def c7Const : ℚ → ℚ := fun _ => 1

/-- Witness for C7: each conjunct applied at concrete inputs over the demo
functions, with the hypotheses evaluated. -/
theorem claim_C7_root_finder_structure_witness :
    findAnyRoot (-1) 1 10 1 c7Fn = findAnyRootLoop (-1) 1 1 c7Fn 100 10 2 ∧
    findAnyRootLoop (-1) 1 1 c7Fn 3 1 2 = .ok none ∧
    findAnyRootLoop (-1) 1 1 c7Fn 0 10 2 = .ok none ∧
    findAnyRootLoop (-1) 1 1 c7Const 3 10 2 =
      findAnyRootLoop (-1) 1 1 c7Const 2 (10 - ((2 : ℕ) : ℤ)) (2 * 2) ∧
    findAnyRootLoop (-1) 1 1 c7Fn 3 10 2 =
      (match binSearchLoop c7Fn 1 1000 ⟨0, 1⟩ with
       | .ok x => .ok (some x)
       | .error e => .error e) ∧
    binSearchLoop c7Fn 1 0 ⟨0, 1⟩ =
      .error "Binary search did not complete in 1000 iterations" ∧
    |c7Fn 0| ≤ 1 ∧
    c7Fn 0 * c7Fn 1 < 0 ∧
    xirr [⟨-1, 0⟩, ⟨2, 5⟩] =
      findAnyRoot (-(2/100)) (2/100) 10000 (1/10000000)
        (fun r => simulateNetFutureValue [⟨-1, 0⟩, ⟨2, 5⟩] r) := by
  have hcrossSome : findZeroCrossing (-1) 1 2 c7Fn = some (0, 1) := by
    norm_num [findZeroCrossing, findZeroCrossingAux, c7Fn]
  have hcrossNone : findZeroCrossing (-1) 1 2 c7Const = none := by
    norm_num [findZeroCrossing, findZeroCrossingAux, c7Const]
  have hbs : binSearchLoop c7Fn 1 5 ⟨0, 1⟩ = .ok 0 := by
    rw [binSearchLoop]
    rw [if_pos (by norm_num [c7Fn, abs_le])]
  have hmap : mapCountDays 0 [⟨-1, 0⟩, ⟨2, 5⟩] = .ok [⟨-1, 0⟩, ⟨2, 5⟩] := by
    norm_num [mapCountDays, countDays]
  refine ⟨claim_C7_root_finder_structure.1 (-1) 1 10 1 c7Fn,
    claim_C7_root_finder_structure.2.1 (-1) 1 1 c7Fn 2 1 2 (by norm_num),
    claim_C7_root_finder_structure.2.2.1 (-1) 1 1 c7Fn 10 2,
    claim_C7_root_finder_structure.2.2.2.1 (-1) 1 1 c7Const 2 10 2 (by norm_num)
      hcrossNone,
    claim_C7_root_finder_structure.2.2.2.2.1 (-1) 1 1 c7Fn 2 10 2 0 1 (by norm_num)
      hcrossSome,
    claim_C7_root_finder_structure.2.2.2.2.2.1 c7Fn 1 ⟨0, 1⟩,
    claim_C7_root_finder_structure.2.2.2.2.2.2.1 c7Fn 1 5 ⟨0, 1⟩ 0 hbs,
    (claim_C7_root_finder_structure.2.2.2.2.2.2.2.1 (-1) 1 2 c7Fn 0 1 hcrossSome).1,
    claim_C7_root_finder_structure.2.2.2.2.2.2.2.2 ⟨-1, 0⟩ [⟨2, 5⟩] [⟨-1, 0⟩, ⟨2, 5⟩]
      (by simp) (by simp) hmap⟩

/-- The short-list branch of `calculateXirr` fires for every oracle. -/
theorem calculateXirr_short (oracle : List ℚ → List ℤ → Except String XirrOut)
    (pairs : List (ℤ × ℚ)) (h : pairs.length < 2) :
    calculateXirr oracle pairs =
      ⟨.fail "At least two values are required for XIRR calculation", []⟩ := by
  simp only [calculateXirr]
  rw [if_pos (by rw [List.length_mergeSort]; exact h)]

/-- With at least two sorted pairs and a zero final cash flow, the last
pair is popped before the oracle runs. -/
theorem calculateXirr_dropZero (oracle : List ℚ → List ℤ → Except String XirrOut)
    (pairs : List (ℤ × ℚ)) (p : ℤ × ℚ)
    (h2 : 2 ≤ (pairs.mergeSort xirrPairLe).length)
    (hl : (pairs.mergeSort xirrPairLe).getLast? = some p) (hz : p.2 = 0) :
    calculateXirr oracle pairs =
      xirrOracleStep oracle (pairs.mergeSort xirrPairLe).dropLast := by
  simp only [calculateXirr]
  rw [if_neg (not_lt.mpr h2), hl]
  dsimp only
  rw [if_pos hz]

/-- With at least two sorted pairs and a non-zero final cash flow, the
whole sorted list reaches the oracle. -/
theorem calculateXirr_keep (oracle : List ℚ → List ℤ → Except String XirrOut)
    (pairs : List (ℤ × ℚ)) (p : ℤ × ℚ)
    (h2 : 2 ≤ (pairs.mergeSort xirrPairLe).length)
    (hl : (pairs.mergeSort xirrPairLe).getLast? = some p) (hz : ¬p.2 = 0) :
    calculateXirr oracle pairs =
      xirrOracleStep oracle (pairs.mergeSort xirrPairLe) := by
  simp only [calculateXirr]
  rw [if_neg (not_lt.mpr h2), hl]
  dsimp only
  rw [if_neg hz]

/-- `xirr` fails fast when a positive or a negative cash flow is missing. -/
theorem xirr_signFail (txns : List XirrTxn)
    (h : (txns.any fun t => decide (0 < t.cashFlow)) = false ∨
         (txns.any fun t => decide (t.cashFlow < 0)) = false) :
    xirr txns =
      .error "Invalid transactions: must contain at least one positive and one negative cash flow" := by
  simp only [xirr]
  rw [if_pos]
  rcases h with h | h <;> simp [h]

/-- C8: the XIRR edge-case policy.  A list that sorts to fewer than two
pairs fails with the descriptive message (1) and the result does not
depend on the oracle at all, so the numeric search is never attempted (2);
with at least two pairs, a zero final cash flow (after the stable sort by
date) is dropped before the oracle runs (3) and a non-zero one is kept
(4); and `xirr` fails fast with its descriptive message when the cash
flows lack a positive or a negative entry (5). -/
theorem claim_C8_xirr_edge_cases :
    (∀ (oracle : List ℚ → List ℤ → Except String XirrOut)
        (pairs : List (ℤ × ℚ)), pairs.length < 2 →
      calculateXirr oracle pairs =
        ⟨.fail "At least two values are required for XIRR calculation", []⟩) ∧
    (∀ (oracle1 oracle2 : List ℚ → List ℤ → Except String XirrOut)
        (pairs : List (ℤ × ℚ)), pairs.length < 2 →
      calculateXirr oracle1 pairs = calculateXirr oracle2 pairs) ∧
    (∀ (oracle : List ℚ → List ℤ → Except String XirrOut)
        (pairs : List (ℤ × ℚ)) (p : ℤ × ℚ),
      2 ≤ (pairs.mergeSort xirrPairLe).length →
      (pairs.mergeSort xirrPairLe).getLast? = some p → p.2 = 0 →
      calculateXirr oracle pairs =
        xirrOracleStep oracle (pairs.mergeSort xirrPairLe).dropLast) ∧
    (∀ (oracle : List ℚ → List ℤ → Except String XirrOut)
        (pairs : List (ℤ × ℚ)) (p : ℤ × ℚ),
      2 ≤ (pairs.mergeSort xirrPairLe).length →
      (pairs.mergeSort xirrPairLe).getLast? = some p → ¬p.2 = 0 →
      calculateXirr oracle pairs =
        xirrOracleStep oracle (pairs.mergeSort xirrPairLe)) ∧
    (∀ txns : List XirrTxn,
      (txns.any fun t => decide (0 < t.cashFlow)) = false ∨
      (txns.any fun t => decide (t.cashFlow < 0)) = false →
      xirr txns =
        .error "Invalid transactions: must contain at least one positive and one negative cash flow") := by
  refine ⟨calculateXirr_short, ?_, calculateXirr_dropZero, calculateXirr_keep,
    xirr_signFail⟩
  intro oracle1 oracle2 pairs h
  rw [calculateXirr_short oracle1 pairs h, calculateXirr_short oracle2 pairs h]

/-- Oracle used in concrete runs: returns the first cash flow it is shown
(so its result reveals the order of the list it receives). -/
def xirrHeadOracle : List ℚ → List ℤ → Except String XirrOut :=
  fun cashFlows _ => .ok (.num (cashFlows.headD 0))

/-- Oracle used in concrete runs: constantly zero. -/
def xirrConstOracle : List ℚ → List ℤ → Except String XirrOut :=
  fun _ _ => .ok (.num 0)

/-- Witness for C8 at concrete lists: a one-pair list fails for either
oracle with the same result, a sorted two-pair list with zero final flow
is popped, one with non-zero final flow is kept, and an all-positive cash
flow list makes `xirr` fail fast. -/
theorem claim_C8_xirr_edge_cases_witness :
    calculateXirr xirrHeadOracle [((0 : ℤ), (1 : ℚ))] =
      ⟨.fail "At least two values are required for XIRR calculation", []⟩ ∧
    calculateXirr xirrHeadOracle [((0 : ℤ), (1 : ℚ))] =
      calculateXirr xirrConstOracle [((0 : ℤ), (1 : ℚ))] ∧
    calculateXirr xirrHeadOracle [((0 : ℤ), (1 : ℚ)), ((1 : ℤ), (0 : ℚ))] =
      xirrOracleStep xirrHeadOracle
        (([((0 : ℤ), (1 : ℚ)), ((1 : ℤ), (0 : ℚ))].mergeSort xirrPairLe).dropLast) ∧
    calculateXirr xirrHeadOracle [((0 : ℤ), (5 : ℚ)), ((1 : ℤ), (-3 : ℚ))] =
      xirrOracleStep xirrHeadOracle
        ([((0 : ℤ), (5 : ℚ)), ((1 : ℤ), (-3 : ℚ))].mergeSort xirrPairLe) ∧
    xirr [⟨1, 0⟩, ⟨2, 5⟩] =
      .error "Invalid transactions: must contain at least one positive and one negative cash flow" := by
  have hms1 : [((0 : ℤ), (1 : ℚ)), ((1 : ℤ), (0 : ℚ))].mergeSort xirrPairLe =
      [((0 : ℤ), (1 : ℚ)), ((1 : ℤ), (0 : ℚ))] := by
    apply List.mergeSort_of_sorted
    simp [xirrPairLe]
  have hms2 : [((0 : ℤ), (5 : ℚ)), ((1 : ℤ), (-3 : ℚ))].mergeSort xirrPairLe =
      [((0 : ℤ), (5 : ℚ)), ((1 : ℤ), (-3 : ℚ))] := by
    apply List.mergeSort_of_sorted
    simp [xirrPairLe]
  refine ⟨claim_C8_xirr_edge_cases.1 xirrHeadOracle _ (by simp),
    claim_C8_xirr_edge_cases.2.1 xirrHeadOracle xirrConstOracle _ (by simp),
    claim_C8_xirr_edge_cases.2.2.1 xirrHeadOracle _ ((1 : ℤ), (0 : ℚ))
      (by rw [hms1]; simp) (by rw [hms1]; rfl) rfl,
    claim_C8_xirr_edge_cases.2.2.2.1 xirrHeadOracle _ ((1 : ℤ), (-3 : ℚ))
      (by rw [hms2]; simp) (by rw [hms2]; rfl) (by norm_num),
    claim_C8_xirr_edge_cases.2.2.2.2 [⟨1, 0⟩, ⟨2, 5⟩] (Or.inr (by simp))⟩

/-- C9 (amended): `calculateXirr` is invariant under permutation of its
input whenever the dates are pairwise distinct.  The stable sort then has
a unique sorted arrangement, so both runs hand the oracle the same lists.
(With tied dates the claim fails: the sort keeps the input order of the
tied pairs, see the counterexample.) -/
theorem claim_C9_permutation_invariance
    (oracle : List ℚ → List ℤ → Except String XirrOut)
    (l1 l2 : List (ℤ × ℚ)) (hperm : l1.Perm l2)
    (hnodup : (l1.map Prod.fst).Nodup) :
    calculateXirr oracle l1 = calculateXirr oracle l2 := by
  have htrans : ∀ a b c : ℤ × ℚ,
      xirrPairLe a b = true → xirrPairLe b c = true → xirrPairLe a c = true := by
    intro a b c hab hbc
    simp only [xirrPairLe, decide_eq_true_eq] at *
    omega
  have htotal : ∀ a b : ℤ × ℚ, (xirrPairLe a b || xirrPairLe b a) = true := by
    intro a b
    simp only [xirrPairLe, Bool.or_eq_true, decide_eq_true_eq]
    omega
  have hstrict : ∀ l : List (ℤ × ℚ),
      List.Pairwise (fun a b => xirrPairLe a b = true) l →
      (l.map Prod.fst).Nodup →
      List.Pairwise (fun a b : ℤ × ℚ => a.1 < b.1) l := by
    intro l hle hnd
    have hne : List.Pairwise (fun a b : ℤ × ℚ => a.1 ≠ b.1) l :=
      List.pairwise_map.mp hnd
    refine (hle.and hne).imp ?_
    intro a b hab
    have h1 : a.1 ≤ b.1 := by
      have := hab.1
      simpa [xirrPairLe] using this
    exact lt_of_le_of_ne h1 hab.2
  have hp : (l1.mergeSort xirrPairLe).Perm (l2.mergeSort xirrPairLe) :=
    (List.mergeSort_perm l1 _).trans (hperm.trans (List.mergeSort_perm l2 _).symm)
  have hn1 : ((l1.mergeSort xirrPairLe).map Prod.fst).Nodup :=
    ((List.mergeSort_perm l1 _).map Prod.fst).nodup_iff.mpr hnodup
  have hn2 : ((l2.mergeSort xirrPairLe).map Prod.fst).Nodup :=
    ((List.mergeSort_perm l2 _).map Prod.fst).nodup_iff.mpr
      ((hperm.map Prod.fst).nodup_iff.mp hnodup)
  have hs1 := List.sorted_mergeSort htrans htotal l1
  have hs2 := List.sorted_mergeSort htrans htotal l2
  have hanti : IsAntisymm (ℤ × ℚ) (fun a b => a.1 < b.1) :=
    ⟨fun _ _ h1 h2 => absurd h2 (lt_asymm h1)⟩
  have hms : l1.mergeSort xirrPairLe = l2.mergeSort xirrPairLe :=
    List.eq_of_perm_of_sorted hp (hstrict _ hs1 hn1) (hstrict _ hs2 hn2)
  simp only [calculateXirr, hms]

/-- Counterexample for C9 as stated: with two pairs sharing the same date,
swapping them changes the order of the cash flows the oracle receives, so
the result changes.  The date-revealing oracle returns the first cash flow
it is shown: `1` for one ordering, `5` for the other. -/
theorem claim_C9_counterexample :
    ([((0 : ℤ), (1 : ℚ)), ((0 : ℤ), (5 : ℚ))] : List (ℤ × ℚ)).Perm
      [((0 : ℤ), (5 : ℚ)), ((0 : ℤ), (1 : ℚ))] ∧
    calculateXirr xirrHeadOracle [((0 : ℤ), (1 : ℚ)), ((0 : ℤ), (5 : ℚ))] =
      ⟨.ok 1, []⟩ ∧
    calculateXirr xirrHeadOracle [((0 : ℤ), (5 : ℚ)), ((0 : ℤ), (1 : ℚ))] =
      ⟨.ok 5, []⟩ ∧
    ¬(⟨.ok 1, []⟩ : VRes ℚ) = ⟨.ok 5, []⟩ := by
  have hms1 : [((0 : ℤ), (1 : ℚ)), ((0 : ℤ), (5 : ℚ))].mergeSort xirrPairLe =
      [((0 : ℤ), (1 : ℚ)), ((0 : ℤ), (5 : ℚ))] := by
    apply List.mergeSort_of_sorted
    simp [xirrPairLe]
  have hms2 : [((0 : ℤ), (5 : ℚ)), ((0 : ℤ), (1 : ℚ))].mergeSort xirrPairLe =
      [((0 : ℤ), (5 : ℚ)), ((0 : ℤ), (1 : ℚ))] := by
    apply List.mergeSort_of_sorted
    simp [xirrPairLe]
  have h1 : calculateXirr xirrHeadOracle [((0 : ℤ), (1 : ℚ)), ((0 : ℤ), (5 : ℚ))] =
      xirrOracleStep xirrHeadOracle [((0 : ℤ), (1 : ℚ)), ((0 : ℤ), (5 : ℚ))] := by
    rw [calculateXirr_keep xirrHeadOracle _ ((0 : ℤ), (5 : ℚ))
      (by rw [hms1]; simp) (by rw [hms1]; rfl) (by norm_num), hms1]
  have h2 : calculateXirr xirrHeadOracle [((0 : ℤ), (5 : ℚ)), ((0 : ℤ), (1 : ℚ))] =
      xirrOracleStep xirrHeadOracle [((0 : ℤ), (5 : ℚ)), ((0 : ℤ), (1 : ℚ))] := by
    rw [calculateXirr_keep xirrHeadOracle _ ((0 : ℤ), (1 : ℚ))
      (by rw [hms2]; simp) (by rw [hms2]; rfl) (by norm_num), hms2]
  refine ⟨List.Perm.swap ((0 : ℤ), (5 : ℚ)) ((0 : ℤ), (1 : ℚ)) [], ?_, ?_, ?_⟩
  · rw [h1]; rfl
  · rw [h2]; rfl
  · simp

/-- Witness for C9 (amended): two concrete permuted lists with distinct
dates give the same result. -/
theorem claim_C9_permutation_invariance_witness :
    calculateXirr xirrHeadOracle [((0 : ℤ), (1 : ℚ)), ((1 : ℤ), (2 : ℚ))] =
      calculateXirr xirrHeadOracle [((1 : ℤ), (2 : ℚ)), ((0 : ℤ), (1 : ℚ))] :=
  claim_C9_permutation_invariance xirrHeadOracle _ _
    (List.Perm.swap ((1 : ℤ), (2 : ℚ)) ((0 : ℤ), (1 : ℚ)) [])
    (by simp)
